import Mathlib

/-!
# Invoice generator: totals, validation and invoice numbering

A shallow embedding of the invoice generator:

* `routes/invoices.js`: the Create Invoice handler (validation, per-product totals,
  `totalCharges`, `gst`, `totalAmount`) and the currency formatting of the PDF template;
* `models/Invoice.js`: the invoice document, the validators of its schema and the pre-save
  hook that assigns `invoiceNumber`;
* `client/src/components/AddProduct.js`: the submit handler and the totals of the product
  form.

JavaScript numbers are modelled as IEEE-754 binary64 values: a finite number carries its
exact rational value and every arithmetic operation rounds the exact result to the nearest
representable value, ties to even.
-/

namespace InvoiceGenerator

/-! ## JavaScript numbers -/

/-- A JavaScript number. A finite number carries its exact rational value; the two signed
zeros are identified (they are equal under every operation used by the program). -/
inductive JSNumber where
  | fin (q : ℚ)
  | posInf
  | negInf
  | nan
deriving DecidableEq

namespace JSNumber

/-- The power of two `2 ^ e` as a rational, for an integer exponent. -/
def pow2 (e : Int) : ℚ :=
  if 0 ≤ e then ((2 ^ e.toNat : Nat) : ℚ) else 1 / ((2 ^ (-e).toNat : Nat) : ℚ)

/-- Fuel-bounded binary logarithm: the number of halvings until the argument is below 2. -/
def log2Aux : Nat → Nat → Nat
  | 0, _ => 0
  | fuel + 1, n => if n < 2 then 0 else log2Aux fuel (n / 2) + 1

/-- The floor of the binary logarithm of a positive natural number. -/
def floorLog2 (n : Nat) : Nat := log2Aux n n

/-- The binade of a non-zero rational: the integer `e` with `2 ^ e ≤ |q| < 2 ^ (e + 1)`. -/
def binadeExp (q : ℚ) : Int :=
  let e0 : Int := (floorLog2 q.num.natAbs : Int) - (floorLog2 q.den : Int)
  if pow2 e0 ≤ |q| then e0 else e0 - 1

/-- Rounding of a rational to the nearest integer, ties to the even one. -/
def roundHalfEven (q : ℚ) : Int :=
  let f := Rat.floor q
  let r := q - f
  if r < 1 / 2 then f
  else if 1 / 2 < r then f + 1
  else if f % 2 = 0 then f else f + 1

/-- The binary64 value of an exact result: round to 53 significant bits (fewer in the
subnormal range, whose spacing is `2 ^ (-1074)`), ties to even; a result whose rounded
magnitude reaches `2 ^ 1024` overflows to an infinity. -/
def roundDouble (q : ℚ) : JSNumber :=
  if q = 0 then fin 0
  else
    let p := max (binadeExp q - 52) (-1074)
    let r := (roundHalfEven (q / pow2 p) : ℚ) * pow2 p
    if pow2 1024 ≤ |r| then (if q < 0 then negInf else posInf) else fin r

/-- JavaScript `a + b` on numbers. -/
def add : JSNumber → JSNumber → JSNumber
  | fin a, fin b => roundDouble (a + b)
  | nan, _ => nan
  | _, nan => nan
  | posInf, negInf => nan
  | negInf, posInf => nan
  | posInf, _ => posInf
  | _, posInf => posInf
  | negInf, _ => negInf
  | _, negInf => negInf

/-- The product of an infinity with a finite factor: `NaN` for a zero factor, otherwise the
infinity of the combined sign. -/
def infTimes (negative : Bool) (q : ℚ) : JSNumber :=
  if q = 0 then nan
  else if (q < 0) = negative then posInf else negInf

/-- JavaScript `a * b` on numbers. -/
def mul : JSNumber → JSNumber → JSNumber
  | fin a, fin b => roundDouble (a * b)
  | nan, _ => nan
  | _, nan => nan
  | posInf, fin b => infTimes false b
  | negInf, fin b => infTimes true b
  | fin a, posInf => infTimes false a
  | fin a, negInf => infTimes true a
  | posInf, posInf => posInf
  | negInf, negInf => posInf
  | posInf, negInf => negInf
  | negInf, posInf => negInf

instance : Add JSNumber := ⟨add⟩

instance : Mul JSNumber := ⟨mul⟩

/-- The number denoted by a decimal literal of the source text, such as `0.18`. -/
def ofDecimal (q : ℚ) : JSNumber := roundDouble q

/-- The number an integer literal or an integer count denotes. -/
def ofNat (n : Nat) : JSNumber := roundDouble (n : ℚ)

end JSNumber

/-! ## JavaScript strings of numbers -/

/-- Decimal digits of a natural number, least significant first (fuel-bounded). -/
def digitsRevAux : Nat → Nat → List Nat
  | 0, _ => []
  | fuel + 1, n => if n < 10 then [n] else n % 10 :: digitsRevAux fuel (n / 10)

/-- The character of a decimal digit. -/
def digitChar (d : Nat) : Char := Char.ofNat (48 + d)

/-- The decimal numeral of a natural number, most significant digit first, as characters. -/
def natDigits (n : Nat) : List Char := ((digitsRevAux (n + 1) n).reverse).map digitChar

/-- JavaScript `String(n)` for a non-negative integer `n` below `10 ^ 21`. -/
def natToString (n : Nat) : String := String.mk (natDigits n)

/-- JavaScript `s.padStart(targetLength, c)` for a one-character pad string. -/
def padStart (s : String) (targetLength : Nat) (c : Char) : String :=
  String.mk (List.replicate (targetLength - s.length) c ++ s.data)

/-- The value of a string of decimal digits (leading zeros allowed). -/
def digitsValue (cs : List Char) : Nat :=
  cs.foldl (fun acc c => acc * 10 + (c.toNat - 48)) 0

/-- The power of ten `10 ^ e` as a rational, for an integer exponent. -/
def pow10 (e : Int) : ℚ :=
  if 0 ≤ e then ((10 ^ e.toNat : Nat) : ℚ) else 1 / ((10 ^ (-e).toNat : Nat) : ℚ)

/-- For `0 < q < 1`: the least `j ≥ 1` with `1 ≤ q * 10 ^ j`, searched from `j` upwards. -/
def leadingShift : Nat → Nat → ℚ → Nat
  | 0, j, _ => j
  | fuel + 1, j, q => if 1 ≤ q * pow10 j then j else leadingShift fuel (j + 1) q

/-- The decimal exponent of a positive rational: the `n` with `10 ^ (n - 1) ≤ q < 10 ^ n`. -/
def decimalExp (q : ℚ) : Int :=
  if 1 ≤ q then ((natDigits (Rat.floor q).toNat).length : Int)
  else 1 - (leadingShift 400 1 q : Int)

/-- One candidate significand for `Number::toString`: `c` is kept when `c * scale` reads
back as the number `q`. -/
def readsBack (q scale : ℚ) (c : Int) : Bool :=
  decide (JSNumber.roundDouble ((c : ℚ) * scale) = JSNumber.fin q)

/-- The shortest significand: the least `k` (from `k` upwards, at most `fuel` more) for
which a `k`-digit integer `s` exists with `s * 10 ^ (n - k)` reading back as `q`; of two
such integers the one nearer to `q` is taken. Returns `s` and `k`. -/
def shortestDigits (q : ℚ) (n : Int) : Nat → Nat → Int × Nat
  | 0, k => (JSNumber.roundHalfEven (q / pow10 (n - k)), k)
  | fuel + 1, k =>
    let scale := pow10 (n - k)
    let lo := Rat.floor (q / scale)
    let hi := lo + 1
    let okLo := readsBack q scale lo
    let okHi := readsBack q scale hi
    if okLo && okHi then
      (if q - lo * scale ≤ hi * scale - q then (lo, k) else (hi, k))
    else if okLo then (lo, k)
    else if okHi then (hi, k)
    else shortestDigits q n fuel (k + 1)

/-- The characters of `Number::toString` for a positive finite number, from its shortest
significand `s` of `k` digits and its decimal exponent `n`. -/
def layoutDigits (ds : List Char) (k : Nat) (n : Int) : List Char :=
  if (k : Int) ≤ n ∧ n ≤ 21 then
    ds ++ List.replicate (n - k).toNat '0'
  else if 0 < n ∧ n ≤ 21 then
    ds.take n.toNat ++ ['.'] ++ ds.drop n.toNat
  else if -6 < n ∧ n ≤ 0 then
    ['0', '.'] ++ List.replicate (-n).toNat '0' ++ ds
  else
    let e := n - 1
    let sign := if 0 ≤ e then '+' else '-'
    let mant := if k = 1 then ds else ds.take 1 ++ ['.'] ++ ds.drop 1
    mant ++ ['e', sign] ++ natDigits e.natAbs

/-- JavaScript `String(x)` for a positive finite number. -/
def positiveToString (q : ℚ) : List Char :=
  let n := decimalExp q
  let sk := shortestDigits q n 17 1
  if sk.1 = 10 ^ sk.2 then layoutDigits ['1'] 1 (n + 1)
  else layoutDigits (natDigits sk.1.toNat) sk.2 n

/-- JavaScript `String(x)` (`Number::toString`, radix 10). -/
def numberToString : JSNumber → String
  | JSNumber.nan => "NaN"
  | JSNumber.posInf => "Infinity"
  | JSNumber.negInf => "-Infinity"
  | JSNumber.fin q =>
    if q = 0 then "0"
    else if q < 0 then String.mk ('-' :: positiveToString (-q))
    else String.mk (positiveToString q)

/-- The integer `n` of `Number.prototype.toFixed(2)`: the one for which `n / 100` is
closest to the non-negative value `a`, the larger one on a tie. -/
def toFixedUnits (a : ℚ) : Nat := (Rat.floor (a * 100 + 1 / 2)).toNat

/-- JavaScript `x.toFixed(2)`. -/
def toFixed2 : JSNumber → String
  | JSNumber.fin q =>
    let sign := if q < 0 then "-" else ""
    let a := |q|
    if ((10 ^ 21 : Nat) : ℚ) ≤ a then sign ++ numberToString (JSNumber.fin a)
    else
      let m := padStart (natToString (toFixedUnits a)) 3 '0'
      sign ++ String.mk (m.data.take (m.length - 2)) ++ "." ++
        String.mk (m.data.drop (m.length - 2))
  | x => numberToString x

/-- The arrow function `formatCurrency` of `generateInvoiceHTML` (`routes/invoices.js`):
the currency marker followed by the amount with two fixed decimals. -/
def formatCurrency (amount : JSNumber) : String := "USD " ++ toFixed2 amount

/-! ## Documents (`models/Invoice.js`) -/

/-- One element of `req.body.products`: the fields the Create Invoice handler reads. The
numeric fields are taken at their numeric value. -/
structure Product where
  name : String
  qty : JSNumber
  rate : JSNumber
deriving DecidableEq

/-- A product of an invoice document (`productSchema`): the submitted fields and the
computed `total`. The name is as the `trim` setter of the schema leaves it. -/
structure LineItem where
  name : String
  qty : JSNumber
  rate : JSNumber
  total : JSNumber
deriving DecidableEq

/-- An invoice document (`invoiceSchema`). `invoiceNumber` is `none` while the field is
undefined; object ids and dates are natural numbers. -/
structure Invoice where
  id : Nat
  user : Nat
  invoiceNumber : Option String
  date : Nat
  products : List LineItem
  totalCharges : JSNumber
  gst : JSNumber
  totalAmount : JSNumber
  status : String
  createdAt : Nat
  updatedAt : Nat
deriving DecidableEq

/-- The invoices collection, in insertion order. -/
abbrev Store := List Invoice

/-- What the environment supplies when a document is constructed: the clock (`Date.now`)
and the fresh object id of the document. -/
structure Env where
  now : Nat
  objectId : Nat

/-- The invoice number the pre-save hook builds from the document count:
`INV-` followed by `String(count + 1).padStart(6, '0')`. The count is a natural number;
for every count a collection can report (below `2 ^ 53`) JavaScript computes `count + 1`
exactly and `String` gives its decimal numeral. -/
def invoiceNumberFor (count : Nat) : String :=
  "INV-" ++ padStart (natToString (count + 1)) 6 '0'

/-- The test `!this.invoiceNumber` of the pre-save hook: an undefined or empty string is
falsy. -/
def invoiceNumberMissing (inv : Invoice) : Bool :=
  match inv.invoiceNumber with
  | none => true
  | some s => decide (s = "")

/-- The pre-save hook of `invoiceSchema`, given the result `count` of `countDocuments()`:
only a document without invoice number gets one. -/
def preSave (count : Nat) (inv : Invoice) : Invoice :=
  if invoiceNumberMissing inv then
    { inv with invoiceNumber := some (invoiceNumberFor count) }
  else inv

/-- Why a save is refused: validators of the schema fail (a `ValidationError`, with the
paths that fail), or the unique index on `invoiceNumber` already holds the value. -/
inductive SaveError where
  | validationFailed (paths : List String)
  | duplicateKey
deriving DecidableEq

/-- JavaScript `x >= bound` for a number `x` and a finite bound: the test of a `min`
validator. -/
def atLeast (bound : ℚ) : JSNumber → Bool
  | JSNumber.fin q => decide (bound ≤ q)
  | JSNumber.posInf => true
  | _ => false

/-- The paths of the product at position `i` that fail the validators of `productSchema`:
`name` is required (an empty string fails), `qty` has `min: 1`, `rate` has `min: 0`, and
`total` is required (`NaN` is not cast to a `Number`, which leaves the path without a
value). -/
def productSchemaErrors (i : Nat) (product : LineItem) : List String :=
  (if product.name = "" then ["products." ++ natToString i ++ ".name"] else []) ++
  (if atLeast 1 product.qty then [] else ["products." ++ natToString i ++ ".qty"]) ++
  (if atLeast 0 product.rate then [] else ["products." ++ natToString i ++ ".rate"]) ++
  (if product.total = JSNumber.nan then ["products." ++ natToString i ++ ".total"] else [])

/-- The paths of an invoice document that fail the validators of `invoiceSchema`:
`invoiceNumber` is required (undefined and the empty string fail), the products are
validated by `productSchema`, the three amounts are required numbers and `status` is one
of the values of its `enum`. The owner reference and the date always have a value here. -/
def schemaErrors (inv : Invoice) : List String :=
  (if invoiceNumberMissing inv then ["invoiceNumber"] else []) ++
  (inv.products.enum.flatMap (fun ip => productSchemaErrors ip.1 ip.2)) ++
  (if inv.totalCharges = JSNumber.nan then ["totalCharges"] else []) ++
  (if inv.gst = JSNumber.nan then ["gst"] else []) ++
  (if inv.totalAmount = JSNumber.nan then ["totalAmount"] else []) ++
  (if inv.status = "draft" ∨ inv.status = "sent" ∨ inv.status = "paid" then []
    else ["status"])

/-- The insert of a document into the collection: the unique index on `invoiceNumber`
refuses a document whose value another document already holds. -/
def insertUnique (st : Store) (doc : Invoice) : Except SaveError Store :=
  if st.any (fun other => other.invoiceNumber = doc.invoiceNumber) then
    Except.error SaveError.duplicateKey
  else Except.ok (st ++ [doc])

/-- The call `invoice.save()` for a new document. Mongoose validates the document against
the schema first (its built-in validation runs before every `pre('save')` hook of the
schema) and throws without touching the collection when a validator fails. Then the
pre-save hook runs with the current document count, the timestamps are set, and the
document is inserted unless the unique index refuses it. -/
def save (now : Nat) (st : Store) (inv : Invoice) : Except SaveError (Invoice × Store) :=
  if !(schemaErrors inv).isEmpty then
    Except.error (SaveError.validationFailed (schemaErrors inv))
  else
    match insertUnique st { preSave st.length inv with createdAt := now, updatedAt := now } with
    | Except.error e => Except.error e
    | Except.ok st1 =>
      Except.ok ({ preSave st.length inv with createdAt := now, updatedAt := now }, st1)

/-! ## The Create Invoice handler (`routes/invoices.js`) -/

/-- The characters matched by `\s` in a JavaScript regular expression. -/
def isJsWhitespace (c : Char) : Bool :=
  let n := c.toNat
  n = 9 || n = 10 || n = 11 || n = 12 || n = 13 || n = 32 || n = 160 || n = 5760 ||
    (8192 ≤ n && n ≤ 8202) || n = 8232 || n = 8233 || n = 8239 || n = 8287 ||
    n = 12288 || n = 65279

/-- The sanitizer `trim()`: whitespace removed from both ends. -/
def jsTrim (s : String) : String :=
  String.mk (((s.data.dropWhile isJsWhitespace).reverse.dropWhile isJsWhitespace).reverse)

/-- The validator `isInt({ min: 1 })`. It tests the text `String(qty)`: the text has to be
an optional sign followed by decimal digits, and its value at least 1. The text of a number
is of that form exactly when the number is an integer of magnitude below `10 ^ 21`; from
`10 ^ 21` on `String` writes an exponent (`1e+21`), which the validator refuses. -/
def isIntMin1 : JSNumber → Bool
  | JSNumber.fin q => decide (q.den = 1) && decide (1 ≤ q) && decide (q < 10 ^ 21)
  | _ => false

/-- The validator `isFloat({ min: 0 })`. It tests the text `String(rate)`, which for every
finite number is a decimal numeral, with or without exponent, and requires the value to be
at least 0; the texts `Infinity` and `NaN` are refused. -/
def isFloatMin0 : JSNumber → Bool
  | JSNumber.fin q => decide (0 ≤ q)
  | _ => false

/-- One entry of `errors.array()`. -/
structure ValidationError where
  msg : String
  path : String
deriving DecidableEq

/-- The request as the handler sees it after the `auth` middleware: the caller and
`req.body.products`, which is `none` when the field is absent or not an array. -/
structure Request where
  userId : Nat
  products : Option (List Product)

/-- The path `products[i].field` of a wildcard validator. -/
def fieldPath (i : Nat) (field : String) : String :=
  "products[" ++ natToString i ++ "]." ++ field

/-- The errors of one wildcard validation chain over all products, in order. -/
def chainErrors (ok : Product → Bool) (msg field : String) (ps : List Product) :
    List ValidationError :=
  (ps.enum.filter (fun ip => !ok ip.2)).map (fun ip => ⟨msg, fieldPath ip.1 field⟩)

/-- The result of the four validation chains of `router.post('/')`, chain by chain. -/
def validationResult (products : Option (List Product)) : List ValidationError :=
  match products with
  | none => [⟨"At least one product is required", "products"⟩]
  | some ps =>
    (if 1 ≤ ps.length then [] else [⟨"At least one product is required", "products"⟩]) ++
    chainErrors (fun p => decide (1 ≤ (jsTrim p.name).length)) "Product name is required" "name" ps ++
    chainErrors (fun p => isIntMin1 p.qty) "Quantity must be at least 1" "qty" ps ++
    chainErrors (fun p => isFloatMin0 p.rate) "Rate must be positive" "rate" ps

/-- The body after the sanitizers ran: `trim()` replaces each product name in the request. -/
def sanitizeProducts (ps : List Product) : List Product :=
  ps.map (fun p => { p with name := jsTrim p.name })

/-- The loop `products.map(...)` with its running `totalCharges`: each product gains
`total = qty * rate`, which is also added to the accumulator. Returns `processedProducts`
and the final `totalCharges`. -/
def processProducts (products : List Product) : List LineItem × JSNumber :=
  products.foldl
    (fun acc product =>
      let total := product.qty * product.rate
      (acc.1 ++ [{ name := product.name, qty := product.qty, rate := product.rate,
                   total := total }],
       acc.2 + total))
    ([], JSNumber.fin 0)

/-- The tax rate literal `0.18` of the handler. -/
def gstRate : JSNumber := JSNumber.ofDecimal (18 / 100)

/-- The document `new Invoice({ user, products, totalCharges, gst, totalAmount })` the
handler constructs from the validated products; the schema defaults fill `date` and
`status`, and `invoiceNumber` is left undefined. The names arrive trimmed by the sanitizer
of the validation chain, so the `trim` setter of the schema leaves them as they are. -/
def buildInvoice (env : Env) (userId : Nat) (products : List Product) : Invoice :=
  let processed := processProducts products
  let totalCharges := processed.2
  let gst := totalCharges * gstRate
  let totalAmount := totalCharges + gst
  { id := env.objectId, user := userId, invoiceNumber := none, date := env.now,
    products := processed.1, totalCharges := totalCharges, gst := gst,
    totalAmount := totalAmount, status := "draft", createdAt := env.now,
    updatedAt := env.now }

/-- The JSON response of a handler: status code and body fields. -/
structure Response where
  status : Nat
  success : Bool
  message : String
  errors : List ValidationError
  invoice : Option Invoice
deriving DecidableEq

/-- The handler `router.post('/')`: validation failure answers 400 and touches nothing;
otherwise the invoice is built and saved, answering 201 with the saved document, or 500
from the `catch` block when the save throws. Returns the response and the store
afterwards. -/
def createInvoice (env : Env) (st : Store) (req : Request) : Response × Store :=
  let errors := validationResult req.products
  if !errors.isEmpty then
    (⟨400, false, "Validation failed", errors, none⟩, st)
  else
    match req.products with
    | none => (⟨500, false, "Server error during invoice creation", [], none⟩, st)
    | some ps =>
      match save env.now st (buildInvoice env req.userId (sanitizeProducts ps)) with
      | Except.ok (doc, st1) => (⟨201, true, "Invoice created successfully", [], some doc⟩, st1)
      | Except.error _ => (⟨500, false, "Server error during invoice creation", [], none⟩, st)

/-- Requests handled one after another: each is completed before the next one starts.
Returns the responses in order and the final store. -/
def createSequentially (st : Store) : List (Env × Request) → List Response × Store
  | [] => ([], st)
  | (env, req) :: rest =>
    let r := createInvoice env st req
    let rs := createSequentially r.2 rest
    (r.1 :: rs.1, rs.2)

/-! ## The invoice renderer (`routes/invoices.js`) -/

/-- Modelled from the spec: the user document of `models/User.js`, which is not among the
sources. Only the fields the handlers read are kept: the id and the `name` and `email`
that `populate('user', 'name email')` selects. -/
structure User where
  id : Nat
  name : String
  email : String
deriving DecidableEq

/-- An invoice after `populate('user', 'name email')`: the document, and in place of the
owner reference the owner document, or `none` (JavaScript `null`) when the reference does
not resolve. -/
structure PopulatedInvoice where
  doc : Invoice
  user : Option User
deriving DecidableEq

/-- The call `populate('user', 'name email')` against the users collection. -/
def populate (users : List User) (inv : Invoice) : PopulatedInvoice :=
  ⟨inv, users.find? (fun u => u.id = inv.user)⟩

/-- The calendar date (year, month, day) of the day that lies a number of days after
1 January 1970 (before it, for a negative number), in the proleptic Gregorian calendar. -/
def civilFromDays (days : Int) : Int × Nat × Nat :=
  let z := days + 719468
  let era := z / 146097
  let doe := (z % 146097).toNat
  let yoe := (doe - doe / 1460 + doe / 36524 - doe / 146096) / 365
  let doy := doe - (365 * yoe + yoe / 4 - yoe / 100)
  let mp := (5 * doy + 2) / 153
  let d := doy - (153 * mp + 2) / 5 + 1
  let m := if mp < 10 then mp + 3 else mp - 9
  let y := (yoe : Int) + era * 400 + (if m ≤ 2 then 1 else 0)
  (y, m, d)

/-- The arrow function `formatDate` of `generateInvoiceHTML`:
`toLocaleDateString('en-US', ...)` with a numeric year and two-digit month and day, that is
`MM/DD/YYYY`. The date is in milliseconds since the epoch; the time zone of the server is
taken as a fixed offset from UTC, in minutes. The day of the local time is counted from
the epoch in either direction (a date shortly after the epoch falls on 31 December 1969 at
a negative offset). The year is written as a plain numeral; it is positive for every
offset of a time zone, which is less than a day. -/
def formatDate (utcOffsetMinutes : Int) (date : Nat) : String :=
  let localMs : Int := (date : Int) + utcOffsetMinutes * 60000
  let ymd := civilFromDays (localMs / 86400000)
  padStart (natToString ymd.2.1) 2 '0' ++ "/" ++ padStart (natToString ymd.2.2) 2 '0' ++ "/" ++
    natToString ymd.1.toNat

/-- The template text up to the title. -/
def tplHead : String :=
  "\n" ++
  "    <!DOCTYPE html>\n" ++
  "    <html>\n" ++
  "    <head>\n" ++
  "      <meta charset=\"utf-8\">\n" ++
  "      <title>Invoice "

/-- The template text between the title and the style sheet. -/
def tplStyleOpen : String :=
  "</title>\n" ++
  "      <style>"

/-- The style sheet of the template: the text of its `style` element. -/
def invoiceStyles : String :=
  "\n" ++
  "        * \x7b margin: 0; padding: 0; box-sizing: border-box; \x7d\n" ++
  "        body \x7b font-family: \x27Arial\x27, sans-serif; color: #333; line-height: 1.6; \x7d\n" ++
  "        .container \x7b max-width: 800px; margin: 0 auto; padding: 20px; \x7d\n" ++
  "        .header \x7b text-align: center; margin-bottom: 30px; \x7d\n" ++
  "        .header h1 \x7b color: #2c3e50; font-size: 28px; margin-bottom: 10px; \x7d\n" ++
  "        .logo \x7b width: 60px; height: 60px; background: #3498db; border-radius: 50%; margin: 0 auto 20px; display: flex; align-items: center; justify-content: center; color: white; font-size: 24px; font-weight: bold; \x7d\n" ++
  "        .invoice-info \x7b background: #34495e; color: white; padding: 20px; border-radius: 8px; margin-bottom: 30px; \x7d\n" ++
  "        .invoice-info h2 \x7b margin-bottom: 10px; \x7d\n" ++
  "        .invoice-details \x7b display: flex; justify-content: space-between; margin-bottom: 30px; \x7d\n" ++
  "        .invoice-details div \x7b flex: 1; \x7d\n" ++
  "        .invoice-details h3 \x7b color: #2c3e50; margin-bottom: 10px; \x7d\n" ++
  "        .products-table \x7b width: 100%; border-collapse: collapse; margin-bottom: 30px; \x7d\n" ++
  "        .products-table th \x7b background: #27ae60; color: white; padding: 12px; text-align: left; \x7d\n" ++
  "        .products-table td \x7b padding: 12px; border-bottom: 1px solid #ecf0f1; \x7d\n" ++
  "        .products-table tr:nth-child(even) \x7b background: #f8f9fa; \x7d\n" ++
  "        .totals \x7b text-align: right; margin-top: 20px; \x7d\n" ++
  "        .totals div \x7b margin: 5px 0; padding: 5px 0; \x7d\n" ++
  "        .total-amount \x7b font-size: 18px; font-weight: bold; color: #2c3e50; border-top: 2px solid #3498db; padding-top: 10px; \x7d\n" ++
  "        .footer \x7b text-align: center; margin-top: 40px; padding: 20px; background: #34495e; color: white; border-radius: 8px; \x7d\n" ++
  "      "

/-- The template text from the end of the style sheet to the invoice number. -/
def tplBody : String :=
  "</style>\n" ++
  "    </head>\n" ++
  "    <body>\n" ++
  "      <div class=\"container\">\n" ++
  "        <div class=\"header\">\n" ++
  "          <div class=\"logo\">L</div>\n" ++
  "          <h1>INVOICE GENERATOR</h1>\n" ++
  "        </div>\n" ++
  "\n" ++
  "        <div class=\"invoice-info\">\n" ++
  "          <h2>Invoice Details</h2>\n" ++
  "          <p><strong>Invoice Number:</strong> "

/-- The template text between the invoice number and the date. -/
def tplDate : String :=
  "</p>\n" ++
  "          <p><strong>Date:</strong> "

/-- The template text between the date and the owner name. -/
def tplBilledTo : String :=
  "</p>\n" ++
  "        </div>\n" ++
  "\n" ++
  "        <div class=\"invoice-details\">\n" ++
  "          <div>\n" ++
  "            <h3>Billed To:</h3>\n" ++
  "            <p><strong>"

/-- The template text between the owner name and the owner email. -/
def tplEmail : String :=
  "</strong></p>\n" ++
  "            <p>"

/-- The template text between the owner email and the table rows. -/
def tplTable : String :=
  "</p>\n" ++
  "          </div>\n" ++
  "          <div>\n" ++
  "            <h3>From:</h3>\n" ++
  "            <p><strong>Levitation</strong></p>\n" ++
  "            <p>Invoice Generator Service</p>\n" ++
  "          </div>\n" ++
  "        </div>\n" ++
  "\n" ++
  "        <table class=\"products-table\">\n" ++
  "          <thead>\n" ++
  "            <tr>\n" ++
  "              <th>Product</th>\n" ++
  "              <th>Qty</th>\n" ++
  "              <th>Rate</th>\n" ++
  "              <th>Total Amount</th>\n" ++
  "            </tr>\n" ++
  "          </thead>\n" ++
  "          <tbody>\n" ++
  "            "

/-- The template text between the table rows and the subtotal. -/
def tplTotals : String :=
  "\n" ++
  "          </tbody>\n" ++
  "        </table>\n" ++
  "\n" ++
  "        <div class=\"totals\">\n" ++
  "          <div>Total Charges: "

/-- The template text between the subtotal and the tax. -/
def tplGst : String :=
  "</div>\n" ++
  "          <div>GST (18%): "

/-- The template text between the tax and the grand total. -/
def tplTotalAmount : String :=
  "</div>\n" ++
  "          <div class=\"total-amount\">Total Amount: "

/-- The template text after the grand total. -/
def tplFooter : String :=
  "</div>\n" ++
  "        </div>\n" ++
  "\n" ++
  "        <div class=\"footer\">\n" ++
  "          <p>We are pleased to provide any further information you may require and look forward to assisting with your next order.</p>\n" ++
  "          <p>Thank you for your business!</p>\n" ++
  "        </div>\n" ++
  "      </div>\n" ++
  "    </body>\n" ++
  "    </html>\n" ++
  "  "

/-- The text that opens a table row, up to the product name. -/
def rowOpen : String :=
  "\n" ++
  "              <tr>\n" ++
  "                <td>"

/-- The text between two cells of a table row. -/
def cellSep : String :=
  "</td>\n" ++
  "                <td>"

/-- The text that closes a table row. -/
def rowClose : String :=
  "</td>\n" ++
  "              </tr>\n" ++
  "            "

/-- JavaScript `arr.join('')` on strings. -/
def joinStrings : List String → String
  | [] => ""
  | s :: ss => s ++ joinStrings ss

/-- The value a template literal writes for `invoice.invoiceNumber`: the string itself, or
`undefined` when the field is not set. -/
def templateString : Option String → String
  | some s => s
  | none => "undefined"

/-- One table row of the template, as the callback of `invoice.products.map` builds it:
name, qty, rate and total of the product, the two amounts through `formatCurrency`. -/
def productRow (product : LineItem) : String :=
  rowOpen ++ product.name ++ cellSep ++ numberToString product.qty ++ cellSep ++
    formatCurrency product.rate ++ cellSep ++ formatCurrency product.total ++ rowClose

/-- The template literal of `generateInvoiceHTML` for an invoice whose owner resolved. -/
def invoiceHTML (utcOffsetMinutes : Int) (invoice : Invoice) (owner : User) : String :=
  tplHead ++ templateString invoice.invoiceNumber ++
    tplStyleOpen ++ invoiceStyles ++ tplBody ++ templateString invoice.invoiceNumber ++
    tplDate ++ formatDate utcOffsetMinutes invoice.date ++
    tplBilledTo ++ owner.name ++
    tplEmail ++ owner.email ++
    tplTable ++ joinStrings (invoice.products.map productRow) ++
    tplTotals ++ formatCurrency invoice.totalCharges ++
    tplGst ++ formatCurrency invoice.gst ++
    tplTotalAmount ++ formatCurrency invoice.totalAmount ++
    tplFooter

/-- An exception thrown by JavaScript code. -/
inductive JsError where
  | typeError
deriving DecidableEq

/-- The function `generateInvoiceHTML`: the template filled in from the populated invoice.
Reading `invoice.user.name` of a `null` owner throws a `TypeError`. -/
def generateInvoiceHTML (utcOffsetMinutes : Int) (invoice : PopulatedInvoice) :
    Except JsError String :=
  match invoice.user with
  | none => Except.error JsError.typeError
  | some owner => Except.ok (invoiceHTML utcOffsetMinutes invoice.doc owner)

/-! ## The Render Invoice PDF handler (`routes/invoices.js`) -/

/-- The request of `router.get('/:id/pdf')` after the `auth` middleware: the id of the
route and the caller. -/
structure PdfRequest where
  id : Nat
  userId : Nat

/-- What the world around the PDF handler does in one run: whether the database query
rejects, and for each call on the rendering engine (`puppeteer.launch`, `newPage`,
`setContent`, `pdf`, `close`) whether it succeeds; `pdf` gives the bytes of the document
for the page content. -/
structure Runtime where
  utcOffsetMinutes : Int
  queryFails : Bool
  launch : Bool
  newPage : Bool
  setContent : String → Bool
  pdf : String → Option (List Nat)
  close : Bool

/-- The observable steps of a run of the PDF handler, in the order they happen: the call
of `generateInvoiceHTML`, each call on the rendering engine that succeeded, and each call
on the response. -/
inductive Event where
  | generateHTML
  | launch
  | newPage
  | setContent (html : String)
  | pdf
  | close
  | status (code : Nat)
  | json (success : Bool) (message : String)
  | setHeader (name value : String)
  | send (bytes : List Nat)
deriving DecidableEq

/-- The query `Invoice.findOne` with `_id` and `user`, followed by `populate`. -/
def findInvoice (users : List User) (st : Store) (req : PdfRequest) : Option PopulatedInvoice :=
  (st.find? (fun inv => inv.id = req.id && inv.user = req.userId)).map (populate users)

/-- The `catch` block of the PDF handler: status 500 with the message
`Error generating PDF`. -/
def pdfErrorResponse : List Event :=
  [Event.status 500, Event.json false "Error generating PDF"]

/-- The body of the `try` block from `puppeteer.launch` on: a step that throws passes
control to the `catch` block; `browser.close()` is called only after `page.pdf` returned,
and the headers and the bytes are sent only after `browser.close()` returned. -/
def renderAndSend (rt : Runtime) (html : String) (invoiceNumber : String) : List Event :=
  if !rt.launch then pdfErrorResponse
  else Event.launch ::
    (if !rt.newPage then pdfErrorResponse
    else Event.newPage ::
      (if !rt.setContent html then pdfErrorResponse
      else Event.setContent html ::
        (match rt.pdf html with
        | none => pdfErrorResponse
        | some bytes => Event.pdf ::
          (if !rt.close then pdfErrorResponse
          else [Event.close,
            Event.setHeader "Content-Type" "application/pdf",
            Event.setHeader "Content-Disposition"
              ("attachment; filename=invoice-" ++ invoiceNumber ++ ".pdf"),
            Event.send bytes]))))

/-- The handler `router.get('/:id/pdf')`: the steps of one run. -/
def generatePdf (rt : Runtime) (users : List User) (st : Store) (req : PdfRequest) :
    List Event :=
  if rt.queryFails then pdfErrorResponse
  else
    match findInvoice users st req with
    | none => [Event.status 404, Event.json false "Invoice not found"]
    | some invoice =>
      Event.generateHTML ::
        (match generateInvoiceHTML rt.utcOffsetMinutes invoice with
        | Except.error _ => pdfErrorResponse
        | Except.ok html => renderAndSend rt html (templateString invoice.doc.invoiceNumber))

/-! ## The List Invoices handler (`routes/invoices.js`) -/

/-- The JSON response of `router.get('/')`. -/
structure ListResponse where
  status : Nat
  success : Bool
  invoices : List Invoice
deriving DecidableEq

/-- The order of `sort({ createdAt: -1 })`: the first invoice is not older than the
second. -/
def newestFirst (a b : Invoice) : Prop := b.createdAt ≤ a.createdAt

instance : DecidableRel newestFirst := fun a b => Nat.decLe b.createdAt a.createdAt

/-- The handler `router.get('/')`: the invoices of the caller, newest first; the store is
only read. Invoices created at the same instant keep their insertion order. -/
def getInvoices (st : Store) (userId : Nat) : ListResponse × Store :=
  (⟨200, true, (st.filter (fun inv => inv.user = userId)).insertionSort newestFirst⟩, st)

/-! ## The product form of the client (`client/src/components/AddProduct.js`) -/

/-- JavaScript `x > 0` on a number. -/
def isPositive : JSNumber → Bool
  | JSNumber.fin q => decide (0 < q)
  | JSNumber.posInf => true
  | _ => false

/-- JavaScript `x >= 0` on a number. -/
def isNonNegative : JSNumber → Bool
  | JSNumber.fin q => decide (0 ≤ q)
  | JSNumber.posInf => true
  | _ => false

/-- The truthiness of a number: every number but zero and `NaN` is truthy. -/
def isTruthy : JSNumber → Bool
  | JSNumber.fin q => decide (q ≠ 0)
  | JSNumber.nan => false
  | _ => true

/-- JavaScript `x || 0` on a number. -/
def orZero (x : JSNumber) : JSNumber := if isTruthy x then x else JSNumber.fin 0

/-- JavaScript `parseFloat(x)` for a number argument: the number is converted to its
string and read back. `String(x)` is the shortest decimal text that reads back as `x`, so
the result is `x` itself (the sign of a zero is lost, and the two zeros are identified
here). -/
def parseFloatOfNumber (x : JSNumber) : JSNumber := x

/-- What a handler of the form does: an error toast, or the dispatch of `createInvoice`
with its payload. -/
inductive ClientEffect where
  | toastError (message : String)
  | dispatchCreateInvoice (products : List Product)
deriving DecidableEq

/-- The test of the `filter` in `onSubmit`:
`product.name.trim() && product.qty > 0 && product.rate >= 0`. The form values of qty and
rate are taken at their numeric value. -/
def isValidFormProduct (product : Product) : Bool :=
  decide (jsTrim product.name ≠ "") && isPositive product.qty && isNonNegative product.rate

/-- The function `onSubmit` of `AddProduct`, applied to `data.products`. -/
def onSubmit (products : List Product) : ClientEffect :=
  let validProducts := products.filter isValidFormProduct
  if validProducts.length = 0 then
    ClientEffect.toastError "Please add at least one valid product"
  else ClientEffect.dispatchCreateInvoice validProducts

/-- The object `{ totalCharges, gst, totalAmount }` that `calculateTotals` returns. -/
structure Totals where
  totalCharges : JSNumber
  gst : JSNumber
  totalAmount : JSNumber
deriving DecidableEq

/-- The tax rate literal `0.18` of `calculateTotals`. -/
def clientGstRate : JSNumber := JSNumber.ofDecimal (18 / 100)

/-- The function `calculateTotals` of `AddProduct`, applied to `watchedProducts`: the
`forEach` loop adds `(parseFloat(qty) || 0) * (parseFloat(rate) || 0)` to the running
`totalCharges`. -/
def calculateTotals (watchedProducts : List Product) : Totals :=
  let totalCharges := watchedProducts.foldl
    (fun acc product =>
      let qty := orZero (parseFloatOfNumber product.qty)
      let rate := orZero (parseFloatOfNumber product.rate)
      acc + qty * rate)
    (JSNumber.fin 0)
  let gst := totalCharges * clientGstRate
  let totalAmount := totalCharges + gst
  ⟨totalCharges, gst, totalAmount⟩

/-! ## Reference notions used in the statements -/

/-- The sum of a list of numbers in JavaScript arithmetic, left to right from `0`. -/
def sumNumbers (xs : List JSNumber) : JSNumber :=
  xs.foldl (fun acc x => acc + x) (JSNumber.fin 0)

/-- The line total `qty * rate` of a product, in JavaScript arithmetic. -/
def lineTotal (p : Product) : JSNumber := p.qty * p.rate

/-- The example products of the specification: Widget (2 at 10.00) and Gadget (1 at 5.00). -/
def exampleProducts : List Product :=
  [⟨"Widget", JSNumber.fin 2, JSNumber.fin 10⟩, ⟨"Gadget", JSNumber.fin 1, JSNumber.fin 5⟩]

/-- An environment for the examples. -/
def exampleEnv : Env := ⟨1700000000000, 1⟩

/-- An invoice as the collection holds it: the document the handler builds from the
products, carrying the invoice number of a document count. -/
def savedInvoice (env : Env) (st : Store) (userId : Nat) (ps : List Product) : Invoice :=
  { buildInvoice env userId (sanitizeProducts ps) with
    invoiceNumber := some (invoiceNumberFor st.length) }

/-- The specification's rounding of an amount to two decimal places: the number denoted by
the multiple of 0.01 closest to the exact value (the larger one on a tie). -/
def roundToTwoDecimals : JSNumber → JSNumber
  | JSNumber.fin q => JSNumber.ofDecimal ((Rat.floor (q * 100 + 1 / 2) : ℚ) / 100)
  | x => x

/-- The amount a two-decimal rendering shows, in hundredths: the signed integer whose
digits `toFixed2` prints for a finite number below `10 ^ 21` in magnitude. -/
def displayedCents : JSNumber → Int
  | JSNumber.fin q => if q < 0 then -(toFixedUnits |q| : Int) else (toFixedUnits |q| : Int)
  | _ => 0

/-- The counter an invoice number encodes: the value of the digits after `INV-`. -/
def invoiceCounter (number : String) : Nat := digitsValue (number.data.drop 4)

/-- The invoice numbers held by a store, in insertion order. -/
def storeNumbers (st : Store) : List (Option String) := st.map (fun inv => inv.invoiceNumber)

/-- The invoice numbers of the invoices in a list of responses, in order. -/
def assignedNumbers (rs : List Response) : List String :=
  rs.filterMap (fun r => r.invoice.bind (fun inv => inv.invoiceNumber))

/-- Three pens at 0.10: a valid product whose rate has two decimals. -/
def penProducts : List Product :=
  [⟨"Pen", JSNumber.fin 3, JSNumber.ofDecimal (1 / 10)⟩]

/-- An approximation `a` of a non-negative exact value `e` after at most `m` roundings to
binary64 in the normal range: each rounding changes a value by a factor between
`1 - 2 ^ (-53)` and `1 + 2 ^ (-53)`. -/
def WithinRoundings (m : Nat) (a e : ℚ) : Prop :=
  (1 - 1 / 2 ^ 53) ^ m * e ≤ a ∧ a ≤ (1 + 1 / 2 ^ 53) ^ m * e

/-- The product `qty` units at `cents` hundredths each, as the request carries it: the rate
is the number its decimal text with two decimals denotes. -/
def centAmounts (amounts : List (Nat × Nat)) : List (JSNumber × JSNumber) :=
  amounts.map (fun a => (JSNumber.fin (a.1 : ℚ), JSNumber.ofDecimal ((a.2 : ℚ) / 100)))

/-- The exact subtotal of a list of quantities and rates in hundredths, in hundredths. -/
def centsTotal (amounts : List (Nat × Nat)) : Nat := (amounts.map (fun a => a.1 * a.2)).sum

/-- Three pens at 0.10 and seven clips at 0.19: valid products whose rates have two
decimals. -/
def centProducts : List Product :=
  [⟨"Pen", JSNumber.fin 3, JSNumber.ofDecimal (10 / 100)⟩,
   ⟨"Clip", JSNumber.fin 7, JSNumber.ofDecimal (19 / 100)⟩]

/-- Two valid products at 0.125 each. -/
def eighthProducts : List Product :=
  [⟨"Bolt", JSNumber.fin 1, JSNumber.fin (1 / 8)⟩, ⟨"Nut", JSNumber.fin 1, JSNumber.fin (1 / 8)⟩]

/-- A store that holds one document, numbered `INV-000002`: what is left of the invoices
`INV-000001` and `INV-000002` when the first has been removed. -/
def gapStore : Store :=
  [{ savedInvoice ⟨1700000000001, 2⟩ [] 1 exampleProducts with
      invoiceNumber := some "INV-000002" }]

/-- Two Create Invoice requests for the example products, handled one after another. -/
def exampleRequests : List (Env × Request) :=
  [(exampleEnv, ⟨1, some exampleProducts⟩), (⟨1700000000001, 2⟩, ⟨1, some exampleProducts⟩)]

/-- Whether a run leaves a rendering-engine instance open: `puppeteer.launch` returned an
instance and `browser.close()` did not complete. -/
def engineOpen (events : List Event) : Bool :=
  events.contains Event.launch && !events.contains Event.close

/-- The calls on the response object among the steps of a run. -/
def isResponseEvent : Event → Bool
  | Event.status _ => true
  | Event.json _ _ => true
  | Event.setHeader _ _ => true
  | Event.send _ => true
  | _ => false

/-- What a run writes to the response, in order. -/
def responseEvents (events : List Event) : List Event := events.filter isResponseEvent

/-- The owner of the example invoice. -/
def exampleUser : User := ⟨1, "Ann Lee", "ann@example.com"⟩

/-- The store holding the example invoice `INV-000001` alone. -/
def exampleStore : Store := [savedInvoice exampleEnv [] 1 exampleProducts]

/-- A run in which every call on the database and the rendering engine succeeds; the
document has the four bytes `%PDF`. -/
def healthyRuntime : Runtime :=
  ⟨0, false, true, true, fun _ => true, fun _ => some [37, 80, 68, 70], true⟩

/-- A run in which the engine is launched and the page is loaded, and `page.pdf` throws. -/
def pdfFailsRuntime : Runtime :=
  ⟨0, false, true, true, fun _ => true, fun _ => none, true⟩

/-- The part of the invoice HTML before the table rows. -/
def htmlBeforeRows (utcOffsetMinutes : Int) (invoice : Invoice) (owner : User) : String :=
  tplHead ++ templateString invoice.invoiceNumber ++
    tplStyleOpen ++ invoiceStyles ++ tplBody ++ templateString invoice.invoiceNumber ++
    tplDate ++ formatDate utcOffsetMinutes invoice.date ++
    tplBilledTo ++ owner.name ++
    tplEmail ++ owner.email ++
    tplTable

/-- The totals block and the footer: the part of the invoice HTML after the table rows, as
a function of the three amounts it shows. -/
def htmlTotals (totalCharges gst totalAmount : JSNumber) : String :=
  tplTotals ++ formatCurrency totalCharges ++
    tplGst ++ formatCurrency gst ++
    tplTotalAmount ++ formatCurrency totalAmount ++
    tplFooter

/-- The example invoice with ids, status and timestamps changed and another owner id: it
agrees with the example invoice on every field the template reads. -/
def relabelledInvoice : PopulatedInvoice :=
  ⟨{ savedInvoice exampleEnv [] 1 exampleProducts with
      id := 77, user := 9, status := "paid", createdAt := 5, updatedAt := 6 },
    some ⟨9, "Ann Lee", "ann@example.com"⟩⟩

/-- The example invoice with a stored `totalCharges` of 99, which is not the sum of its
line totals. -/
def restatedInvoice : PopulatedInvoice :=
  ⟨{ savedInvoice exampleEnv [] 1 exampleProducts with totalCharges := JSNumber.fin 99 },
    some exampleUser⟩

/-- A store with invoices of two users, created at different times. -/
def sharedStore : Store :=
  [{ savedInvoice exampleEnv [] 1 exampleProducts with createdAt := 10 },
   { savedInvoice exampleEnv [] 2 exampleProducts with id := 2, createdAt := 20 },
   { savedInvoice exampleEnv [] 1 exampleProducts with id := 3, createdAt := 30 }]

/-- A valid product whose rate is the number `1e21`. -/
def largeRateProducts : List Product :=
  [⟨"Dam", JSNumber.fin 1, JSNumber.ofNat (10 ^ 21)⟩]

/-- Where the scan of an HTML text stands: in running text, inside a tag (with the
characters read since its `<`, last first), or inside the text of a `style` element. -/
inductive ScanMode where
  | text
  | tag (readRev : List Char)
  | css (readRev : List Char)
deriving DecidableEq

/-- What the scan of an HTML text finds: a tag (the characters between `<` and `>`) or the
text of a `style` element. -/
inductive HtmlItem where
  | tag (content : List Char)
  | css (content : List Char)
deriving DecidableEq

/-- The element name of a tag, in lower case (empty for a closing tag). -/
def tagName (content : List Char) : List Char :=
  (content.takeWhile Char.isAlphanum).map Char.toLower

/-- The mode after a tag: the text that follows `<style>` is a style sheet. -/
def modeAfterTag (content : List Char) : ScanMode :=
  if tagName content = "style".data then ScanMode.css [] else ScanMode.text

/-- The scan of an HTML text from a given mode: the mode at the end and the tags and style
sheets completed on the way, in order. A tag runs from `<` to the next `>`, a style sheet
from the end of `<style>` to the next `<`. -/
def scanHtml : ScanMode → List Char → ScanMode × List HtmlItem
  | m, [] => (m, [])
  | ScanMode.text, c :: cs =>
    if c = '<' then scanHtml (ScanMode.tag []) cs else scanHtml ScanMode.text cs
  | ScanMode.tag t, c :: cs =>
    if c = '>' then
      ((scanHtml (modeAfterTag t.reverse) cs).1,
        HtmlItem.tag t.reverse :: (scanHtml (modeAfterTag t.reverse) cs).2)
    else scanHtml (ScanMode.tag (c :: t)) cs
  | ScanMode.css t, c :: cs =>
    if c = '<' then
      ((scanHtml (ScanMode.tag []) cs).1, HtmlItem.css t.reverse :: (scanHtml (ScanMode.tag []) cs).2)
    else scanHtml (ScanMode.css (c :: t)) cs

/-- The tag or style sheet left open at the end of a scan. -/
def pendingItem : ScanMode → List HtmlItem
  | ScanMode.text => []
  | ScanMode.tag t => [HtmlItem.tag t.reverse]
  | ScanMode.css t => [HtmlItem.css t.reverse]

/-- The tags and style sheets of an HTML document, in order. -/
def htmlItems (html : String) : List HtmlItem :=
  (scanHtml ScanMode.text html.data).2 ++ pendingItem (scanHtml ScanMode.text html.data).1

/-- Whether a text contains a given text. -/
def hasSubstring (pat : List Char) : List Char → Bool
  | [] => pat.isEmpty
  | c :: cs => pat.isPrefixOf (c :: cs) || hasSubstring pat cs

/-- The elements that load or run something by themselves. -/
def activeElements : List String :=
  ["script", "img", "image", "link", "iframe", "frame", "object", "embed", "video", "audio",
    "source", "track", "input", "base", "form", "svg", "applet"]

/-- The marks of an attribute that can hold an address. -/
def urlMarks : List String :=
  ["src", "href", "data=", "poster", "background", "action", "http-equiv", "manifest",
    "url(", "import", "://"]

/-- Whether a tag can make the rendering engine fetch a resource: it is one of the active
elements or carries the mark of an address. Case is ignored. -/
def tagReferences (content : List Char) : Bool :=
  activeElements.any (fun e => decide (tagName content = e.data)) ||
    urlMarks.any (fun m => hasSubstring m.data (content.map Char.toLower))

/-- Whether a style sheet can make the rendering engine fetch a resource. -/
def cssReferences (content : List Char) : Bool :=
  ["url(", "@import", "://"].any (fun m => hasSubstring m.data (content.map Char.toLower))

/-- Whether a tag or style sheet is free of references to other resources. -/
def itemSelfContained : HtmlItem → Bool
  | HtmlItem.tag t => !tagReferences t
  | HtmlItem.css t => !cssReferences t

/-- An HTML document is self-contained when none of its tags and style sheets can make the
rendering engine fetch a resource. -/
def selfContained (html : String) : Bool := (htmlItems html).all itemSelfContained

/-- A text that, read in running text, ends in running text and completes only
self-contained tags and style sheets. -/
def Harmless (cs : List Char) : Prop :=
  (scanHtml ScanMode.text cs).1 = ScanMode.text ∧
    (scanHtml ScanMode.text cs).2.all itemSelfContained = true

/-- The tags and style sheets that a text completes when it is read in running text. -/
def scannedItems (s : String) : List HtmlItem := (scanHtml ScanMode.text s.data).2

/-- The tags of one table row of the template: the row, its four cells. -/
def rowItems : List HtmlItem :=
  scannedItems rowOpen ++ scannedItems cellSep ++ scannedItems cellSep ++
    scannedItems cellSep ++ scannedItems rowClose

/-- The tags and the style sheet of the fixed template, in order, for an invoice with `n`
products: those of the fixed texts of the template, with the tags of a table row once for
each product. -/
def templateItems (n : Nat) : List HtmlItem :=
  scannedItems tplHead ++ scannedItems (tplStyleOpen ++ invoiceStyles ++ tplBody) ++
    scannedItems tplDate ++ scannedItems tplBilledTo ++ scannedItems tplEmail ++
    scannedItems tplTable ++ (List.replicate n rowItems).flatten ++
    scannedItems tplTotals ++ scannedItems tplGst ++ scannedItems tplTotalAmount ++
    scannedItems tplFooter

/-- A valid product whose name is an image element with a remote address. -/
def remoteImageProducts : List Product :=
  [⟨"<img src=\"http://tracker.example/pixel.png\">", JSNumber.fin 1, JSNumber.fin 5⟩]

/-- The form values of a first row left blank and a filled second row. -/
def partlyFilledForm : List Product :=
  [⟨"", JSNumber.fin 1, JSNumber.fin 0⟩, ⟨"Widget", JSNumber.fin 2, JSNumber.fin 10⟩]

/-- A valid product whose name has blanks around it. -/
def paddedNameProducts : List Product :=
  [⟨"  Widget ", JSNumber.fin 2, JSNumber.fin 10⟩]

/-! # Properties -/

/-! ## Basic facts about the handler -/

theorem processProducts_foldl (ps : List Product) (acc : List LineItem × JSNumber) :
    ps.foldl
      (fun acc product =>
        let total := product.qty * product.rate
        (acc.1 ++ [{ name := product.name, qty := product.qty, rate := product.rate,
                     total := total }],
         acc.2 + total)) acc
    = (acc.1 ++ ps.map (fun p => ⟨p.name, p.qty, p.rate, lineTotal p⟩),
       (ps.map lineTotal).foldl (fun a x => a + x) acc.2) := by
  induction ps generalizing acc with
  | nil => simp
  | cons p ps ih =>
    simp only [List.foldl_cons, List.map_cons]
    rw [ih]
    simp [lineTotal]

theorem processProducts_fst (ps : List Product) :
    (processProducts ps).1 = ps.map (fun p => ⟨p.name, p.qty, p.rate, lineTotal p⟩) := by
  unfold processProducts
  rw [processProducts_foldl]
  simp

theorem processProducts_snd (ps : List Product) :
    (processProducts ps).2 = sumNumbers (ps.map lineTotal) := by
  unfold processProducts
  rw [processProducts_foldl]
  rfl

theorem lineTotal_sanitize (ps : List Product) :
    (sanitizeProducts ps).map lineTotal = ps.map lineTotal := by
  simp [sanitizeProducts, lineTotal, Function.comp_def]

theorem invoiceNumberMissing_buildInvoice (env : Env) (userId : Nat) (ps : List Product) :
    invoiceNumberMissing (buildInvoice env userId ps) = true := rfl

theorem schemaErrors_of_missing (inv : Invoice) (h : invoiceNumberMissing inv = true) :
    "invoiceNumber" ∈ schemaErrors inv := by
  unfold schemaErrors
  rw [if_pos h]
  simp

/-- A document without invoice number is refused by `save` at schema validation: nothing
is inserted and the pre-save hook is not reached. -/
theorem save_of_missing (now : Nat) (st : Store) (inv : Invoice)
    (h : invoiceNumberMissing inv = true) :
    save now st inv = Except.error (SaveError.validationFailed (schemaErrors inv)) := by
  have hne : (schemaErrors inv).isEmpty = false := by
    cases hs : schemaErrors inv with
    | nil =>
      have := schemaErrors_of_missing inv h
      rw [hs] at this
      simp at this
    | cons a l => rfl
  unfold save
  rw [hne]
  rfl

/-- A request that passes validation is answered 500 from the `catch` block: the save of
the document the handler builds throws, and the store is left as it was. -/
theorem createInvoice_valid (env : Env) (st : Store) (userId : Nat) (ps : List Product)
    (hvalid : validationResult (some ps) = []) :
    createInvoice env st ⟨userId, some ps⟩ =
      (⟨500, false, "Server error during invoice creation", [], none⟩, st) := by
  unfold createInvoice
  simp only [hvalid, List.isEmpty_nil, Bool.not_true, Bool.false_eq_true, if_false]
  rw [save_of_missing env.now st _ (invoiceNumberMissing_buildInvoice env userId _)]

theorem buildInvoice_totalCharges (env : Env) (userId : Nat) (ps : List Product) :
    (buildInvoice env userId (sanitizeProducts ps)).totalCharges
      = sumNumbers (ps.map lineTotal) := by
  show (processProducts (sanitizeProducts ps)).2 = _
  rw [processProducts_snd, lineTotal_sanitize]

theorem savedInvoice_totalCharges (env : Env) (st : Store) (userId : Nat)
    (ps : List Product) :
    (savedInvoice env st userId ps).totalCharges = sumNumbers (ps.map lineTotal) :=
  buildInvoice_totalCharges env userId ps

theorem buildInvoice_products (env : Env) (userId : Nat) (ps : List Product) :
    (buildInvoice env userId (sanitizeProducts ps)).products =
      (sanitizeProducts ps).map (fun p => ⟨p.name, p.qty, p.rate, lineTotal p⟩) := by
  show (processProducts (sanitizeProducts ps)).1 = _
  rw [processProducts_fst]

theorem savedInvoice_products (env : Env) (st : Store) (userId : Nat) (ps : List Product) :
    (savedInvoice env st userId ps).products =
      (sanitizeProducts ps).map (fun p => ⟨p.name, p.qty, p.rate, lineTotal p⟩) :=
  buildInvoice_products env userId ps

/-! ## Totals computed by the Create Invoice handler -/

/-- C1: for every product list that passes validation, the `totalCharges` the Create
Invoice handler computes and sets on the invoice document is the sum over all products of
`qty * rate` (JavaScript arithmetic, products taken in order). The value is not stored:
`save` refuses the document at schema validation, where the required `invoiceNumber` is
still undefined, and the handler answers 500 and leaves the store as it was. -/
theorem createInvoice_totalCharges_not_stored (env : Env) (st : Store) (userId : Nat)
    (ps : List Product) (hvalid : validationResult (some ps) = []) :
    (buildInvoice env userId (sanitizeProducts ps)).totalCharges
        = sumNumbers (ps.map (fun p => p.qty * p.rate)) ∧
      save env.now st (buildInvoice env userId (sanitizeProducts ps)) =
        Except.error (SaveError.validationFailed
          (schemaErrors (buildInvoice env userId (sanitizeProducts ps)))) ∧
      "invoiceNumber" ∈ schemaErrors (buildInvoice env userId (sanitizeProducts ps)) ∧
      createInvoice env st ⟨userId, some ps⟩ =
        (⟨500, false, "Server error during invoice creation", [], none⟩, st) :=
  ⟨buildInvoice_totalCharges env userId ps,
    save_of_missing env.now st _ (invoiceNumberMissing_buildInvoice env userId _),
    schemaErrors_of_missing _ (invoiceNumberMissing_buildInvoice env userId _),
    createInvoice_valid env st userId ps hvalid⟩

/-- C1, the example of the specification: Widget (2 at 10.00) and Gadget (1 at 5.00) pass
validation and the handler computes the `totalCharges` 25; the save fails on the one path
`invoiceNumber`, the answer is 500 and the empty store stays empty. -/
theorem createInvoice_totalCharges_example :
    validationResult (some exampleProducts) = [] ∧
      (buildInvoice exampleEnv 1 (sanitizeProducts exampleProducts)).totalCharges
        = JSNumber.fin 25 ∧
      schemaErrors (buildInvoice exampleEnv 1 (sanitizeProducts exampleProducts))
        = ["invoiceNumber"] ∧
      createInvoice exampleEnv [] ⟨1, some exampleProducts⟩ =
        (⟨500, false, "Server error during invoice creation", [], none⟩, []) := by
  have hvalid : validationResult (some exampleProducts) = [] := by decide!
  have h := createInvoice_totalCharges_not_stored exampleEnv [] 1 exampleProducts hvalid
  refine ⟨hvalid, ?_, by decide!, h.2.2.2⟩
  rw [h.1]
  decide!

/-- C2: for every product list that passes validation, the `gst` the Create Invoice
handler computes and sets on the invoice document is `totalCharges * 0.18` (the product of
the computed `totalCharges` and the number the literal `0.18` denotes). The value is not
stored: `save` refuses the document at schema validation and the handler answers 500,
with no invoice in the response and the store as it was. -/
theorem createInvoice_gst_not_stored (env : Env) (st : Store) (userId : Nat)
    (ps : List Product) (hvalid : validationResult (some ps) = []) :
    (buildInvoice env userId (sanitizeProducts ps)).gst
        = (buildInvoice env userId (sanitizeProducts ps)).totalCharges
            * JSNumber.ofDecimal (18 / 100) ∧
      (createInvoice env st ⟨userId, some ps⟩).1.status = 500 ∧
      (createInvoice env st ⟨userId, some ps⟩).1.invoice = none ∧
      (createInvoice env st ⟨userId, some ps⟩).2 = st := by
  rw [createInvoice_valid env st userId ps hvalid]
  exact ⟨rfl, rfl, rfl, rfl⟩

/-- C2, the example of the specification: for the example products the handler computes
the `gst` 4.50, which is `25 * 0.18` in JavaScript arithmetic, and answers 500 without
storing it. -/
theorem createInvoice_gst_example :
    validationResult (some exampleProducts) = [] ∧
      JSNumber.fin 25 * JSNumber.ofDecimal (18 / 100) = JSNumber.fin (9 / 2) ∧
      (buildInvoice exampleEnv 1 (sanitizeProducts exampleProducts)).gst
        = JSNumber.fin (9 / 2) ∧
      (createInvoice exampleEnv [] ⟨1, some exampleProducts⟩).1.status = 500 ∧
      (createInvoice exampleEnv [] ⟨1, some exampleProducts⟩).2 = [] := by
  have hvalid : validationResult (some exampleProducts) = [] := by decide!
  have h := createInvoice_gst_not_stored exampleEnv [] 1 exampleProducts hvalid
  refine ⟨hvalid, by decide!, ?_, h.2.1, h.2.2.2⟩
  rw [h.1]
  decide!

/-- C3: for every product list that passes validation, the `totalAmount` the Create
Invoice handler computes and sets on the invoice document is `totalCharges + gst`, the sum
of the computed subtotal and the computed tax. The value is not stored: `save` refuses the
document at schema validation and the handler answers 500, with no invoice in the response
and the store as it was. -/
theorem createInvoice_totalAmount_not_stored (env : Env) (st : Store) (userId : Nat)
    (ps : List Product) (hvalid : validationResult (some ps) = []) :
    (buildInvoice env userId (sanitizeProducts ps)).totalAmount
        = (buildInvoice env userId (sanitizeProducts ps)).totalCharges
            + (buildInvoice env userId (sanitizeProducts ps)).gst ∧
      (createInvoice env st ⟨userId, some ps⟩).1.status = 500 ∧
      (createInvoice env st ⟨userId, some ps⟩).1.invoice = none ∧
      (createInvoice env st ⟨userId, some ps⟩).2 = st := by
  rw [createInvoice_valid env st userId ps hvalid]
  exact ⟨rfl, rfl, rfl, rfl⟩

/-- C3, the example of the specification: for the example products the handler computes
the `totalAmount` 29.50, which is `25 + 4.5`, and answers 500 without storing it. -/
theorem createInvoice_totalAmount_example :
    validationResult (some exampleProducts) = [] ∧
      JSNumber.fin 25 + JSNumber.fin (9 / 2) = JSNumber.fin (59 / 2) ∧
      (buildInvoice exampleEnv 1 (sanitizeProducts exampleProducts)).totalAmount
        = JSNumber.fin (59 / 2) ∧
      (createInvoice exampleEnv [] ⟨1, some exampleProducts⟩).1.status = 500 ∧
      (createInvoice exampleEnv [] ⟨1, some exampleProducts⟩).2 = [] := by
  have hvalid : validationResult (some exampleProducts) = [] := by decide!
  have h := createInvoice_totalAmount_not_stored exampleEnv [] 1 exampleProducts hvalid
  refine ⟨hvalid, by decide!, ?_, h.2.1, h.2.2.2⟩
  rw [h.1]
  decide!

/-! ## Per-product totals and rounding -/

/-- C4, as stated, fails: for three pens at 0.10, a valid product, the handler computes the
per-product total `3 * 0.1 = 0.30000000000000004` and sets it on the invoice document;
this is not `qty * rate` rounded to two decimal places (the number 0.3). -/
theorem createInvoice_total_not_rounded :
    validationResult (some penProducts) = [] ∧
      (buildInvoice exampleEnv 1 (sanitizeProducts penProducts)).products =
        [⟨"Pen", JSNumber.fin 3, JSNumber.ofDecimal (1 / 10),
          JSNumber.fin (1351079888211149 / 4503599627370496)⟩] ∧
      roundToTwoDecimals (JSNumber.fin 3 * JSNumber.ofDecimal (1 / 10))
        = JSNumber.ofDecimal (3 / 10) ∧
      JSNumber.fin (1351079888211149 / 4503599627370496)
        ≠ roundToTwoDecimals (JSNumber.fin 3 * JSNumber.ofDecimal (1 / 10)) := by
  refine ⟨by decide!, by decide!, by decide!, by decide!⟩

/-- C4, amended: for every product list that passes validation, each product of the
invoice document the handler builds carries `total = qty * rate` as JavaScript computes it,
without rounding; the totals are, in order, the products `qty * rate` of the submitted
products. -/
theorem createInvoice_total_eq_product (env : Env) (userId : Nat) (ps : List Product)
    (hvalid : validationResult (some ps) = []) :
    (∀ li ∈ (buildInvoice env userId (sanitizeProducts ps)).products,
        li.total = li.qty * li.rate) ∧
      (buildInvoice env userId (sanitizeProducts ps)).products.map (fun li => li.total)
        = ps.map (fun p => p.qty * p.rate) := by
  have _ := hvalid
  rw [buildInvoice_products]
  constructor
  · intro li hli
    simp only [List.mem_map] at hli
    obtain ⟨p, _, rfl⟩ := hli
    rfl
  · simp [sanitizeProducts, lineTotal, Function.comp_def]

/-- C4, amended, at a concrete input: the invoice document built from three pens at 0.10
carries the unrounded total `3 * 0.1`. -/
theorem createInvoice_total_eq_product_example :
    validationResult (some penProducts) = [] ∧
      (buildInvoice exampleEnv 1 (sanitizeProducts penProducts)).products.map
          (fun li => li.total)
        = [JSNumber.fin (1351079888211149 / 4503599627370496)] := by
  have hvalid : validationResult (some penProducts) = [] := by decide!
  refine ⟨hvalid, ?_⟩
  rw [(createInvoice_total_eq_product exampleEnv 1 penProducts hvalid).2]
  decide!

/-! ## Validation in the Create Invoice handler -/

theorem chainErrorsFrom_eq_nil (ok : Product → Bool) (f : Nat × Product → ValidationError)
    (ps : List Product) (n : Nat) :
    ((ps.enumFrom n).filter (fun ip => !ok ip.2)).map f = [] ↔ ∀ p ∈ ps, ok p = true := by
  induction ps generalizing n with
  | nil => simp
  | cons p ps ih =>
    rw [List.enumFrom_cons, List.filter_cons]
    cases hp : ok p
    · simp [hp]
    · simp only [hp, Bool.not_true, Bool.false_eq_true, if_false, List.mem_cons, forall_eq_or_imp,
        true_and]
      exact ih (n + 1)

theorem chainErrors_eq_nil (ok : Product → Bool) (msg field : String) (ps : List Product) :
    chainErrors ok msg field ps = [] ↔ ∀ p ∈ ps, ok p = true := by
  unfold chainErrors List.enum
  exact chainErrorsFrom_eq_nil ok _ ps 0

theorem validationResult_eq_nil (ps : List Product) :
    validationResult (some ps) = [] ↔
      ps ≠ [] ∧ ∀ p ∈ ps, 1 ≤ (jsTrim p.name).length ∧ isIntMin1 p.qty = true ∧
        isFloatMin0 p.rate = true := by
  unfold validationResult
  simp only [List.append_eq_nil, chainErrors_eq_nil, decide_eq_true_eq]
  constructor
  · rintro ⟨⟨⟨h0, h1⟩, h2⟩, h3⟩
    refine ⟨?_, fun p hp => ⟨h1 p hp, h2 p hp, h3 p hp⟩⟩
    rintro rfl
    simp at h0
  · rintro ⟨hne, hall⟩
    refine ⟨⟨⟨?_, fun p hp => (hall p hp).1⟩, fun p hp => (hall p hp).2.1⟩,
      fun p hp => (hall p hp).2.2⟩
    cases ps with
    | nil => exact absurd rfl hne
    | cons p ps => simp

theorem isIntMin1_iff (x : JSNumber) :
    isIntMin1 x = true ↔ ∃ n : Nat, 1 ≤ n ∧ n < 10 ^ 21 ∧ x = JSNumber.fin (n : ℚ) := by
  cases x with
  | fin q =>
    simp only [isIntMin1, Bool.and_eq_true, decide_eq_true_eq, JSNumber.fin.injEq]
    constructor
    · rintro ⟨⟨hden, hle⟩, hlt⟩
      have hq : (q.num : ℚ) = q := Rat.coe_int_num_of_den_eq_one hden
      have hnum : (1 : ℤ) ≤ q.num := by
        have : ((1 : ℤ) : ℚ) ≤ (q.num : ℚ) := by rw [hq]; exact_mod_cast hle
        exact_mod_cast this
      have hcast : ((q.num.toNat : ℤ)) = q.num := Int.toNat_of_nonneg (by omega)
      have hqn : ((q.num.toNat : Nat) : ℚ) = q := by
        rw [← hq]
        exact_mod_cast hcast
      refine ⟨q.num.toNat, by omega, ?_, hqn.symm⟩
      rw [← hqn] at hlt
      exact_mod_cast hlt
    · rintro ⟨n, hn, hlt, rfl⟩
      exact ⟨⟨Rat.den_natCast n, by exact_mod_cast hn⟩, by exact_mod_cast hlt⟩
  | posInf => simp [isIntMin1]
  | negInf => simp [isIntMin1]
  | nan => simp [isIntMin1]

theorem isFloatMin0_iff (x : JSNumber) :
    isFloatMin0 x = true ↔ ∃ q : ℚ, 0 ≤ q ∧ x = JSNumber.fin q := by
  cases x with
  | fin q => simp [isFloatMin0]
  | posInf => simp [isFloatMin0]
  | negInf => simp [isFloatMin0]
  | nan => simp [isFloatMin0]

theorem string_length_eq_zero_iff (t : String) : t.length = 0 ↔ t = "" := by
  cases t with
  | mk l =>
    show l.length = 0 ↔ String.mk l = String.mk []
    rw [List.length_eq_zero]
    constructor
    · rintro rfl
      rfl
    · intro h
      exact congrArg String.data h

theorem jsTrim_length_pos_iff (s : String) : 1 ≤ (jsTrim s).length ↔ jsTrim s ≠ "" := by
  rw [Nat.one_le_iff_ne_zero, ne_eq, ne_eq, string_length_eq_zero_iff]

theorem createInvoice_status_400_iff (env : Env) (st : Store) (userId : Nat)
    (products : Option (List Product)) :
    (createInvoice env st ⟨userId, products⟩).1.status = 400 ↔
      validationResult products ≠ [] := by
  unfold createInvoice
  cases hv : validationResult products with
  | nil =>
    simp only [List.isEmpty_nil, Bool.not_true, Bool.false_eq_true, if_false, ne_eq,
      not_true_eq_false, iff_false]
    cases products with
    | none => simp
    | some ps =>
      simp only
      cases save env.now st (buildInvoice env userId (sanitizeProducts ps)) with
      | error e => simp
      | ok r => simp
  | cons e es => simp

theorem createInvoice_invalid (env : Env) (st : Store) (userId : Nat)
    (products : Option (List Product)) (h : validationResult products ≠ []) :
    createInvoice env st ⟨userId, products⟩ =
      (⟨400, false, "Validation failed", validationResult products, none⟩, st) := by
  unfold createInvoice
  cases hv : validationResult products with
  | nil => exact absurd hv h
  | cons e es => simp

/-- C6: a Create Invoice request whose `products` is missing or an empty list is answered
with 400 `Validation failed` (the one error being that at least one product is required),
carries no invoice, and leaves the store exactly as it was. -/
theorem createInvoice_empty_products_rejected (env : Env) (st : Store) (userId : Nat)
    (products : Option (List Product)) (h : products = none ∨ products = some []) :
    createInvoice env st ⟨userId, products⟩ =
      (⟨400, false, "Validation failed",
        [⟨"At least one product is required", "products"⟩], none⟩, st) := by
  rcases h with rfl | rfl
  · rfl
  · rfl

/-- C6 at a concrete input: an empty product list sent against a store that already holds
the example invoice is rejected and the store is unchanged. -/
theorem createInvoice_empty_products_rejected_example :
    createInvoice exampleEnv [savedInvoice exampleEnv [] 1 exampleProducts] ⟨2, some []⟩ =
      (⟨400, false, "Validation failed",
        [⟨"At least one product is required", "products"⟩], none⟩,
       [savedInvoice exampleEnv [] 1 exampleProducts]) :=
  createInvoice_empty_products_rejected exampleEnv
    [savedInvoice exampleEnv [] 1 exampleProducts] 2 (some []) (Or.inr rfl)

theorem createInvoice_creates_nothing (env : Env) (st : Store) (req : Request) :
    (createInvoice env st req).1.invoice = none ∧ (createInvoice env st req).2 = st ∧
      ((createInvoice env st req).1.status = 400 ∨ (createInvoice env st req).1.status = 500) := by
  obtain ⟨userId, products⟩ := req
  by_cases hv : validationResult products = []
  · cases products with
    | none => simp [validationResult] at hv
    | some ps =>
      rw [createInvoice_valid env st userId ps hv]
      exact ⟨rfl, rfl, Or.inr rfl⟩
  · rw [createInvoice_invalid env st userId products hv]
    exact ⟨rfl, rfl, Or.inl rfl⟩

/-- C7: the Create Invoice handler answers 400 `Validation failed` exactly when the
product list is empty or some product has a name that is empty after trimming, a qty that
is not an integer from 1 to below `10 ^ 21`, or a rate that is not a finite number at
least 0; such a request leaves the store unchanged and carries no invoice, and no item of
it is dropped or coerced. Every other request, which passes validation, is not accepted
either: it is answered 500 `Server error during invoice creation`, with no invoice and the
store unchanged. That is so for a single product with qty 1, rate 0 and a name that is not
blank. A product with the qty `1e21`, an integer, is answered 400. -/
theorem createInvoice_status_by_validation (env : Env) (st : Store) (userId : Nat)
    (ps : List Product) :
    ((createInvoice env st ⟨userId, some ps⟩).1.status = 400 ↔
        (ps = [] ∨ ∃ p ∈ ps, jsTrim p.name = "" ∨
          (¬ ∃ n : Nat, 1 ≤ n ∧ n < 10 ^ 21 ∧ p.qty = JSNumber.fin (n : ℚ)) ∨
          (¬ ∃ q : ℚ, 0 ≤ q ∧ p.rate = JSNumber.fin q))) ∧
      ((createInvoice env st ⟨userId, some ps⟩).1.status = 400 →
        createInvoice env st ⟨userId, some ps⟩ =
          (⟨400, false, "Validation failed", validationResult (some ps), none⟩, st)) ∧
      ((createInvoice env st ⟨userId, some ps⟩).1.status ≠ 400 →
        createInvoice env st ⟨userId, some ps⟩ =
          (⟨500, false, "Server error during invoice creation", [], none⟩, st)) ∧
      (∀ name : String, jsTrim name ≠ "" →
        validationResult (some [⟨name, JSNumber.fin 1, JSNumber.fin 0⟩]) = [] ∧
          createInvoice env st ⟨userId, some [⟨name, JSNumber.fin 1, JSNumber.fin 0⟩]⟩ =
            (⟨500, false, "Server error during invoice creation", [], none⟩, st)) ∧
      (createInvoice env st
        ⟨userId, some [⟨"Bulk", JSNumber.ofNat (10 ^ 21), JSNumber.fin 1⟩]⟩).1.status = 400 := by
  refine ⟨?_, ?_, ?_, ?_, ?_⟩
  · rw [createInvoice_status_400_iff, ne_eq, validationResult_eq_nil]
    constructor
    · intro h
      by_contra hcon
      push_neg at hcon
      apply h
      refine ⟨hcon.1, fun p hp => ?_⟩
      obtain ⟨h1, h2, h3⟩ := hcon.2 p hp
      exact ⟨(jsTrim_length_pos_iff _).mpr h1, (isIntMin1_iff _).mpr h2,
        (isFloatMin0_iff _).mpr h3⟩
    · rintro (rfl | ⟨p, hp, hbad⟩) ⟨hne, hall⟩
      · exact hne rfl
      · obtain ⟨h1, h2, h3⟩ := hall p hp
        rcases hbad with hb | hb | hb
        · exact (jsTrim_length_pos_iff _).mp h1 hb
        · exact hb ((isIntMin1_iff _).mp h2)
        · exact hb ((isFloatMin0_iff _).mp h3)
  · intro h
    exact createInvoice_invalid env st userId (some ps)
      ((createInvoice_status_400_iff env st userId (some ps)).mp h)
  · intro h
    have hv : validationResult (some ps) = [] := by
      by_contra hne
      exact h ((createInvoice_status_400_iff env st userId (some ps)).mpr hne)
    exact createInvoice_valid env st userId ps hv
  · intro name hname
    have hvalid : validationResult (some [⟨name, JSNumber.fin 1, JSNumber.fin 0⟩]) = [] := by
      rw [validationResult_eq_nil]
      refine ⟨by simp, ?_⟩
      intro p hp
      simp only [List.mem_singleton] at hp
      subst hp
      refine ⟨(jsTrim_length_pos_iff _).mpr hname, ?_, ?_⟩
      · show isIntMin1 (JSNumber.fin 1) = true
        decide!
      · show isFloatMin0 (JSNumber.fin 0) = true
        decide!
    exact ⟨hvalid, createInvoice_valid env st userId _ hvalid⟩
  · rw [createInvoice_status_400_iff]
    decide!

/-- C7 at concrete inputs: a product with a blank name is answered 400 with the store
untouched; the product `Sample` with qty 1 and rate 0 passes validation and is answered
500, and no invoice is created from it. -/
theorem createInvoice_status_by_validation_example :
    (createInvoice exampleEnv [] ⟨1, some [⟨"  ", JSNumber.fin 1, JSNumber.fin 0⟩]⟩).1.status
        = 400 ∧
      (createInvoice exampleEnv [] ⟨1, some [⟨"  ", JSNumber.fin 1, JSNumber.fin 0⟩]⟩).2 = [] ∧
      validationResult (some [⟨"Sample", JSNumber.fin 1, JSNumber.fin 0⟩]) = [] ∧
      createInvoice exampleEnv [] ⟨1, some [⟨"Sample", JSNumber.fin 1, JSNumber.fin 0⟩]⟩ =
        (⟨500, false, "Server error during invoice creation", [], none⟩, []) := by
  have hrej := createInvoice_status_by_validation exampleEnv [] 1
    [⟨"  ", JSNumber.fin 1, JSNumber.fin 0⟩]
  have h400 : (createInvoice exampleEnv [] ⟨1,
      some [⟨"  ", JSNumber.fin 1, JSNumber.fin 0⟩]⟩).1.status = 400 :=
    hrej.1.mpr (Or.inr ⟨_, List.mem_singleton.mpr rfl, Or.inl (by decide)⟩)
  have hsample := (createInvoice_status_by_validation exampleEnv [] 1 []).2.2.2.1 "Sample"
    (by decide)
  refine ⟨h400, ?_, hsample.1, hsample.2⟩
  rw [hrej.2.1 h400]

/-! ## Invoice numbers assigned by the pre-save hook -/

/-- C10: the pre-save hook leaves an invoice whose `invoiceNumber` is a non-empty string
exactly as it is, whatever the document count; in particular the number is unchanged. -/
theorem preSave_keeps_assigned_number (count : Nat) (inv : Invoice) (number : String)
    (hnum : inv.invoiceNumber = some number) (hne : number ≠ "") :
    preSave count inv = inv ∧ (preSave count inv).invoiceNumber = some number := by
  have hmiss : invoiceNumberMissing inv = false := by
    unfold invoiceNumberMissing
    rw [hnum]
    exact decide_eq_false hne
  have hsame : preSave count inv = inv := by
    unfold preSave
    rw [hmiss]
    rfl
  exact ⟨hsame, by rw [hsame, hnum]⟩

/-- C10 at a concrete input: the example invoice, numbered `INV-000001`, keeps its number
when the hook runs again with 41 documents in the collection. -/
theorem preSave_keeps_assigned_number_example :
    (preSave 41 (savedInvoice exampleEnv [] 1 exampleProducts)).invoiceNumber
      = some "INV-000001" :=
  (preSave_keeps_assigned_number 41 (savedInvoice exampleEnv [] 1 exampleProducts)
    "INV-000001" (by decide) (by decide)).2

/-! ### Decimal numerals -/

theorem digitChar_toNat (d : Nat) (h : d < 10) : (digitChar d).toNat = 48 + d := by
  interval_cases d <;> rfl

theorem digitChar_isDigit (d : Nat) (h : d < 10) : (digitChar d).isDigit = true := by
  interval_cases d <;> rfl

theorem digitsValue_append_singleton (cs : List Char) (c : Char) :
    digitsValue (cs ++ [c]) = digitsValue cs * 10 + (c.toNat - 48) := by
  simp [digitsValue, List.foldl_append]

theorem digitsRevAux_lt_ten (fuel n : Nat) : ∀ d ∈ digitsRevAux fuel n, d < 10 := by
  induction fuel generalizing n with
  | zero => simp [digitsRevAux]
  | succ fuel ih =>
    intro d hd
    unfold digitsRevAux at hd
    split_ifs at hd with hn
    · simp only [List.mem_singleton] at hd
      omega
    · simp only [List.mem_cons] at hd
      rcases hd with rfl | hd
      · exact Nat.mod_lt _ (by norm_num)
      · exact ih _ d hd

theorem digitsValue_digitsRevAux (fuel n : Nat) (h : n < fuel) :
    digitsValue ((digitsRevAux fuel n).reverse.map digitChar) = n := by
  induction fuel generalizing n with
  | zero => omega
  | succ fuel ih =>
    unfold digitsRevAux
    split_ifs with hn
    · simp [digitsValue, digitChar_toNat n hn]
    · rw [List.reverse_cons, List.map_append, List.map_singleton, digitsValue_append_singleton,
        ih (n / 10) (by omega), digitChar_toNat _ (Nat.mod_lt _ (by norm_num))]
      omega

theorem digitsRevAux_length_pos (fuel n : Nat) (h : n < fuel) :
    1 ≤ (digitsRevAux fuel n).length := by
  cases fuel with
  | zero => omega
  | succ fuel =>
    unfold digitsRevAux
    split_ifs <;> simp

theorem digitsRevAux_length_le_iff (fuel n : Nat) (h : n < fuel) (k : Nat) (hk : 1 ≤ k) :
    (digitsRevAux fuel n).length ≤ k ↔ n < 10 ^ k := by
  induction fuel generalizing n k with
  | zero => omega
  | succ fuel ih =>
    unfold digitsRevAux
    split_ifs with hn
    · simp only [List.length_singleton, hk, true_iff]
      calc n < 10 := hn
        _ = 10 ^ 1 := by norm_num
        _ ≤ 10 ^ k := Nat.pow_le_pow_right (by norm_num) hk
    · have hfuel : n / 10 < fuel := by omega
      rw [List.length_cons]
      rcases Nat.lt_or_ge k 2 with hk2 | hk2
      · have hk1 : k = 1 := by omega
        subst hk1
        have := digitsRevAux_length_pos fuel (n / 10) hfuel
        constructor
        · intro hlen
          omega
        · intro hlt
          norm_num at hlt
          omega
      · have hih := ih (n / 10) hfuel (k - 1) (by omega)
        have hpow : 10 ^ k = 10 ^ (k - 1) * 10 := by
          rw [← Nat.pow_succ]
          congr 1
          omega
        rw [hpow, ← Nat.div_lt_iff_lt_mul (by norm_num : 0 < 10), ← hih]
        omega

theorem natDigits_value (n : Nat) : digitsValue (natDigits n) = n :=
  digitsValue_digitsRevAux (n + 1) n (Nat.lt_succ_self n)

theorem natDigits_length_le_iff (n k : Nat) (hk : 1 ≤ k) :
    (natDigits n).length ≤ k ↔ n < 10 ^ k := by
  unfold natDigits
  rw [List.length_map, List.length_reverse]
  exact digitsRevAux_length_le_iff (n + 1) n (Nat.lt_succ_self n) k hk

theorem natDigits_isDigit (n : Nat) : ∀ c ∈ natDigits n, c.isDigit = true := by
  intro c hc
  unfold natDigits at hc
  simp only [List.mem_map, List.mem_reverse] at hc
  obtain ⟨d, hd, rfl⟩ := hc
  exact digitChar_isDigit d (digitsRevAux_lt_ten _ _ d hd)

theorem digitsValue_replicate_zero_append (k : Nat) (cs : List Char) :
    digitsValue (List.replicate k '0' ++ cs) = digitsValue cs := by
  unfold digitsValue
  rw [List.foldl_append]
  congr 1
  induction k with
  | zero => rfl
  | succ k ih =>
    rw [List.replicate_succ, List.foldl_cons]
    exact ih

/-- The characters of an invoice number: `INV-`, the zero padding, the decimal numeral. -/
theorem invoiceNumberFor_data (count : Nat) :
    (invoiceNumberFor count).data =
      ['I', 'N', 'V', '-'] ++
        (List.replicate (6 - (natDigits (count + 1)).length) '0' ++ natDigits (count + 1)) :=
  rfl

theorem invoiceCounter_invoiceNumberFor (count : Nat) :
    invoiceCounter (invoiceNumberFor count) = count + 1 := by
  unfold invoiceCounter
  rw [invoiceNumberFor_data]
  show digitsValue (List.replicate _ '0' ++ natDigits (count + 1)) = count + 1
  rw [digitsValue_replicate_zero_append, natDigits_value]

theorem invoiceNumberFor_injective (a b : Nat) (h : invoiceNumberFor a = invoiceNumberFor b) :
    a = b := by
  have h1 := congrArg invoiceCounter h
  rw [invoiceCounter_invoiceNumberFor, invoiceCounter_invoiceNumberFor] at h1
  omega

/-! ### The format of invoice numbers -/

/-- C9, as stated, fails: with 999999 documents in the collection the hook assigns
`INV-1000000`, seven digits after the prefix, so the number is not `INV-` followed by
exactly six digits. -/
theorem preSave_seven_digits :
    (preSave 999999 (buildInvoice exampleEnv 1 exampleProducts)).invoiceNumber
        = some "INV-1000000" ∧
      ¬ ∃ ds : List Char, ds.length = 6 ∧
        (preSave 999999 (buildInvoice exampleEnv 1 exampleProducts)).invoiceNumber
          = some (String.mk (['I', 'N', 'V', '-'] ++ ds)) := by
  have hnum : (preSave 999999 (buildInvoice exampleEnv 1 exampleProducts)).invoiceNumber
      = some "INV-1000000" := by decide!
  refine ⟨hnum, ?_⟩
  rintro ⟨ds, hlen, hds⟩
  rw [hnum, Option.some.injEq] at hds
  have hl := congrArg String.length hds
  have h11 : ("INV-1000000" : String).length = 11 := by decide
  rw [h11] at hl
  have : (String.mk (['I', 'N', 'V', '-'] ++ ds)).length = 4 + ds.length := by
    show (['I', 'N', 'V', '-'] ++ ds).length = 4 + ds.length
    rw [List.length_append]
    rfl
  omega

/-- C9, amended: the number the pre-save hook assigns to a document without one is `INV-`
followed by decimal digits that encode `count + 1`, zero-padded on the left: exactly six
digits while `count + 1` is below 1000000, and the plain numeral of `count + 1`, seven
digits or more, from then on. -/
theorem preSave_number_format (count : Nat) (inv : Invoice)
    (hmiss : invoiceNumberMissing inv = true) :
    ∃ ds : List Char,
      (preSave count inv).invoiceNumber = some (String.mk (['I', 'N', 'V', '-'] ++ ds)) ∧
      (∀ c ∈ ds, c.isDigit = true) ∧ digitsValue ds = count + 1 ∧
      (count + 1 < 10 ^ 6 → ds.length = 6) ∧
      (10 ^ 6 ≤ count + 1 → ds = natDigits (count + 1) ∧ 7 ≤ ds.length) := by
  refine ⟨List.replicate (6 - (natDigits (count + 1)).length) '0' ++ natDigits (count + 1),
    ?_, ?_, ?_, ?_, ?_⟩
  · unfold preSave
    rw [if_pos hmiss]
    rfl
  · intro c hc
    rw [List.mem_append] at hc
    rcases hc with hc | hc
    · rw [(List.mem_replicate.mp hc).2]
      rfl
    · exact natDigits_isDigit _ c hc
  · rw [digitsValue_replicate_zero_append, natDigits_value]
  · intro h
    have hle := (natDigits_length_le_iff (count + 1) 6 (by norm_num)).mpr h
    rw [List.length_append, List.length_replicate]
    omega
  · intro h
    have hgt : ¬ (natDigits (count + 1)).length ≤ 6 := by
      rw [natDigits_length_le_iff (count + 1) 6 (by norm_num)]
      omega
    have hzero : 6 - (natDigits (count + 1)).length = 0 := by omega
    rw [hzero]
    simp only [List.replicate_zero, List.nil_append, true_and]
    omega

/-- C9, amended, at a concrete input: with 41 documents in the collection a new invoice
gets the number `INV-000042`. -/
theorem preSave_number_format_example :
    invoiceNumberMissing (buildInvoice exampleEnv 1 exampleProducts) = true ∧
      (preSave 41 (buildInvoice exampleEnv 1 exampleProducts)).invoiceNumber
        = some "INV-000042" ∧
      ∃ ds : List Char,
        (preSave 41 (buildInvoice exampleEnv 1 exampleProducts)).invoiceNumber
          = some (String.mk (['I', 'N', 'V', '-'] ++ ds)) ∧ ds.length = 6 := by
  refine ⟨rfl, by decide!, ?_⟩
  obtain ⟨ds, h1, _, _, h4, _⟩ :=
    preSave_number_format 41 (buildInvoice exampleEnv 1 exampleProducts) rfl
  exact ⟨ds, h1, h4 (by norm_num)⟩

/-! ### Sequential creation -/

theorem createSequentially_creates_nothing (reqs : List (Env × Request)) (st : Store) :
    (∀ r ∈ (createSequentially st reqs).1,
        r.invoice = none ∧ (r.status = 400 ∨ r.status = 500)) ∧
      (createSequentially st reqs).2 = st := by
  induction reqs with
  | nil => exact ⟨fun r hr => absurd hr (List.not_mem_nil r), rfl⟩
  | cons r rest ih =>
    obtain ⟨env, req⟩ := r
    obtain ⟨h1, h2, h3⟩ := createInvoice_creates_nothing env st req
    have hstep : createSequentially st ((env, req) :: rest) =
        ((createInvoice env st req).1 :: (createSequentially st rest).1,
          (createSequentially st rest).2) := by
      show (_ :: (createSequentially (createInvoice env st req).2 rest).1,
        (createSequentially (createInvoice env st req).2 rest).2) = _
      rw [h2]
    rw [hstep]
    refine ⟨?_, ih.2⟩
    intro r hr
    rcases List.mem_cons.mp hr with rfl | hr
    · exact ⟨h1, h3⟩
    · exact ih.1 r hr

theorem assignedNumbers_eq_nil (rs : List Response) (h : ∀ r ∈ rs, r.invoice = none) :
    assignedNumbers rs = [] := by
  unfold assignedNumbers
  rw [List.filterMap_eq_nil_iff]
  intro r hr
  rw [h r hr]
  rfl

/-- C8: whatever the store and the requests, Create Invoice requests handled one after
another create no invoice and get no invoice number: each is answered 400 or 500 and the
store stays as it was, because `save` refuses every document the handler builds before the
pre-save hook is reached. The hook on its own takes the number from the document count
alone: a document without number gets the number of the count, and when a stored invoice
already carries that number (as after a deletion) the unique index refuses the insert. -/
theorem createSequentially_assigns_no_number (st : Store) (reqs : List (Env × Request)) :
    assignedNumbers (createSequentially st reqs).1 = [] ∧
      (createSequentially st reqs).2 = st ∧
      (∀ r ∈ (createSequentially st reqs).1, r.status = 400 ∨ r.status = 500) ∧
      (∀ doc, invoiceNumberMissing doc = true →
        (preSave st.length doc).invoiceNumber = some (invoiceNumberFor st.length) ∧
          ((∃ other ∈ st, other.invoiceNumber = some (invoiceNumberFor st.length)) →
            insertUnique st (preSave st.length doc) = Except.error SaveError.duplicateKey)) := by
  obtain ⟨h1, h2⟩ := createSequentially_creates_nothing reqs st
  refine ⟨assignedNumbers_eq_nil _ (fun r hr => (h1 r hr).1), h2, fun r hr => (h1 r hr).2, ?_⟩
  intro doc hmiss
  have hnum : (preSave st.length doc).invoiceNumber = some (invoiceNumberFor st.length) := by
    unfold preSave
    rw [if_pos hmiss]
  refine ⟨hnum, ?_⟩
  rintro ⟨other, hmem, hother⟩
  unfold insertUnique
  rw [if_pos]
  rw [List.any_eq_true]
  exact ⟨other, hmem, by rw [hnum, hother]; exact decide_eq_true rfl⟩

/-- C8 at concrete inputs: two valid requests for the example products, handled one after
another from the empty store, are both answered 500 and leave the store empty. In the
store that holds only the invoice `INV-000002` the document count is 1, so the hook sets
`INV-000002` on the next document, a number already in the store, and the unique index
refuses the insert. -/
theorem createSequentially_example :
    (createSequentially [] exampleRequests).1.map (fun r => r.status) = [500, 500] ∧
      assignedNumbers (createSequentially [] exampleRequests).1 = [] ∧
      (createSequentially [] exampleRequests).2 = [] ∧
      storeNumbers gapStore = [some "INV-000002"] ∧
      (preSave gapStore.length
          (buildInvoice ⟨1700000000002, 3⟩ 1 (sanitizeProducts exampleProducts))).invoiceNumber
        = some "INV-000002" ∧
      insertUnique gapStore (preSave gapStore.length
          (buildInvoice ⟨1700000000002, 3⟩ 1 (sanitizeProducts exampleProducts)))
        = Except.error SaveError.duplicateKey := by
  have h := createSequentially_assigns_no_number [] exampleRequests
  have hgap := (createSequentially_assigns_no_number gapStore []).2.2.2
    (buildInvoice ⟨1700000000002, 3⟩ 1 (sanitizeProducts exampleProducts)) rfl
  refine ⟨by decide!, h.1, h.2.1, by decide!, ?_, ?_⟩
  · rw [hgap.1]
    decide!
  · exact hgap.2 ⟨_, List.mem_singleton.mpr rfl, by decide!⟩

/-! ### Concurrent creation -/

/-- C21: two documents without invoice number whose pre-save hooks both read the document
count before either document is inserted get the same invoice number, the one of that
count; once the first is inserted, the unique index refuses the second. The numbering is
not safe against this interleaving. -/
theorem preSave_race_same_number (st : Store) (first second : Invoice)
    (hfirst : invoiceNumberMissing first = true)
    (hsecond : invoiceNumberMissing second = true) :
    (preSave st.length first).invoiceNumber = some (invoiceNumberFor st.length) ∧
      (preSave st.length second).invoiceNumber = (preSave st.length first).invoiceNumber ∧
      ∀ st1, insertUnique st (preSave st.length first) = Except.ok st1 →
        st1 = st ++ [preSave st.length first] ∧
          insertUnique st1 (preSave st.length second) = Except.error SaveError.duplicateKey := by
  have h1 : (preSave st.length first).invoiceNumber = some (invoiceNumberFor st.length) := by
    unfold preSave
    rw [if_pos hfirst]
  have h2 : (preSave st.length second).invoiceNumber = some (invoiceNumberFor st.length) := by
    unfold preSave
    rw [if_pos hsecond]
  refine ⟨h1, by rw [h1, h2], ?_⟩
  intro st1 hins
  have hst1 : st1 = st ++ [preSave st.length first] := by
    unfold insertUnique at hins
    split_ifs at hins
    exact (Except.ok.inj hins).symm
  refine ⟨hst1, ?_⟩
  unfold insertUnique
  rw [if_pos]
  rw [List.any_eq_true]
  refine ⟨preSave st.length first, ?_, ?_⟩
  · rw [hst1]
    exact List.mem_append_right _ (List.mem_singleton.mpr rfl)
  · rw [h1, h2]
    exact decide_eq_true rfl

/-- C21 at concrete inputs: the documents of two requests for the example products, with
both hooks run against the empty store, both carry `INV-000001`; the first is inserted and
the second is refused. Sent to the handler as it is, each of the two requests is answered
500 at schema validation, before any hook runs. -/
theorem preSave_race_example :
    (preSave 0 (buildInvoice exampleEnv 1 (sanitizeProducts exampleProducts))).invoiceNumber
        = some "INV-000001" ∧
      (preSave 0 (buildInvoice ⟨1700000000001, 2⟩ 1
          (sanitizeProducts exampleProducts))).invoiceNumber = some "INV-000001" ∧
      insertUnique [] (preSave 0 (buildInvoice exampleEnv 1 (sanitizeProducts exampleProducts)))
        = Except.ok [preSave 0 (buildInvoice exampleEnv 1 (sanitizeProducts exampleProducts))] ∧
      insertUnique [preSave 0 (buildInvoice exampleEnv 1 (sanitizeProducts exampleProducts))]
          (preSave 0 (buildInvoice ⟨1700000000001, 2⟩ 1 (sanitizeProducts exampleProducts)))
        = Except.error SaveError.duplicateKey ∧
      (createSequentially [] exampleRequests).1.map (fun r => r.status) = [500, 500] := by
  have h := preSave_race_same_number []
    (buildInvoice exampleEnv 1 (sanitizeProducts exampleProducts))
    (buildInvoice ⟨1700000000001, 2⟩ 1 (sanitizeProducts exampleProducts)) rfl rfl
  have hins : insertUnique []
      (preSave 0 (buildInvoice exampleEnv 1 (sanitizeProducts exampleProducts)))
      = Except.ok [preSave 0 (buildInvoice exampleEnv 1 (sanitizeProducts exampleProducts))] :=
    rfl
  have h1 : (preSave 0 (buildInvoice exampleEnv 1
      (sanitizeProducts exampleProducts))).invoiceNumber = some "INV-000001" := by
    rw [show (0 : Nat) = ([] : Store).length from rfl, h.1]
    decide!
  refine ⟨h1, ?_, hins, (h.2.2 _ hins).2, by decide!⟩
  rw [show (0 : Nat) = ([] : Store).length from rfl, h.2.1, h.1]
  decide!

/-! ## Exact arithmetic on whole numbers -/

open JSNumber

theorem log2Aux_le (fuel n k : Nat) (h : n < 2 ^ (k + 1)) : log2Aux fuel n ≤ k := by
  induction fuel generalizing n k with
  | zero => exact Nat.zero_le _
  | succ fuel ih =>
    unfold log2Aux
    split_ifs with hn
    · exact Nat.zero_le _
    · cases k with
      | zero =>
        norm_num at h
        omega
      | succ k =>
        have : n / 2 < 2 ^ (k + 1) := by
          rw [Nat.div_lt_iff_lt_mul (by norm_num)]
          calc n < 2 ^ (k + 1 + 1) := h
            _ = 2 ^ (k + 1) * 2 := Nat.pow_succ 2 (k + 1)
        have := ih (n / 2) k this
        omega

theorem pow2_of_nonpos (p : Int) (hp : p ≤ 0) :
    pow2 p = 1 / ((2 ^ (-p).toNat : Nat) : ℚ) := by
  unfold pow2
  split_ifs with h
  · have h0 : p = 0 := by omega
    subst h0
    simp
  · rfl

theorem roundHalfEven_intCast (z : Int) : roundHalfEven (z : ℚ) = z := by
  have hf : Rat.floor (z : ℚ) = z := by simp [Rat.floor]
  unfold roundHalfEven
  simp only [hf, sub_self]
  norm_num

theorem binadeExp_natCast_le (n : Nat) (h : n < 2 ^ 53) : binadeExp (n : ℚ) ≤ 52 := by
  have h0 : floorLog2 n ≤ 52 := log2Aux_le n n 52 h
  have h1 : floorLog2 1 = 0 := rfl
  unfold binadeExp
  simp only [Rat.num_natCast, Int.natAbs_ofNat, Rat.den_natCast, h1]
  split_ifs <;> omega

theorem not_pow2_le_natCast (n e : Nat) (he : 53 ≤ e) (h : n < 2 ^ 53) :
    ¬ pow2 (e : ℤ) ≤ |(n : ℚ)| := by
  have h1 : pow2 (e : ℤ) = ((2 ^ e : Nat) : ℚ) := by
    unfold pow2
    rw [if_pos (Int.natCast_nonneg e), Int.toNat_natCast]
  have h2 : (n : ℚ) < ((2 ^ e : Nat) : ℚ) := by
    have : n < 2 ^ e := lt_of_lt_of_le h (Nat.pow_le_pow_right (by norm_num) he)
    exact_mod_cast this
  rw [h1, abs_of_nonneg (Nat.cast_nonneg n)]
  exact not_le.mpr h2

theorem roundDouble_natCast (n : Nat) (h : n < 2 ^ 53) :
    roundDouble (n : ℚ) = fin (n : ℚ) := by
  by_cases h0 : (n : ℚ) = 0
  · unfold roundDouble
    rw [if_pos h0, h0]
  · have hp : max (binadeExp (n : ℚ) - 52) (-1074) ≤ 0 := by
      have := binadeExp_natCast_le n h
      omega
    have hr : ((roundHalfEven ((n : ℚ) / pow2 (max (binadeExp (n : ℚ) - 52) (-1074))) : ℤ) : ℚ)
        * pow2 (max (binadeExp (n : ℚ) - 52) (-1074)) = n := by
      rw [pow2_of_nonpos _ hp]
      generalize (-(max (binadeExp (n : ℚ) - 52) (-1074))).toNat = k
      have hk : ((2 ^ k : Nat) : ℚ) ≠ 0 := by positivity
      have hcast : (n : ℚ) / (1 / ((2 ^ k : Nat) : ℚ)) = (((n * 2 ^ k : Nat) : ℤ) : ℚ) := by
        push_cast
        field_simp
      rw [hcast, roundHalfEven_intCast]
      push_cast
      field_simp
    have hsmall : ¬ pow2 1024 ≤ |(n : ℚ)| := by
      have := not_pow2_le_natCast n 1024 (by norm_num) h
      exact_mod_cast this
    unfold roundDouble
    rw [if_neg h0]
    simp only [hr]
    rw [if_neg hsmall]


theorem mul_natCast (a b : Nat) (h : a * b < 2 ^ 53) :
    JSNumber.fin (a : ℚ) * JSNumber.fin (b : ℚ) = JSNumber.fin ((a * b : Nat) : ℚ) := by
  show roundDouble ((a : ℚ) * (b : ℚ)) = _
  rw [← Nat.cast_mul]
  exact roundDouble_natCast (a * b) h

theorem add_natCast (a b : Nat) (h : a + b < 2 ^ 53) :
    JSNumber.fin (a : ℚ) + JSNumber.fin (b : ℚ) = JSNumber.fin ((a + b : Nat) : ℚ) := by
  show roundDouble ((a : ℚ) + (b : ℚ)) = _
  rw [← Nat.cast_add]
  exact roundDouble_natCast (a + b) h

/-! ### Rounding errors -/

theorem pow2_eq_zpow (e : Int) : pow2 e = (2 : ℚ) ^ e := by
  unfold pow2
  split_ifs with h
  · have he : e = (e.toNat : ℤ) := (Int.toNat_of_nonneg h).symm
    conv_rhs => rw [he]
    rw [zpow_natCast]
    push_cast
    rfl
  · have he : e = -((-e).toNat : ℤ) := by
      have := Int.toNat_of_nonneg (show 0 ≤ -e by omega)
      omega
    conv_rhs => rw [he]
    rw [zpow_neg, zpow_natCast]
    push_cast
    rw [one_div]

theorem log2Aux_spec (fuel n : Nat) (hn : 0 < n) (hf : n ≤ fuel) :
    2 ^ log2Aux fuel n ≤ n ∧ n < 2 ^ (log2Aux fuel n + 1) := by
  induction fuel generalizing n with
  | zero => omega
  | succ fuel ih =>
    unfold log2Aux
    split_ifs with h2
    · have : n = 1 := by omega
      subst this
      norm_num
    · obtain ⟨h1, h3⟩ := ih (n / 2) (by omega) (by omega)
      rw [pow_succ] at h3
      rw [pow_succ, pow_succ, pow_succ]
      generalize 2 ^ log2Aux fuel (n / 2) = m at h1 h3
      constructor <;> omega

theorem floorLog2_spec (n : Nat) (hn : 0 < n) :
    2 ^ floorLog2 n ≤ n ∧ n < 2 ^ (floorLog2 n + 1) :=
  log2Aux_spec n n hn (Nat.le_refl n)

theorem abs_eq_natAbs_div (q : ℚ) : |q| = (q.num.natAbs : ℚ) / (q.den : ℚ) := by
  conv_lhs => rw [← Rat.num_div_den q]
  rw [abs_div, Nat.cast_natAbs, Int.cast_abs]
  congr 1
  exact abs_of_nonneg (Nat.cast_nonneg _)

/-- The binade of a non-zero rational holds it: `2 ^ e ≤ |q| < 2 ^ (e + 1)`. -/
theorem binadeExp_spec (q : ℚ) (hq : q ≠ 0) :
    (2 : ℚ) ^ binadeExp q ≤ |q| ∧ |q| < (2 : ℚ) ^ (binadeExp q + 1) := by
  have hnum : 0 < q.num.natAbs := Int.natAbs_pos.mpr (Rat.num_ne_zero.mpr hq)
  have hden : 0 < q.den := q.den_pos
  obtain ⟨ha1, ha2⟩ := floorLog2_spec q.num.natAbs hnum
  obtain ⟨hb1, hb2⟩ := floorLog2_spec q.den hden
  have habs := abs_eq_natAbs_div q
  have hdef : binadeExp q =
      if pow2 ((floorLog2 q.num.natAbs : Int) - (floorLog2 q.den : Int)) ≤ |q|
      then (floorLog2 q.num.natAbs : Int) - (floorLog2 q.den : Int)
      else (floorLog2 q.num.natAbs : Int) - (floorLog2 q.den : Int) - 1 := rfl
  generalize floorLog2 q.num.natAbs = a at ha1 ha2 hdef
  generalize floorLog2 q.den = b at hb1 hb2 hdef
  have hD : (0 : ℚ) < (q.den : ℚ) := by exact_mod_cast hden
  have ha1q : ((2 : ℚ) ^ a) ≤ (q.num.natAbs : ℚ) := by exact_mod_cast ha1
  have ha2q : (q.num.natAbs : ℚ) < (2 : ℚ) ^ (a + 1) := by exact_mod_cast ha2
  have hb1q : ((2 : ℚ) ^ b) ≤ (q.den : ℚ) := by exact_mod_cast hb1
  have hb2q : (q.den : ℚ) < (2 : ℚ) ^ (b + 1) := by exact_mod_cast hb2
  have h2 : (2 : ℚ) ≠ 0 := by norm_num
  -- upper bound with exponent a - b + 1, lower bound with exponent a - b - 1
  have hup : |q| < (2 : ℚ) ^ ((a : ℤ) - (b : ℤ) + 1) := by
    rw [habs, div_lt_iff₀ hD]
    have hsplit : (2 : ℚ) ^ ((a : ℤ) - (b : ℤ) + 1) * (2 : ℚ) ^ b = (2 : ℚ) ^ (a + 1) := by
      rw [← zpow_natCast, ← zpow_natCast, ← zpow_add₀ h2]
      congr 1
      push_cast
      ring
    calc (q.num.natAbs : ℚ) < (2 : ℚ) ^ (a + 1) := ha2q
      _ = (2 : ℚ) ^ ((a : ℤ) - (b : ℤ) + 1) * (2 : ℚ) ^ b := hsplit.symm
      _ ≤ (2 : ℚ) ^ ((a : ℤ) - (b : ℤ) + 1) * (q.den : ℚ) :=
        mul_le_mul_of_nonneg_left hb1q (le_of_lt (zpow_pos (by norm_num) _))
  have hlow : (2 : ℚ) ^ ((a : ℤ) - (b : ℤ) - 1) ≤ |q| := by
    rw [habs, le_div_iff₀ hD]
    have hsplit : (2 : ℚ) ^ ((a : ℤ) - (b : ℤ) - 1) * (2 : ℚ) ^ (b + 1) = (2 : ℚ) ^ a := by
      rw [← zpow_natCast, ← zpow_natCast, ← zpow_add₀ h2]
      congr 1
      push_cast
      ring
    calc (2 : ℚ) ^ ((a : ℤ) - (b : ℤ) - 1) * (q.den : ℚ)
        ≤ (2 : ℚ) ^ ((a : ℤ) - (b : ℤ) - 1) * (2 : ℚ) ^ (b + 1) :=
          mul_le_mul_of_nonneg_left (le_of_lt hb2q) (le_of_lt (zpow_pos (by norm_num) _))
      _ = (2 : ℚ) ^ a := hsplit
      _ ≤ (q.num.natAbs : ℚ) := ha1q
  rw [hdef, pow2_eq_zpow]
  by_cases hc : (2 : ℚ) ^ ((a : ℤ) - (b : ℤ)) ≤ |q|
  · rw [if_pos hc]
    exact ⟨hc, hup⟩
  · rw [if_neg hc]
    refine ⟨hlow, ?_⟩
    rw [sub_add_cancel]
    exact not_le.mp hc

theorem roundHalfEven_error (y : ℚ) : |(roundHalfEven y : ℚ) - y| ≤ 1 / 2 := by
  have hf : Rat.floor y = ⌊y⌋ := rfl
  have h1 : (⌊y⌋ : ℚ) ≤ y := Int.floor_le y
  have h2 : y < (⌊y⌋ : ℚ) + 1 := Int.lt_floor_add_one y
  unfold roundHalfEven
  simp only [hf]
  split_ifs with ha hb hc
  · rw [abs_le]
    constructor <;> linarith
  · rw [abs_le]
    push_cast
    constructor <;> linarith
  · rw [abs_le]
    constructor <;> linarith
  · rw [abs_le]
    push_cast
    constructor <;> linarith

theorem roundDouble_eq_fin (x : ℚ) (h0 : x ≠ 0)
    (hsmall : ¬ pow2 1024 ≤
      |(roundHalfEven (x / pow2 (max (binadeExp x - 52) (-1074))) : ℚ)
        * pow2 (max (binadeExp x - 52) (-1074))|) :
    roundDouble x = fin ((roundHalfEven (x / pow2 (max (binadeExp x - 52) (-1074))) : ℚ)
      * pow2 (max (binadeExp x - 52) (-1074))) := by
  unfold roundDouble
  rw [if_neg h0]
  exact if_neg hsmall

/-- Rounding to binary64 in the normal range: the result is finite and within the relative
error `2 ^ (-53)` of the exact value. -/
theorem roundDouble_near (x : ℚ) (hlo : (2 : ℚ) ^ (-1022 : ℤ) ≤ x)
    (hhi : x < (2 : ℚ) ^ (1023 : ℤ)) :
    ∃ r, roundDouble x = fin r ∧ (1 - 1 / 2 ^ 53) * x ≤ r ∧ r ≤ (1 + 1 / 2 ^ 53) * x := by
  have hpos : 0 < x := lt_of_lt_of_le (zpow_pos (by norm_num) _) hlo
  have h0 : x ≠ 0 := ne_of_gt hpos
  obtain ⟨hb1, hb2⟩ := binadeExp_spec x h0
  rw [abs_of_pos hpos] at hb1 hb2
  have hbe : -1022 ≤ binadeExp x := by
    have : (2 : ℚ) ^ (-1022 : ℤ) < (2 : ℚ) ^ (binadeExp x + 1) := lt_of_le_of_lt hlo hb2
    rw [zpow_lt_zpow_iff_right₀ (by norm_num)] at this
    omega
  have hp : max (binadeExp x - 52) (-1074) = binadeExp x - 52 := max_eq_left (by omega)
  have h2 : (2 : ℚ) ≠ 0 := by norm_num
  have hP : (0 : ℚ) < (2 : ℚ) ^ (binadeExp x - 52) := zpow_pos (by norm_num) _
  have herr := roundHalfEven_error (x / (2 : ℚ) ^ (binadeExp x - 52))
  have hscale : (2 : ℚ) ^ (binadeExp x - 52) = (2 : ℚ) ^ binadeExp x * (1 / 2 ^ 52) := by
    rw [zpow_sub₀ h2]
    norm_num [div_eq_mul_inv]
  -- the distance between the rounded and the exact value
  have hdist : |(roundHalfEven (x / (2 : ℚ) ^ (binadeExp x - 52)) : ℚ)
      * (2 : ℚ) ^ (binadeExp x - 52) - x| ≤ 1 / 2 ^ 53 * x := by
    have hx : x = x / (2 : ℚ) ^ (binadeExp x - 52) * (2 : ℚ) ^ (binadeExp x - 52) := by
      field_simp
    have : (roundHalfEven (x / (2 : ℚ) ^ (binadeExp x - 52)) : ℚ)
        * (2 : ℚ) ^ (binadeExp x - 52) - x
        = ((roundHalfEven (x / (2 : ℚ) ^ (binadeExp x - 52)) : ℚ)
          - x / (2 : ℚ) ^ (binadeExp x - 52)) * (2 : ℚ) ^ (binadeExp x - 52) := by
      rw [sub_mul, ← hx]
    rw [this, abs_mul, abs_of_pos hP]
    calc |(roundHalfEven (x / (2 : ℚ) ^ (binadeExp x - 52)) : ℚ)
          - x / (2 : ℚ) ^ (binadeExp x - 52)| * (2 : ℚ) ^ (binadeExp x - 52)
        ≤ 1 / 2 * (2 : ℚ) ^ (binadeExp x - 52) :=
          mul_le_mul_of_nonneg_right herr (le_of_lt hP)
      _ = 1 / 2 ^ 53 * (2 : ℚ) ^ binadeExp x := by
          rw [hscale]
          norm_num
          ring
      _ ≤ 1 / 2 ^ 53 * x := mul_le_mul_of_nonneg_left hb1 (by norm_num)
  rw [abs_le] at hdist
  have hsmall : ¬ pow2 1024 ≤
      |(roundHalfEven (x / pow2 (max (binadeExp x - 52) (-1074))) : ℚ)
        * pow2 (max (binadeExp x - 52) (-1074))| := by
    rw [hp, pow2_eq_zpow, pow2_eq_zpow, not_le, abs_lt]
    have h1024 : (2 : ℚ) ^ (1024 : ℤ) = 2 * (2 : ℚ) ^ (1023 : ℤ) := by
      rw [show (1024 : ℤ) = 1023 + 1 from rfl, zpow_add_one₀ h2]
      ring
    have hu : (1 : ℚ) / 2 ^ 53 * x ≤ x := by
      have : (1 : ℚ) / 2 ^ 53 ≤ 1 := by norm_num
      nlinarith
    constructor <;> linarith [hdist.1, hdist.2]
  refine ⟨_, roundDouble_eq_fin x h0 hsmall, ?_, ?_⟩
  · rw [hp, pow2_eq_zpow]
    linarith [hdist.1]
  · rw [hp, pow2_eq_zpow]
    linarith [hdist.2]

theorem withinRoundings_zero (m : Nat) : WithinRoundings m 0 0 := by
  unfold WithinRoundings
  simp

theorem withinRoundings_mono (m n : Nat) (a e : ℚ) (hmn : m ≤ n) (he : 0 ≤ e)
    (h : WithinRoundings m a e) : WithinRoundings n a e := by
  unfold WithinRoundings at *
  have h1 : (1 - 1 / 2 ^ 53 : ℚ) ^ n ≤ (1 - 1 / 2 ^ 53 : ℚ) ^ m :=
    pow_le_pow_of_le_one (by norm_num) (by norm_num) hmn
  have h2 : (1 + 1 / 2 ^ 53 : ℚ) ^ m ≤ (1 + 1 / 2 ^ 53 : ℚ) ^ n :=
    pow_le_pow_right₀ (by norm_num) hmn
  constructor
  · exact le_trans (mul_le_mul_of_nonneg_right h1 he) h.1
  · exact le_trans h.2 (mul_le_mul_of_nonneg_right h2 he)

theorem withinRoundings_add (m : Nat) (a b e f : ℚ) (ha : WithinRoundings m a e)
    (hb : WithinRoundings m b f) : WithinRoundings m (a + b) (e + f) := by
  unfold WithinRoundings at *
  constructor
  · rw [mul_add]
    linarith [ha.1, hb.1]
  · rw [mul_add]
    linarith [ha.2, hb.2]

theorem withinRoundings_mul (m : Nat) (q a e : ℚ) (hq : 0 ≤ q) (ha : WithinRoundings m a e) :
    WithinRoundings m (q * a) (q * e) := by
  unfold WithinRoundings at *
  constructor
  · calc (1 - 1 / 2 ^ 53 : ℚ) ^ m * (q * e) = q * ((1 - 1 / 2 ^ 53 : ℚ) ^ m * e) := by ring
      _ ≤ q * a := mul_le_mul_of_nonneg_left ha.1 hq
  · calc q * a ≤ q * ((1 + 1 / 2 ^ 53 : ℚ) ^ m * e) := mul_le_mul_of_nonneg_left ha.2 hq
      _ = (1 + 1 / 2 ^ 53 : ℚ) ^ m * (q * e) := by ring

theorem pow_one_sub_ge (m : Nat) : 1 - (m : ℚ) * (1 / 2 ^ 53) ≤ (1 - 1 / 2 ^ 53 : ℚ) ^ m := by
  have h := one_add_mul_le_pow (show (-2 : ℚ) ≤ -(1 / 2 ^ 53) by norm_num) m
  have e1 : (1 : ℚ) + (m : ℚ) * -(1 / 2 ^ 53) = 1 - (m : ℚ) * (1 / 2 ^ 53) := by ring
  have e2 : (1 : ℚ) + -(1 / 2 ^ 53) = 1 - 1 / 2 ^ 53 := by ring
  rw [e1, e2] at h
  exact h

theorem pow_one_add_le (m : Nat) (hm : 2 * (m : ℚ) * (1 / 2 ^ 53) ≤ 1) :
    (1 + 1 / 2 ^ 53 : ℚ) ^ m ≤ 1 + 2 * (m : ℚ) * (1 / 2 ^ 53) := by
  induction m with
  | zero => simp
  | succ k ih =>
    have hk : 2 * (k : ℚ) * (1 / 2 ^ 53) ≤ 1 := by
      have : (k : ℚ) ≤ ((k + 1 : Nat) : ℚ) := by exact_mod_cast Nat.le_succ k
      have hpos : (0 : ℚ) ≤ 1 / 2 ^ 53 := by norm_num
      nlinarith
    have ih' := ih hk
    have hk0 : (0 : ℚ) ≤ (k : ℚ) := Nat.cast_nonneg k
    rw [pow_succ]
    push_cast at hm ⊢
    have hu : (0 : ℚ) < 1 / 2 ^ 53 := by norm_num
    calc (1 + 1 / 2 ^ 53 : ℚ) ^ k * (1 + 1 / 2 ^ 53)
        ≤ (1 + 2 * (k : ℚ) * (1 / 2 ^ 53)) * (1 + 1 / 2 ^ 53) :=
          mul_le_mul_of_nonneg_right ih' (by norm_num)
      _ ≤ 1 + 2 * ((k : ℚ) + 1) * (1 / 2 ^ 53) := by nlinarith

/-- One more rounding: an exact value that is zero, or at least one hundredth and of
moderate size after few roundings, is rounded to a finite number within one more
rounding. -/
theorem withinRoundings_round (m : Nat) (x e : ℚ) (h : WithinRoundings m x e)
    (he : e = 0 ∨ (1 / 100 ≤ e ∧ e ≤ 2 ^ 51 ∧ m ≤ 2 ^ 51)) :
    ∃ r, roundDouble x = fin r ∧ WithinRoundings (m + 1) r e := by
  rcases he with he | ⟨he1, he2, hm⟩
  · subst he
    have hx : x = 0 := by
      unfold WithinRoundings at h
      simp only [mul_zero] at h
      exact le_antisymm h.2 h.1
    subst hx
    exact ⟨0, rfl, withinRoundings_zero _⟩
  · have hmq : (m : ℚ) ≤ 2 ^ 51 := by exact_mod_cast hm
    have hlow : (3 / 4 : ℚ) ≤ (1 - 1 / 2 ^ 53 : ℚ) ^ m := by
      have := pow_one_sub_ge m
      have : (m : ℚ) * (1 / 2 ^ 53) ≤ 1 / 4 := by
        calc (m : ℚ) * (1 / 2 ^ 53) ≤ 2 ^ 51 * (1 / 2 ^ 53) :=
              mul_le_mul_of_nonneg_right hmq (by norm_num)
          _ = 1 / 4 := by norm_num
      linarith [pow_one_sub_ge m]
    have hup : (1 + 1 / 2 ^ 53 : ℚ) ^ m ≤ 3 / 2 := by
      have h2 : 2 * (m : ℚ) * (1 / 2 ^ 53) ≤ 1 / 2 := by
        calc 2 * (m : ℚ) * (1 / 2 ^ 53) = 2 * ((m : ℚ) * (1 / 2 ^ 53)) := by ring
          _ ≤ 2 * (2 ^ 51 * (1 / 2 ^ 53)) :=
              mul_le_mul_of_nonneg_left
                (mul_le_mul_of_nonneg_right hmq (by norm_num)) (by norm_num)
          _ = 1 / 2 := by norm_num
      linarith [pow_one_add_le m (by linarith)]
    have he0 : 0 ≤ e := by linarith
    unfold WithinRoundings at h
    have hx1 : 3 / 4 * e ≤ x := le_trans (mul_le_mul_of_nonneg_right hlow he0) h.1
    have hx2 : x ≤ 3 / 2 * e := le_trans h.2 (mul_le_mul_of_nonneg_right hup he0)
    have hlo : (2 : ℚ) ^ (-1022 : ℤ) ≤ x := by
      have h8 : (2 : ℚ) ^ (-1022 : ℤ) ≤ (2 : ℚ) ^ (-8 : ℤ) :=
        zpow_le_zpow_right₀ (by norm_num) (by norm_num)
      have h8' : (2 : ℚ) ^ (-8 : ℤ) = 1 / 256 := by norm_num [zpow_neg]
      calc (2 : ℚ) ^ (-1022 : ℤ) ≤ (2 : ℚ) ^ (-8 : ℤ) := h8
        _ = 1 / 256 := h8'
        _ ≤ 3 / 4 * (1 / 100) := by norm_num
        _ ≤ 3 / 4 * e := mul_le_mul_of_nonneg_left he1 (by norm_num)
        _ ≤ x := hx1
    have hhi : x < (2 : ℚ) ^ (1023 : ℤ) := by
      have h52 : (2 : ℚ) ^ (52 : ℤ) ≤ (2 : ℚ) ^ (1023 : ℤ) :=
        zpow_le_zpow_right₀ (by norm_num) (by norm_num)
      have h52' : (2 : ℚ) ^ (52 : ℤ) = 2 ^ 52 := by norm_num
      calc x ≤ 3 / 2 * e := hx2
        _ ≤ 3 / 2 * 2 ^ 51 := mul_le_mul_of_nonneg_left he2 (by norm_num)
        _ < 2 ^ 52 := by norm_num
        _ = (2 : ℚ) ^ (52 : ℤ) := h52'.symm
        _ ≤ (2 : ℚ) ^ (1023 : ℤ) := h52
    obtain ⟨r, hr, hr1, hr2⟩ := roundDouble_near x hlo hhi
    refine ⟨r, hr, ?_⟩
    unfold WithinRoundings
    rw [pow_succ (1 - 1 / 2 ^ 53 : ℚ) m, pow_succ (1 + 1 / 2 ^ 53 : ℚ) m]
    constructor
    · calc (1 - 1 / 2 ^ 53 : ℚ) ^ m * (1 - 1 / 2 ^ 53) * e
          = (1 - 1 / 2 ^ 53) * ((1 - 1 / 2 ^ 53 : ℚ) ^ m * e) := by ring
        _ ≤ (1 - 1 / 2 ^ 53) * x := mul_le_mul_of_nonneg_left h.1 (by norm_num)
        _ ≤ r := hr1
    · calc r ≤ (1 + 1 / 2 ^ 53) * x := hr2
        _ ≤ (1 + 1 / 2 ^ 53) * ((1 + 1 / 2 ^ 53 : ℚ) ^ m * e) :=
            mul_le_mul_of_nonneg_left h.2 (by norm_num)
        _ = (1 + 1 / 2 ^ 53 : ℚ) ^ m * (1 + 1 / 2 ^ 53) * e := by ring

/-- A number within `m` roundings of `n` hundredths shows `n` hundredths when it is written
with two decimals, as long as `m * n` is below `2 ^ 51`. -/
theorem displayedCents_of_within (m n : Nat) (a : ℚ)
    (h : WithinRoundings m a ((n : ℚ) / 100)) (hmn : m * n < 2 ^ 51) :
    displayedCents (JSNumber.fin a) = (n : ℤ) := by
  have hn0 : (0 : ℚ) ≤ (n : ℚ) := Nat.cast_nonneg n
  have hlowpow : (0 : ℚ) ≤ (1 - 1 / 2 ^ 53 : ℚ) ^ m := pow_nonneg (by norm_num) m
  unfold WithinRoundings at h
  have ha0 : 0 ≤ a := le_trans (mul_nonneg hlowpow (by positivity)) h.1
  have hfloor : Rat.floor (|a| * 100 + 1 / 2) = (n : ℤ) := by
    show ⌊|a| * 100 + 1 / 2⌋ = (n : ℤ)
    rw [abs_of_nonneg ha0, Int.floor_eq_iff]
    rcases Nat.eq_zero_or_pos n with hz | hpos
    · subst hz
      simp only [Nat.cast_zero, zero_div, mul_zero] at h
      have : a = 0 := le_antisymm h.2 h.1
      subst this
      norm_num
    · have hm : m < 2 ^ 51 := lt_of_le_of_lt (Nat.le_mul_of_pos_right m hpos) hmn
      have hmq : (m : ℚ) * (n : ℚ) ≤ 2 ^ 51 - 1 := by
        have : m * n + 1 ≤ 2 ^ 51 := hmn
        have h' : ((m * n + 1 : Nat) : ℚ) ≤ ((2 ^ 51 : Nat) : ℚ) := by exact_mod_cast this
        push_cast at h'
        linarith
      have hm1 : (m : ℚ) ≤ 2 ^ 51 := by exact_mod_cast le_of_lt hm
      have hlow := pow_one_sub_ge m
      have hup := pow_one_add_le m (by
        calc 2 * (m : ℚ) * (1 / 2 ^ 53) = 2 * ((m : ℚ) * (1 / 2 ^ 53)) := by ring
          _ ≤ 2 * (2 ^ 51 * (1 / 2 ^ 53)) :=
              mul_le_mul_of_nonneg_left
                (mul_le_mul_of_nonneg_right hm1 (by norm_num)) (by norm_num)
          _ ≤ 1 := by norm_num)
      have hA1 : (1 - (m : ℚ) * (1 / 2 ^ 53)) * ((n : ℚ) / 100) ≤ a :=
        le_trans (mul_le_mul_of_nonneg_right hlow (by positivity)) h.1
      have hA2 : a ≤ (1 + 2 * (m : ℚ) * (1 / 2 ^ 53)) * ((n : ℚ) / 100) :=
        le_trans h.2 (mul_le_mul_of_nonneg_right hup (by positivity))
      have hmn1 : (m : ℚ) * (n : ℚ) * (1 / 2 ^ 53) < 1 / 4 := by
        calc (m : ℚ) * (n : ℚ) * (1 / 2 ^ 53) ≤ (2 ^ 51 - 1) * (1 / 2 ^ 53) :=
              mul_le_mul_of_nonneg_right hmq (by norm_num)
          _ < 1 / 4 := by norm_num
      push_cast
      constructor
      · nlinarith
      · nlinarith
  show (if a < 0 then -((Rat.floor (|a| * 100 + 1 / 2)).toNat : ℤ)
    else ((Rat.floor (|a| * 100 + 1 / 2)).toNat : ℤ)) = (n : ℤ)
  rw [if_neg (not_lt.mpr ha0), hfloor]
  exact Int.toNat_of_nonneg (by positivity)

theorem withinRoundings_refl (x : ℚ) : WithinRoundings 0 x x := by
  unfold WithinRoundings
  simp

theorem hundredths_cases (n : Nat) (hn : n < 2 ^ 51) (m : Nat) (hm : n ≠ 0 → m ≤ 2 ^ 51) :
    (n : ℚ) / 100 = 0 ∨ (1 / 100 ≤ (n : ℚ) / 100 ∧ (n : ℚ) / 100 ≤ 2 ^ 51 ∧ m ≤ 2 ^ 51) := by
  rcases Nat.eq_zero_or_pos n with hz | hpos
  · left
    rw [hz]
    simp
  · right
    have h1 : (1 : ℚ) ≤ (n : ℚ) := by exact_mod_cast hpos
    have h2 : (n : ℚ) ≤ 2 ^ 51 := by exact_mod_cast le_of_lt hn
    refine ⟨?_, ?_, hm (by omega)⟩
    · linarith
    · linarith

/-- The line total of `q` units at `c` hundredths is within two roundings of `q * c`
hundredths: one for the rate, one for the product. -/
theorem lineTotal_within (q c : Nat) (hq : 1 ≤ q) (hqc : q * c < 2 ^ 51) :
    ∃ t, JSNumber.fin (q : ℚ) * JSNumber.ofDecimal ((c : ℚ) / 100) = JSNumber.fin t ∧
      WithinRoundings 2 t (((q * c : Nat) : ℚ) / 100) := by
  have hc : c < 2 ^ 51 := lt_of_le_of_lt (Nat.le_mul_of_pos_left c hq) hqc
  obtain ⟨r, hr, hnear⟩ := withinRoundings_round 0 ((c : ℚ) / 100) ((c : ℚ) / 100)
    (withinRoundings_refl _) (hundredths_cases c hc 0 (fun _ => Nat.zero_le _))
  have hmul : WithinRoundings 1 ((q : ℚ) * r) (((q * c : Nat) : ℚ) / 100) := by
    have := withinRoundings_mul 1 (q : ℚ) r ((c : ℚ) / 100) (Nat.cast_nonneg q) hnear
    have he : (q : ℚ) * ((c : ℚ) / 100) = ((q * c : Nat) : ℚ) / 100 := by
      push_cast
      ring
    rw [he] at this
    exact this
  obtain ⟨t, ht, hnear2⟩ := withinRoundings_round 1 ((q : ℚ) * r) (((q * c : Nat) : ℚ) / 100)
    hmul (hundredths_cases (q * c) hqc 1 (fun _ => by norm_num))
  refine ⟨t, ?_, hnear2⟩
  show JSNumber.fin (q : ℚ) * roundDouble ((c : ℚ) / 100) = JSNumber.fin t
  rw [hr]
  exact ht

theorem centsTotal_cons (a : Nat × Nat) (rest : List (Nat × Nat)) :
    centsTotal (a :: rest) = a.1 * a.2 + centsTotal rest := by
  simp [centsTotal]

/-- The running sum of the line totals stays within one rounding for each addition. -/
theorem foldl_within (amounts : List (Nat × Nat)) (m k : Nat) (s : ℚ)
    (hq : ∀ a ∈ amounts, 1 ≤ a.1) (hm : 2 ≤ m)
    (hs : WithinRoundings m s ((k : ℚ) / 100))
    (hbound : (m + amounts.length) * (k + centsTotal amounts) < 2 ^ 51) :
    ∃ s', ((centAmounts amounts).map (fun x => x.1 * x.2)).foldl (fun a x => a + x)
        (JSNumber.fin s) = JSNumber.fin s' ∧
      WithinRoundings (m + amounts.length) s' (((k + centsTotal amounts : Nat) : ℚ) / 100) := by
  induction amounts generalizing m k s with
  | nil =>
    refine ⟨s, rfl, ?_⟩
    simpa [centsTotal] using hs
  | cons a rest ih =>
    obtain ⟨q, c⟩ := a
    rw [centsTotal_cons, List.length_cons] at hbound
    dsimp only at hbound
    have hq1 : 1 ≤ q := hq (q, c) (List.mem_cons_self _ _)
    have hsum : k + (q * c + centsTotal rest) < 2 ^ 51 := by
      have h1 : 1 ≤ m + (rest.length + 1) := by omega
      exact lt_of_le_of_lt (Nat.le_mul_of_pos_left _ h1) hbound
    obtain ⟨t, ht, htn⟩ := lineTotal_within q c hq1 (by omega)
    have hk0 : (0 : ℚ) ≤ ((q * c : Nat) : ℚ) / 100 := by positivity
    have hadd : WithinRoundings m (s + t) (((k + q * c : Nat) : ℚ) / 100) := by
      have := withinRoundings_add m s t _ _ hs (withinRoundings_mono 2 m t _ hm hk0 htn)
      have he : (k : ℚ) / 100 + ((q * c : Nat) : ℚ) / 100 = ((k + q * c : Nat) : ℚ) / 100 := by
        push_cast
        ring
      rw [he] at this
      exact this
    have hmle : k + q * c ≠ 0 → m ≤ 2 ^ 51 := by
      intro hne
      have h1 : 1 ≤ k + (q * c + centsTotal rest) := by omega
      have h2 : m + (rest.length + 1) ≤ (m + (rest.length + 1)) * (k + (q * c + centsTotal rest)) :=
        Nat.le_mul_of_pos_right _ h1
      omega
    obtain ⟨s1, hs1, hs1n⟩ := withinRoundings_round m (s + t) _ hadd
      (hundredths_cases (k + q * c) (by omega) m hmle)
    have hb2 : (m + 1 + rest.length) * (k + q * c + centsTotal rest) < 2 ^ 51 := by
      have e1 : m + 1 + rest.length = m + (rest.length + 1) := by omega
      have e2 : k + q * c + centsTotal rest = k + (q * c + centsTotal rest) := by omega
      rw [e1, e2]
      exact hbound
    obtain ⟨s', hs', hs'n⟩ := ih (m + 1) (k + q * c) s1 
      (fun a ha => hq a (List.mem_cons_of_mem _ ha)) (by omega) hs1n hb2
    refine ⟨s', ?_, ?_⟩
    · show ((JSNumber.fin (q : ℚ) * JSNumber.ofDecimal ((c : ℚ) / 100)) ::
          (centAmounts rest).map (fun x => x.1 * x.2)).foldl (fun a x => a + x)
          (JSNumber.fin s) = JSNumber.fin s'
      rw [List.foldl_cons, ht]
      have hstep : JSNumber.fin s + JSNumber.fin t = JSNumber.fin s1 := hs1
      rw [hstep]
      exact hs'
    · rw [centsTotal_cons, List.length_cons]
      have e1 : m + 1 + rest.length = m + (rest.length + 1) := by omega
      have e2 : k + q * c + centsTotal rest = k + (q * c + centsTotal rest) := by omega
      rw [← e1, ← e2]
      exact hs'n

theorem displayedCents_lineTotals (amounts : List (Nat × Nat))
    (hq : ∀ a ∈ amounts, 1 ≤ a.1) (hbound : 2 * centsTotal amounts < 2 ^ 51) :
    (centAmounts amounts).map (fun x => displayedCents (x.1 * x.2))
      = amounts.map (fun a => ((a.1 * a.2 : Nat) : ℤ)) := by
  induction amounts with
  | nil => rfl
  | cons a rest ih =>
    obtain ⟨q, c⟩ := a
    rw [centsTotal_cons] at hbound
    dsimp only at hbound
    obtain ⟨t, ht, htn⟩ := lineTotal_within q c (hq (q, c) (List.mem_cons_self _ _)) (by omega)
    have hd := displayedCents_of_within 2 (q * c) t htn (by omega)
    show displayedCents (JSNumber.fin (q : ℚ) * JSNumber.ofDecimal ((c : ℚ) / 100)) ::
        (centAmounts rest).map (fun x => displayedCents (x.1 * x.2))
      = ((q * c : Nat) : ℤ) :: rest.map (fun a => ((a.1 * a.2 : Nat) : ℤ))
    rw [ht, hd, ih (fun a ha => hq a (List.mem_cons_of_mem _ ha)) (by omega)]

theorem sum_map_natCast_int (ns : List Nat) :
    (ns.map (fun n : Nat => (n : ℤ))).sum = ((ns.sum : Nat) : ℤ) := by
  induction ns with
  | nil => rfl
  | cons n ns ih => rw [List.map_cons, List.sum_cons, ih, List.sum_cons, Nat.cast_add]

/-! ### Displayed subtotal against displayed line totals -/

/-- C5, as stated, fails: for two valid products at 0.125 the invoice document the handler
builds shows the line totals `USD 0.13` and `USD 0.13`, which add up to 0.26, next to the
subtotal `USD 0.25`. -/
theorem displayed_subtotal_ne_sum_of_displayed_totals :
    validationResult (some eighthProducts) = [] ∧
      (buildInvoice exampleEnv 1 (sanitizeProducts eighthProducts)).products.map
          (fun li => formatCurrency li.total) = ["USD 0.13", "USD 0.13"] ∧
      formatCurrency (buildInvoice exampleEnv 1 (sanitizeProducts eighthProducts)).totalCharges
        = "USD 0.25" ∧
      ((buildInvoice exampleEnv 1 (sanitizeProducts eighthProducts)).products.map
          (fun li => displayedCents li.total)).sum = 26 ∧
      displayedCents (buildInvoice exampleEnv 1 (sanitizeProducts eighthProducts)).totalCharges
        = 25 ∧
      displayedCents (buildInvoice exampleEnv 1 (sanitizeProducts eighthProducts)).totalCharges
        ≠ ((buildInvoice exampleEnv 1 (sanitizeProducts eighthProducts)).products.map
            (fun li => displayedCents li.total)).sum := by
  refine ⟨by decide!, by decide!, by decide!, by decide!, by decide!, by decide!⟩

/-- C5, amended: for every product list that passes validation and whose rates are amounts
with two decimals (each rate is the number that the decimal text of so many hundredths
denotes), as long as the exact subtotal in hundredths times the number of products plus 2
stays below `2 ^ 51`, the invoice document the handler builds shows the exact amounts: each
line total as displayed is `qty` times the rate, the subtotal as displayed is the exact
subtotal, and so the displayed subtotal equals the sum of the displayed line totals (all in
hundredths, as `toFixed(2)` prints them). -/
theorem displayed_subtotal_eq_sum_of_cent_rates (env : Env) (userId : Nat)
    (ps : List Product) (amounts : List (Nat × Nat))
    (hvalid : validationResult (some ps) = [])
    (hrates : ps.map (fun p => (p.qty, p.rate)) = centAmounts amounts)
    (hbound : (amounts.length + 2) * centsTotal amounts < 2 ^ 51) :
    (buildInvoice env userId (sanitizeProducts ps)).products.map
        (fun li => displayedCents li.total) = amounts.map (fun a => ((a.1 * a.2 : Nat) : ℤ)) ∧
      displayedCents (buildInvoice env userId (sanitizeProducts ps)).totalCharges
        = (centsTotal amounts : ℤ) ∧
      displayedCents (buildInvoice env userId (sanitizeProducts ps)).totalCharges
        = ((buildInvoice env userId (sanitizeProducts ps)).products.map
            (fun li => displayedCents li.total)).sum := by
  have hq : ∀ a ∈ amounts, 1 ≤ a.1 := by
    intro a ha
    have hmem : (JSNumber.fin (a.1 : ℚ), JSNumber.ofDecimal ((a.2 : ℚ) / 100))
        ∈ ps.map (fun p => (p.qty, p.rate)) := by
      rw [hrates]
      exact List.mem_map_of_mem _ ha
    obtain ⟨p, hp, hpa⟩ := List.mem_map.mp hmem
    have hqty : p.qty = JSNumber.fin (a.1 : ℚ) := congrArg Prod.fst hpa
    have hint := (((validationResult_eq_nil ps).mp hvalid).2 p hp).2.1
    rw [hqty] at hint
    obtain ⟨n, hn, _, hfin⟩ := (isIntMin1_iff _).mp hint
    have : (a.1 : ℚ) = (n : ℚ) := JSNumber.fin.inj hfin
    have : a.1 = n := by exact_mod_cast this
    omega
  have hlines : ps.map lineTotal = (centAmounts amounts).map (fun x => x.1 * x.2) := by
    rw [← hrates, List.map_map]
    rfl
  have htotals : (buildInvoice env userId (sanitizeProducts ps)).products.map
      (fun li => displayedCents li.total) = (ps.map lineTotal).map displayedCents := by
    rw [buildInvoice_products]
    simp [sanitizeProducts, lineTotal, Function.comp_def]
  have hb1 : (2 + amounts.length) * (0 + centsTotal amounts) < 2 ^ 51 := by
    rw [Nat.zero_add, Nat.add_comm 2]
    exact hbound
  have hb2 : 2 * centsTotal amounts < 2 ^ 51 :=
    lt_of_le_of_lt (Nat.mul_le_mul_right _ (by omega)) hbound
  obtain ⟨s', hs', hs'n⟩ := foldl_within amounts 2 0 0 hq (Nat.le_refl 2)
    (by simpa using withinRoundings_zero 2) hb1
  rw [Nat.zero_add] at hs'n
  have hcharges : (buildInvoice env userId (sanitizeProducts ps)).totalCharges
      = JSNumber.fin s' := by
    rw [buildInvoice_totalCharges, hlines]
    exact hs'
  have hsub : displayedCents (buildInvoice env userId (sanitizeProducts ps)).totalCharges
      = (centsTotal amounts : ℤ) := by
    rw [hcharges]
    exact displayedCents_of_within _ _ s' hs'n (by rw [Nat.add_comm]; exact hbound)
  have hitems : (buildInvoice env userId (sanitizeProducts ps)).products.map
      (fun li => displayedCents li.total) = amounts.map (fun a => ((a.1 * a.2 : Nat) : ℤ)) := by
    rw [htotals, hlines, List.map_map]
    exact displayedCents_lineTotals amounts hq hb2
  refine ⟨hitems, hsub, ?_⟩
  rw [hsub, hitems]
  have : amounts.map (fun a => ((a.1 * a.2 : Nat) : ℤ))
      = (amounts.map (fun a => a.1 * a.2)).map (fun n : Nat => (n : ℤ)) := by
    rw [List.map_map]
    rfl
  rw [this, sum_map_natCast_int]
  rfl

/-- C5, amended, at a concrete input: three pens at 0.10 and seven clips at 0.19 are shown
with the line totals 0.30 and 1.33 and the subtotal 1.63, although the computed numbers
are not exact (the first line total is 0.30000000000000004). -/
theorem displayed_subtotal_eq_sum_example :
    validationResult (some centProducts) = [] ∧
      (buildInvoice exampleEnv 1 (sanitizeProducts centProducts)).products.map
          (fun li => formatCurrency li.total) = ["USD 0.30", "USD 1.33"] ∧
      formatCurrency (buildInvoice exampleEnv 1 (sanitizeProducts centProducts)).totalCharges
        = "USD 1.63" ∧
      displayedCents (buildInvoice exampleEnv 1 (sanitizeProducts centProducts)).totalCharges
        = ((buildInvoice exampleEnv 1 (sanitizeProducts centProducts)).products.map
            (fun li => displayedCents li.total)).sum :=
  ⟨by decide!, by decide!, by decide!,
    (displayed_subtotal_eq_sum_of_cent_rates exampleEnv 1 centProducts [(3, 10), (7, 19)]
      (by decide!) rfl (by decide)).2.2⟩

/-! ## The Render Invoice PDF handler -/

/-- C15: when the lookup of the invoice by id and caller finds nothing, the PDF handler
answers 404 `Invoice not found` and does nothing else: `generateInvoiceHTML` is not called
and no step on the rendering engine happens, so no instance is acquired. -/
theorem generatePdf_not_found (rt : Runtime) (users : List User) (st : Store)
    (req : PdfRequest) (hquery : rt.queryFails = false)
    (hnone : findInvoice users st req = none) :
    generatePdf rt users st req = [Event.status 404, Event.json false "Invoice not found"] ∧
      Event.generateHTML ∉ generatePdf rt users st req ∧
      Event.launch ∉ generatePdf rt users st req ∧
      engineOpen (generatePdf rt users st req) = false := by
  have hrun : generatePdf rt users st req
      = [Event.status 404, Event.json false "Invoice not found"] := by
    unfold generatePdf
    rw [hquery, hnone]
    rfl
  rw [hrun]
  refine ⟨rfl, ?_, ?_, rfl⟩
  · decide
  · decide

/-- C15 at a concrete input: a request for the id 99, which the example store does not
hold, is answered 404 without any other step. -/
theorem generatePdf_not_found_example :
    findInvoice [exampleUser] exampleStore ⟨99, 1⟩ = none ∧
      generatePdf healthyRuntime [exampleUser] exampleStore ⟨99, 1⟩
        = [Event.status 404, Event.json false "Invoice not found"] :=
  ⟨by decide!, (generatePdf_not_found healthyRuntime [exampleUser] exampleStore ⟨99, 1⟩ rfl
    (by decide!)).1⟩

/-- C16, the code at the failing input: the example invoice is found but its owner is gone
from the users collection, so `populate` leaves `null`; `generateInvoiceHTML` is called and
throws, and the handler answers 500 `Error generating PDF`, not a not-found error. No step
on the rendering engine happens. -/
theorem generatePdf_owner_missing :
    (findInvoice [] exampleStore ⟨1, 1⟩).map (fun inv => inv.user) = some none ∧
      generatePdf healthyRuntime [] exampleStore ⟨1, 1⟩
        = [Event.generateHTML, Event.status 500, Event.json false "Error generating PDF"] ∧
      Event.launch ∉ generatePdf healthyRuntime [] exampleStore ⟨1, 1⟩ := by
  refine ⟨by decide!, by decide!, ?_⟩
  have h : generatePdf healthyRuntime [] exampleStore ⟨1, 1⟩
      = [Event.generateHTML, Event.status 500, Event.json false "Error generating PDF"] := by
    decide!
  rw [h]
  decide

/-- C17, the code at the failing input: the engine is launched, the page is created and
loaded, and `page.pdf` throws; the handler answers 500 and returns without calling
`browser.close()`, so the engine instance is still open. -/
theorem generatePdf_leaves_engine_open :
    generatePdf pdfFailsRuntime [exampleUser] exampleStore ⟨1, 1⟩
        = [Event.generateHTML, Event.launch, Event.newPage,
            Event.setContent (invoiceHTML 0 (savedInvoice exampleEnv [] 1 exampleProducts)
              exampleUser),
            Event.status 500, Event.json false "Error generating PDF"] ∧
      Event.close ∉ generatePdf pdfFailsRuntime [exampleUser] exampleStore ⟨1, 1⟩ ∧
      engineOpen (generatePdf pdfFailsRuntime [exampleUser] exampleStore ⟨1, 1⟩) = true := by
  have h : generatePdf pdfFailsRuntime [exampleUser] exampleStore ⟨1, 1⟩
      = [Event.generateHTML, Event.launch, Event.newPage,
          Event.setContent (invoiceHTML 0 (savedInvoice exampleEnv [] 1 exampleProducts)
            exampleUser),
          Event.status 500, Event.json false "Error generating PDF"] := by
    decide!
  rw [h]
  refine ⟨rfl, ?_, ?_⟩
  · simp
  · simp [engineOpen]

theorem renderAndSend_cases (rt : Runtime) (html number : String) :
    (renderAndSend rt html number = [Event.launch, Event.newPage, Event.setContent html,
        Event.pdf, Event.close,
        Event.setHeader "Content-Type" "application/pdf",
        Event.setHeader "Content-Disposition" ("attachment; filename=invoice-" ++ number ++ ".pdf"),
        Event.send ((rt.pdf html).getD [])] ∧
      rt.launch = true ∧ rt.newPage = true ∧ rt.setContent html = true ∧
      (rt.pdf html).isSome = true ∧ rt.close = true) ∨
    (responseEvents (renderAndSend rt html number) = pdfErrorResponse ∧
      (∀ bytes, Event.send bytes ∉ renderAndSend rt html number) ∧
      (∀ name value, Event.setHeader name value ∉ renderAndSend rt html number) ∧
      (rt.launch = false ∨ rt.newPage = false ∨ rt.setContent html = false ∨
        rt.pdf html = none ∨ rt.close = false)) := by
  unfold renderAndSend
  cases h1 : rt.launch
  · right
    simp [pdfErrorResponse, responseEvents, isResponseEvent]
  cases h2 : rt.newPage
  · right
    simp [pdfErrorResponse, responseEvents, isResponseEvent]
  cases h3 : rt.setContent html
  · right
    simp [pdfErrorResponse, responseEvents, isResponseEvent]
  cases h4 : rt.pdf html with
  | none =>
    right
    simp [pdfErrorResponse, responseEvents, isResponseEvent]
  | some bytes =>
    cases h5 : rt.close
    · right
      simp [pdfErrorResponse, responseEvents, isResponseEvent]
    · left
      simp


theorem generatePdf_lookup_none (rt : Runtime) (users : List User) (st : Store)
    (req : PdfRequest) (hquery : rt.queryFails = false)
    (hnone : findInvoice users st req = none) :
    generatePdf rt users st req = [Event.status 404, Event.json false "Invoice not found"] := by
  unfold generatePdf
  rw [hquery, hnone]
  rfl

theorem generatePdf_found (rt : Runtime) (users : List User) (st : Store) (req : PdfRequest)
    (invoice : PopulatedInvoice) (owner : User) (hquery : rt.queryFails = false)
    (hfound : findInvoice users st req = some invoice) (howner : invoice.user = some owner) :
    generatePdf rt users st req = Event.generateHTML ::
      renderAndSend rt (invoiceHTML rt.utcOffsetMinutes invoice.doc owner)
        (templateString invoice.doc.invoiceNumber) := by
  unfold generatePdf generateInvoiceHTML
  rw [hquery, hfound]
  simp only [Bool.false_eq_true, if_false, howner]

theorem generatePdf_owner_null (rt : Runtime) (users : List User) (st : Store)
    (req : PdfRequest) (invoice : PopulatedInvoice) (hquery : rt.queryFails = false)
    (hfound : findInvoice users st req = some invoice) (howner : invoice.user = none) :
    generatePdf rt users st req = Event.generateHTML :: pdfErrorResponse := by
  unfold generatePdf generateInvoiceHTML
  rw [hquery, hfound]
  simp only [Bool.false_eq_true, if_false, howner]

/-- C18: every run of the PDF handler writes exactly one response. It is the 404 error, or
the 500 error `Error generating PDF`, in both cases with no header set and no byte sent; or
it is the two PDF headers followed by the complete bytes that `page.pdf` returned, and then
every step of the rendering succeeded. When the page was loaded and `page.pdf` fails, the
response is the 500 error. -/
theorem generatePdf_all_or_nothing (rt : Runtime) (users : List User) (st : Store)
    (req : PdfRequest) :
    (((responseEvents (generatePdf rt users st req)
          = [Event.status 404, Event.json false "Invoice not found"] ∨
        responseEvents (generatePdf rt users st req)
          = [Event.status 500, Event.json false "Error generating PDF"]) ∧
        (∀ bytes, Event.send bytes ∉ generatePdf rt users st req) ∧
        (∀ name value, Event.setHeader name value ∉ generatePdf rt users st req)) ∨
      (∃ html bytes number, rt.pdf html = some bytes ∧ rt.launch = true ∧ rt.newPage = true ∧
        rt.setContent html = true ∧ rt.close = true ∧
        generatePdf rt users st req = [Event.generateHTML, Event.launch, Event.newPage,
          Event.setContent html, Event.pdf, Event.close,
          Event.setHeader "Content-Type" "application/pdf",
          Event.setHeader "Content-Disposition"
            ("attachment; filename=invoice-" ++ number ++ ".pdf"),
          Event.send bytes])) ∧
    (∀ html, Event.setContent html ∈ generatePdf rt users st req → rt.pdf html = none →
      responseEvents (generatePdf rt users st req)
          = [Event.status 500, Event.json false "Error generating PDF"] ∧
        (∀ bytes, Event.send bytes ∉ generatePdf rt users st req) ∧
        (∀ name value, Event.setHeader name value ∉ generatePdf rt users st req)) := by
  cases hquery : rt.queryFails
  · cases hfound : findInvoice users st req with
    | none =>
      have hrun := generatePdf_lookup_none rt users st req hquery hfound
      rw [hrun]
      refine ⟨Or.inl ⟨Or.inl rfl, ?_, ?_⟩, ?_⟩
      · intro bytes
        simp
      · intro name value
        simp
      · intro html hmem
        simp at hmem
    | some invoice =>
      cases howner : invoice.user with
      | none =>
        rw [generatePdf_owner_null rt users st req invoice hquery hfound howner]
        refine ⟨Or.inl ⟨Or.inr rfl, ?_, ?_⟩, ?_⟩
        · intro bytes
          simp [pdfErrorResponse]
        · intro name value
          simp [pdfErrorResponse]
        · intro html hmem
          simp [pdfErrorResponse] at hmem
      | some owner =>
        rw [generatePdf_found rt users st req invoice owner hquery hfound howner]
        rcases renderAndSend_cases rt (invoiceHTML rt.utcOffsetMinutes invoice.doc owner)
          (templateString invoice.doc.invoiceNumber) with hok | herr
        · obtain ⟨hrun, h1, h2, h3, h4, h5⟩ := hok
          obtain ⟨bytes, hbytes⟩ := Option.isSome_iff_exists.mp h4
          rw [hrun, hbytes]
          refine ⟨Or.inr ⟨_, bytes, _, hbytes, h1, h2, h3, h5, rfl⟩, ?_⟩
          intro html hmem hnone
          simp at hmem
          rw [hmem, hbytes] at hnone
          exact absurd hnone (by simp)
        · obtain ⟨hresp, hsend, hheader, _⟩ := herr
          have hresp2 : responseEvents (Event.generateHTML ::
              renderAndSend rt (invoiceHTML rt.utcOffsetMinutes invoice.doc owner)
                (templateString invoice.doc.invoiceNumber))
              = [Event.status 500, Event.json false "Error generating PDF"] := hresp
          have hsend2 : ∀ bytes, Event.send bytes ∉ Event.generateHTML ::
              renderAndSend rt (invoiceHTML rt.utcOffsetMinutes invoice.doc owner)
                (templateString invoice.doc.invoiceNumber) := by
            intro bytes hmem
            rcases List.mem_cons.mp hmem with h | h
            · exact absurd h (by simp)
            · exact hsend bytes h
          have hheader2 : ∀ name value, Event.setHeader name value ∉ Event.generateHTML ::
              renderAndSend rt (invoiceHTML rt.utcOffsetMinutes invoice.doc owner)
                (templateString invoice.doc.invoiceNumber) := by
            intro name value hmem
            rcases List.mem_cons.mp hmem with h | h
            · exact absurd h (by simp)
            · exact hheader name value h
          exact ⟨Or.inl ⟨Or.inr hresp2, hsend2, hheader2⟩, fun _ _ _ => ⟨hresp2, hsend2, hheader2⟩⟩
  · have hrun : generatePdf rt users st req = pdfErrorResponse := by
      unfold generatePdf
      rw [hquery]
      rfl
    rw [hrun]
    refine ⟨Or.inl ⟨Or.inr rfl, ?_, ?_⟩, ?_⟩
    · intro bytes
      simp [pdfErrorResponse]
    · intro name value
      simp [pdfErrorResponse]
    · intro html hmem
      simp [pdfErrorResponse] at hmem

/-- C18 at a concrete input: when `page.pdf` throws for the example invoice, the response is
the 500 error and nothing else was written. -/
theorem generatePdf_all_or_nothing_example :
    responseEvents (generatePdf pdfFailsRuntime [exampleUser] exampleStore ⟨1, 1⟩)
        = [Event.status 500, Event.json false "Error generating PDF"] ∧
      (∀ bytes, Event.send bytes
        ∉ generatePdf pdfFailsRuntime [exampleUser] exampleStore ⟨1, 1⟩) :=
  let h := (generatePdf_all_or_nothing pdfFailsRuntime [exampleUser] exampleStore ⟨1, 1⟩).2
    (invoiceHTML 0 (savedInvoice exampleEnv [] 1 exampleProducts) exampleUser)
    (by decide!) rfl
  ⟨h.1, h.2.1⟩

/-- C19: whenever the PDF handler sends bytes, the invoice was found and the response
carries `Content-Type: application/pdf` and the header `Content-Disposition` with exactly
`attachment; filename=invoice-`, the invoice number of the invoice, and `.pdf`. -/
theorem generatePdf_headers (rt : Runtime) (users : List User) (st : Store)
    (req : PdfRequest) (bytes : List Nat)
    (hsent : Event.send bytes ∈ generatePdf rt users st req) :
    ∃ invoice, findInvoice users st req = some invoice ∧
      responseEvents (generatePdf rt users st req) =
        [Event.setHeader "Content-Type" "application/pdf",
         Event.setHeader "Content-Disposition"
          ("attachment; filename=invoice-" ++ templateString invoice.doc.invoiceNumber
            ++ ".pdf"),
         Event.send bytes] := by
  cases hquery : rt.queryFails
  · cases hfound : findInvoice users st req with
    | none =>
      rw [generatePdf_lookup_none rt users st req hquery hfound] at hsent
      simp at hsent
    | some invoice =>
      cases howner : invoice.user with
      | none =>
        rw [generatePdf_owner_null rt users st req invoice hquery hfound howner] at hsent
        simp [pdfErrorResponse] at hsent
      | some owner =>
        rw [generatePdf_found rt users st req invoice owner hquery hfound howner] at hsent ⊢
        refine ⟨invoice, rfl, ?_⟩
        rcases renderAndSend_cases rt (invoiceHTML rt.utcOffsetMinutes invoice.doc owner)
          (templateString invoice.doc.invoiceNumber) with hok | herr
        · rw [hok.1] at hsent ⊢
          simp at hsent
          rw [← hsent]
          rfl
        · rcases List.mem_cons.mp hsent with h | h
          · exact absurd h (by simp)
          · exact absurd h (herr.2.1 bytes)
  · have hrun : generatePdf rt users st req = pdfErrorResponse := by
      unfold generatePdf
      rw [hquery]
      rfl
    rw [hrun] at hsent
    simp [pdfErrorResponse] at hsent

/-- C19 at a concrete input: the example invoice `INV-000001` is sent with the file name
`invoice-INV-000001.pdf`. -/
theorem generatePdf_headers_example :
    responseEvents (generatePdf healthyRuntime [exampleUser] exampleStore ⟨1, 1⟩) =
      [Event.setHeader "Content-Type" "application/pdf",
       Event.setHeader "Content-Disposition" "attachment; filename=invoice-INV-000001.pdf",
       Event.send [37, 80, 68, 70]] := by
  obtain ⟨invoice, hfound, hresp⟩ :=
    generatePdf_headers healthyRuntime [exampleUser] exampleStore ⟨1, 1⟩ [37, 80, 68, 70]
      (by decide!)
  have hinv : findInvoice [exampleUser] exampleStore ⟨1, 1⟩
      = some ⟨savedInvoice exampleEnv [] 1 exampleProducts, some exampleUser⟩ := by decide!
  rw [hinv, Option.some.injEq] at hfound
  rw [hresp, ← hfound]
  decide!

/-! ## The List Invoices handler -/

theorem newestFirst_total (a b : Invoice) : newestFirst a b ∨ newestFirst b a :=
  Nat.le_total b.createdAt a.createdAt

theorem newestFirst_trans (a b c : Invoice) (hab : newestFirst a b) (hbc : newestFirst b c) :
    newestFirst a c :=
  Nat.le_trans hbc hab

/-- C20: for every store and caller, List Invoices answers 200 with exactly the invoices
of the store whose user is the caller, each as often as it is stored, ordered by creation
time descending, and leaves the store unchanged. -/
theorem getInvoices_owned_newest_first (st : Store) (userId : Nat) :
    (getInvoices st userId).1.status = 200 ∧ (getInvoices st userId).1.success = true ∧
      (getInvoices st userId).1.invoices.Perm (st.filter (fun inv => inv.user = userId)) ∧
      (∀ inv, inv ∈ (getInvoices st userId).1.invoices ↔ inv ∈ st ∧ inv.user = userId) ∧
      List.Pairwise (fun a b => b.createdAt ≤ a.createdAt) (getInvoices st userId).1.invoices ∧
      (getInvoices st userId).2 = st := by
  haveI : IsTotal Invoice newestFirst := ⟨newestFirst_total⟩
  haveI : IsTrans Invoice newestFirst := ⟨newestFirst_trans⟩
  have hperm : ((st.filter (fun inv => inv.user = userId)).insertionSort newestFirst).Perm
      (st.filter (fun inv => inv.user = userId)) := List.perm_insertionSort _ _
  refine ⟨rfl, rfl, hperm, ?_, ?_, rfl⟩
  · intro inv
    show inv ∈ (st.filter (fun inv => inv.user = userId)).insertionSort newestFirst ↔ _
    rw [hperm.mem_iff, List.mem_filter]
    simp
  · exact List.sorted_insertionSort newestFirst _

/-- C20 at a concrete input: of three stored invoices the caller 1 owns the first and the
third; they are returned newest first. -/
theorem getInvoices_example :
    (getInvoices sharedStore 1).1.invoices.map (fun inv => (inv.id, inv.createdAt))
        = [(3, 30), (1, 10)] ∧
      List.Pairwise (fun a b => b.createdAt ≤ a.createdAt) (getInvoices sharedStore 1).1.invoices ∧
      (getInvoices sharedStore 1).2 = sharedStore :=
  ⟨by decide!, (getInvoices_owned_newest_first sharedStore 1).2.2.2.2.1,
    (getInvoices_owned_newest_first sharedStore 1).2.2.2.2.2⟩

/-! ## The invoice renderer -/

theorem joinStrings_append (xs ys : List String) :
    joinStrings (xs ++ ys) = joinStrings xs ++ joinStrings ys := by
  induction xs with
  | nil => simp [joinStrings]
  | cons x xs ih => simp [joinStrings, ih, String.append_assoc]

theorem invoiceHTML_eq (utcOffsetMinutes : Int) (invoice : Invoice) (owner : User) :
    invoiceHTML utcOffsetMinutes invoice owner =
      htmlBeforeRows utcOffsetMinutes invoice owner ++
        joinStrings (invoice.products.map productRow) ++
        htmlTotals invoice.totalCharges invoice.gst invoice.totalAmount := by
  unfold invoiceHTML htmlBeforeRows htmlTotals
  simp only [String.append_assoc]

/-- C11: in the HTML of every invoice the table body is the rows of `invoice.products`,
one row for each product, in the stored order and nothing between them: the `i`-th row
stands right after the rows of the first `i` products and is the row built from the `i`-th
product, which shows its name, qty, rate and total. -/
theorem generateInvoiceHTML_rows_in_order (utcOffsetMinutes : Int)
    (invoice : PopulatedInvoice) (owner : User) (howner : invoice.user = some owner) :
    generateInvoiceHTML utcOffsetMinutes invoice = Except.ok
        (htmlBeforeRows utcOffsetMinutes invoice.doc owner ++
          joinStrings (invoice.doc.products.map productRow) ++
          htmlTotals invoice.doc.totalCharges invoice.doc.gst invoice.doc.totalAmount) ∧
      (invoice.doc.products.map productRow).length = invoice.doc.products.length ∧
      (∀ i (h : i < invoice.doc.products.length),
        joinStrings (invoice.doc.products.map productRow) =
          joinStrings ((invoice.doc.products.take i).map productRow) ++
            productRow (invoice.doc.products.get ⟨i, h⟩) ++
            joinStrings ((invoice.doc.products.drop (i + 1)).map productRow)) ∧
      (∀ product : LineItem, productRow product =
        rowOpen ++ product.name ++ cellSep ++ numberToString product.qty ++ cellSep ++
          formatCurrency product.rate ++ cellSep ++ formatCurrency product.total ++ rowClose) := by
  refine ⟨?_, List.length_map _ _, ?_, fun _ => rfl⟩
  · unfold generateInvoiceHTML
    rw [howner]
    simp only
    rw [invoiceHTML_eq]
  · intro i h
    have hsplit : invoice.doc.products = invoice.doc.products.take i ++
        invoice.doc.products.get ⟨i, h⟩ :: invoice.doc.products.drop (i + 1) := by
      rw [List.get_eq_getElem, ← List.drop_eq_getElem_cons h, List.take_append_drop]
    conv_lhs => rw [hsplit]
    rw [List.map_append, List.map_cons, joinStrings_append]
    simp only [joinStrings, String.append_assoc]

/-- C11 at a concrete input: the table body of the example invoice is the Widget row
followed by the Gadget row. -/
theorem generateInvoiceHTML_rows_example :
    generateInvoiceHTML 0 ⟨savedInvoice exampleEnv [] 1 exampleProducts, some exampleUser⟩
      = Except.ok
        (htmlBeforeRows 0 (savedInvoice exampleEnv [] 1 exampleProducts) exampleUser ++
          (productRow ⟨"Widget", JSNumber.fin 2, JSNumber.fin 10, JSNumber.fin 20⟩ ++
            productRow ⟨"Gadget", JSNumber.fin 1, JSNumber.fin 5, JSNumber.fin 5⟩) ++
          htmlTotals (JSNumber.fin 25) (JSNumber.fin (9 / 2)) (JSNumber.fin (59 / 2))) := by
  rw [(generateInvoiceHTML_rows_in_order 0
    ⟨savedInvoice exampleEnv [] 1 exampleProducts, some exampleUser⟩ exampleUser rfl).1]
  exact congrArg Except.ok (by decide!)

/-- C14: the HTML depends on the invoice only through `invoiceNumber`, `date`, the name and
email of the owner, the products (name, qty, rate, total) and the stored `totalCharges`,
`gst` and `totalAmount`: two populated invoices that agree on these yield the same result.
The totals block shows the three stored amounts, whatever the line totals are. -/
theorem generateInvoiceHTML_depends_only_on (utcOffsetMinutes : Int)
    (a b : PopulatedInvoice)
    (hnumber : a.doc.invoiceNumber = b.doc.invoiceNumber)
    (hdate : a.doc.date = b.doc.date)
    (howner : a.user.map (fun u => (u.name, u.email)) = b.user.map (fun u => (u.name, u.email)))
    (hproducts : a.doc.products.map (fun p => (p.name, p.qty, p.rate, p.total))
      = b.doc.products.map (fun p => (p.name, p.qty, p.rate, p.total)))
    (hcharges : a.doc.totalCharges = b.doc.totalCharges)
    (hgst : a.doc.gst = b.doc.gst)
    (hamount : a.doc.totalAmount = b.doc.totalAmount) :
    generateInvoiceHTML utcOffsetMinutes a = generateInvoiceHTML utcOffsetMinutes b ∧
      (∀ owner, a.user = some owner →
        generateInvoiceHTML utcOffsetMinutes a = Except.ok
          (htmlBeforeRows utcOffsetMinutes a.doc owner ++
            joinStrings (a.doc.products.map productRow) ++
            htmlTotals a.doc.totalCharges a.doc.gst a.doc.totalAmount)) := by
  have hprod : a.doc.products = b.doc.products := by
    have hinj : Function.Injective (fun p : LineItem => (p.name, p.qty, p.rate, p.total)) := by
      intro p q hpq
      cases p
      cases q
      simp only [Prod.mk.injEq] at hpq
      obtain ⟨h1, h2, h3, h4⟩ := hpq
      subst h1 h2 h3 h4
      rfl
    exact List.map_injective_iff.mpr hinj hproducts
  constructor
  · unfold generateInvoiceHTML
    cases ha : a.user with
    | none =>
      rw [ha] at howner
      cases hb : b.user with
      | none => rfl
      | some ub =>
        rw [hb] at howner
        simp at howner
    | some ua =>
      rw [ha] at howner
      cases hb : b.user with
      | none =>
        rw [hb] at howner
        simp at howner
      | some ub =>
        rw [hb] at howner
        simp only [Option.map_some', Option.some.injEq, Prod.mk.injEq] at howner
        simp only [invoiceHTML, hnumber, hdate, hprod, hcharges, hgst, hamount, howner.1,
          howner.2]
  · intro owner hown
    unfold generateInvoiceHTML
    rw [hown]
    simp only
    rw [invoiceHTML_eq]

/-- C14 at concrete inputs: the example invoice and a copy with other ids, status and
timestamps render to the same HTML; and an invoice whose stored `totalCharges` is 99 shows
that amount, not the sum of its line totals. -/
theorem generateInvoiceHTML_depends_only_on_example :
    generateInvoiceHTML 0 ⟨savedInvoice exampleEnv [] 1 exampleProducts, some exampleUser⟩
        = generateInvoiceHTML 0 relabelledInvoice ∧
      generateInvoiceHTML 0 restatedInvoice = Except.ok
        (htmlBeforeRows 0 restatedInvoice.doc exampleUser ++
          joinStrings (restatedInvoice.doc.products.map productRow) ++
          htmlTotals (JSNumber.fin 99) restatedInvoice.doc.gst restatedInvoice.doc.totalAmount) ∧
      formatCurrency restatedInvoice.doc.totalCharges = "USD 99.00" :=
  ⟨(generateInvoiceHTML_depends_only_on 0
      ⟨savedInvoice exampleEnv [] 1 exampleProducts, some exampleUser⟩ relabelledInvoice
      rfl rfl rfl rfl rfl rfl rfl).1,
    (generateInvoiceHTML_depends_only_on 0 restatedInvoice restatedInvoice
      rfl rfl rfl rfl rfl rfl rfl).2 exampleUser rfl,
    by decide!⟩

/-! ### Currency formatting -/

theorem padStart_data (s : String) (n : Nat) (c : Char) :
    (padStart s n c).data = List.replicate (n - s.data.length) c ++ s.data := rfl

theorem padded_digits_isDigit (n k : Nat) :
    ∀ c ∈ List.replicate (k - (natDigits n).length) '0' ++ natDigits n, c.isDigit = true := by
  intro c hc
  rw [List.mem_append] at hc
  rcases hc with hc | hc
  · rw [(List.mem_replicate.mp hc).2]
    rfl
  · exact natDigits_isDigit n c hc

theorem padded_digits_length (n k : Nat) :
    k ≤ (List.replicate (k - (natDigits n).length) '0' ++ natDigits n).length := by
  rw [List.length_append, List.length_replicate]
  omega

theorem toFixedUnits_close (q : ℚ) (h0 : 0 ≤ q) :
    |((toFixedUnits q : ℕ) : ℚ) / 100 - q| ≤ 1 / 200 := by
  have hfloor : Rat.floor (q * 100 + 1 / 2) = ⌊q * 100 + 1 / 2⌋ := rfl
  have hnonneg : 0 ≤ ⌊q * 100 + 1 / 2⌋ := Int.floor_nonneg.mpr (by positivity)
  have hcast : ((toFixedUnits q : ℕ) : ℚ) = ((⌊q * 100 + 1 / 2⌋ : ℤ) : ℚ) := by
    unfold toFixedUnits
    rw [hfloor]
    have : ((⌊q * 100 + 1 / 2⌋.toNat : ℤ)) = ⌊q * 100 + 1 / 2⌋ := Int.toNat_of_nonneg hnonneg
    exact_mod_cast this
  have h1 : ((⌊q * 100 + 1 / 2⌋ : ℤ) : ℚ) ≤ q * 100 + 1 / 2 := Int.floor_le _
  have h2 : q * 100 + 1 / 2 < ((⌊q * 100 + 1 / 2⌋ : ℤ) : ℚ) + 1 := Int.lt_floor_add_one _
  rw [hcast, abs_le]
  constructor <;> linarith

/-- The two-decimal rendering of a non-negative amount below `10 ^ 21`: the digits of the
amount in hundredths, padded to three digits, with the point before the last two. -/
theorem toFixed2_data (q : ℚ) (h0 : 0 ≤ q) (h21 : q < ((10 ^ 21 : Nat) : ℚ)) :
    (toFixed2 (JSNumber.fin q)).data =
      (List.replicate (3 - (natDigits (toFixedUnits q)).length) '0'
          ++ natDigits (toFixedUnits q)).take
        ((List.replicate (3 - (natDigits (toFixedUnits q)).length) '0'
          ++ natDigits (toFixedUnits q)).length - 2) ++
      '.' :: (List.replicate (3 - (natDigits (toFixedUnits q)).length) '0'
          ++ natDigits (toFixedUnits q)).drop
        ((List.replicate (3 - (natDigits (toFixedUnits q)).length) '0'
          ++ natDigits (toFixedUnits q)).length - 2) := by
  have habs : |q| = q := abs_of_nonneg h0
  unfold toFixed2
  simp only [habs, if_neg (not_lt.mpr h0), if_neg (not_le.mpr h21), String.data_append]
  have hm : (padStart (natToString (toFixedUnits q)) 3 '0').data =
      List.replicate (3 - (natDigits (toFixedUnits q)).length) '0'
        ++ natDigits (toFixedUnits q) := rfl
  have hl : (padStart (natToString (toFixedUnits q)) 3 '0').length =
      (List.replicate (3 - (natDigits (toFixedUnits q)).length) '0'
        ++ natDigits (toFixedUnits q)).length := rfl
  rw [hm, hl, List.nil_append, List.append_assoc, List.singleton_append]

/-- C12, as stated, fails: a product with qty 1 and rate `1e21` passes validation, and
`formatCurrency` writes its rate as `USD 1e+21`, without a decimal point. -/
theorem formatCurrency_exponent_form :
    validationResult (some largeRateProducts) = [] ∧
      largeRateProducts.map (fun p => formatCurrency p.rate) = ["USD 1e+21"] ∧
      '.' ∉ (formatCurrency (JSNumber.ofNat (10 ^ 21))).data := by
  refine ⟨by decide!, by decide!, ?_⟩
  have h : formatCurrency (JSNumber.ofNat (10 ^ 21)) = "USD 1e+21" := by decide!
  rw [h]
  decide

/-- C12, amended: for every non-negative amount below `10 ^ 21`, `formatCurrency` returns
`USD ` followed by at least one digit, a point and exactly two digits; the digits are the
amount in hundredths, rounded to the nearest (so the text is within 0.005 of the amount).
The template writes every rate and line total of a row, and the subtotal, tax and grand
total of the totals block, through `formatCurrency`. -/
theorem formatCurrency_two_decimals (q : ℚ) (h0 : 0 ≤ q) (h21 : q < ((10 ^ 21 : Nat) : ℚ)) :
    (∃ whole frac : List Char,
      (formatCurrency (JSNumber.fin q)).data = ['U', 'S', 'D', ' '] ++ whole ++ '.' :: frac ∧
      1 ≤ whole.length ∧ frac.length = 2 ∧
      (∀ c ∈ whole ++ frac, c.isDigit = true) ∧
      digitsValue (whole ++ frac) = toFixedUnits q ∧
      |((toFixedUnits q : ℕ) : ℚ) / 100 - q| ≤ 1 / 200) ∧
    (∀ product : LineItem, productRow product =
      rowOpen ++ product.name ++ cellSep ++ numberToString product.qty ++ cellSep ++
        formatCurrency product.rate ++ cellSep ++ formatCurrency product.total ++ rowClose) ∧
    (∀ totalCharges gst totalAmount : JSNumber, htmlTotals totalCharges gst totalAmount =
      tplTotals ++ formatCurrency totalCharges ++ tplGst ++ formatCurrency gst ++
        tplTotalAmount ++ formatCurrency totalAmount ++ tplFooter) := by
  refine ⟨?_, fun _ => rfl, fun _ _ _ => rfl⟩
  have hlen := padded_digits_length (toFixedUnits q) 3
  have hdig := padded_digits_isDigit (toFixedUnits q) 3
  generalize hds : List.replicate (3 - (natDigits (toFixedUnits q)).length) '0'
      ++ natDigits (toFixedUnits q) = ds at hlen hdig
  have hval : digitsValue ds = toFixedUnits q := by
    rw [← hds, digitsValue_replicate_zero_append, natDigits_value]
  refine ⟨ds.take (ds.length - 2), ds.drop (ds.length - 2), ?_, ?_, ?_, ?_, ?_,
    toFixedUnits_close q h0⟩
  · show ("USD " ++ toFixed2 (JSNumber.fin q)).data = _
    rw [String.data_append, toFixed2_data q h0 h21, hds]
    rfl
  · rw [List.length_take]
    omega
  · rw [List.length_drop]
    omega
  · intro c hc
    rw [List.take_append_drop] at hc
    exact hdig c hc
  · rw [List.take_append_drop]
    exact hval

/-- C12, amended, at a concrete input: the amount 4.5 is written `USD 4.50`. -/
theorem formatCurrency_two_decimals_example :
    formatCurrency (JSNumber.fin (9 / 2)) = "USD 4.50" ∧
      ∃ whole frac : List Char,
        (formatCurrency (JSNumber.fin (9 / 2))).data = ['U', 'S', 'D', ' '] ++ whole ++ '.' :: frac ∧
        frac.length = 2 := by
  refine ⟨by decide!, ?_⟩
  obtain ⟨whole, frac, h1, _, h3, _⟩ :=
    (formatCurrency_two_decimals (9 / 2) (by norm_num) (by norm_num)).1
  exact ⟨whole, frac, h1, h3⟩

/-! ### Tags of the generated HTML -/

theorem scanHtml_append (m : ScanMode) (a b : List Char) :
    scanHtml m (a ++ b) =
      ((scanHtml (scanHtml m a).1 b).1, (scanHtml m a).2 ++ (scanHtml (scanHtml m a).1 b).2) := by
  induction a generalizing m with
  | nil =>
    cases m <;> simp [scanHtml]
  | cons c cs ih =>
    cases m with
    | text =>
      simp only [List.cons_append, scanHtml]
      split_ifs <;> exact ih _
    | tag t =>
      simp only [List.cons_append, scanHtml]
      split_ifs
      · have h := ih (modeAfterTag t.reverse)
        simp only [List.append_eq, h, List.cons_append]
      · exact ih _
    | css t =>
      simp only [List.cons_append, scanHtml]
      split_ifs
      · have h := ih (ScanMode.tag [])
        simp only [List.append_eq, h, List.cons_append]
      · exact ih _

theorem scanHtml_plain (a : List Char) (h : '<' ∉ a) :
    scanHtml ScanMode.text a = (ScanMode.text, []) := by
  induction a with
  | nil => simp [scanHtml]
  | cons c cs ih =>
    have hc : c ≠ '<' := fun hc => h (by rw [hc]; exact List.mem_cons_self _ _)
    have hcs : '<' ∉ cs := fun hm => h (List.mem_cons_of_mem _ hm)
    simp only [scanHtml, if_neg hc]
    exact ih hcs

theorem harmless_append (a b : List Char) (ha : Harmless a) (hb : Harmless b) :
    Harmless (a ++ b) := by
  unfold Harmless at *
  rw [scanHtml_append, ha.1]
  refine ⟨hb.1, ?_⟩
  simp only [List.all_append, ha.2, hb.2, Bool.and_self]

theorem harmless_plain (a : List Char) (h : '<' ∉ a) : Harmless a := by
  unfold Harmless
  rw [scanHtml_plain a h]
  exact ⟨rfl, rfl⟩

theorem selfContained_of_harmless (html : String) (h : Harmless html.data) :
    selfContained html = true := by
  unfold selfContained htmlItems
  rw [h.1]
  simp only [pendingItem, List.append_nil]
  exact h.2


/-! ### Texts without markup -/

theorem plain_of_isDigit (cs : List Char) (h : ∀ c ∈ cs, c.isDigit = true) : '<' ∉ cs :=
  fun hm => absurd (h _ hm) (by decide)

theorem plain_natDigits (n : Nat) : '<' ∉ natDigits n :=
  plain_of_isDigit _ (natDigits_isDigit n)

theorem plain_append (a b : List Char) (ha : '<' ∉ a) (hb : '<' ∉ b) : '<' ∉ a ++ b := by
  intro hm
  rcases List.mem_append.mp hm with h | h
  · exact ha h
  · exact hb h

theorem plain_replicate (k : Nat) (c : Char) (hc : c ≠ '<') : '<' ∉ List.replicate k c := by
  intro hm
  exact hc (List.mem_replicate.mp hm).2.symm

theorem plain_take (k : Nat) (a : List Char) (ha : '<' ∉ a) : '<' ∉ a.take k :=
  fun hm => ha (List.mem_of_mem_take hm)

theorem plain_drop (k : Nat) (a : List Char) (ha : '<' ∉ a) : '<' ∉ a.drop k :=
  fun hm => ha (List.mem_of_mem_drop hm)

theorem plain_layoutDigits (ds : List Char) (k : Nat) (n : Int) (h : '<' ∉ ds) :
    '<' ∉ layoutDigits ds k n := by
  have hmant : '<' ∉ (if k = 1 then ds else ds.take 1 ++ ['.'] ++ ds.drop 1) := by
    by_cases hk : k = 1
    · rw [if_pos hk]
      exact h
    · rw [if_neg hk]
      exact plain_append _ _ (plain_append _ _ (plain_take _ _ h) (by decide))
        (plain_drop _ _ h)
  have hsign : '<' ∉ ['e', if 0 ≤ n - 1 then '+' else '-'] := by
    by_cases he : 0 ≤ n - 1
    · rw [if_pos he]
      decide
    · rw [if_neg he]
      decide
  unfold layoutDigits
  by_cases h1 : (k : Int) ≤ n ∧ n ≤ 21
  · rw [if_pos h1]
    exact plain_append _ _ h (plain_replicate _ _ (by decide))
  · rw [if_neg h1]
    by_cases h2 : 0 < n ∧ n ≤ 21
    · rw [if_pos h2]
      exact plain_append _ _ (plain_append _ _ (plain_take _ _ h) (by decide))
        (plain_drop _ _ h)
    · rw [if_neg h2]
      by_cases h3 : -6 < n ∧ n ≤ 0
      · rw [if_pos h3]
        exact plain_append _ _ (plain_append _ _ (by decide) (plain_replicate _ _ (by decide))) h
      · rw [if_neg h3]
        exact plain_append _ _ (plain_append _ _ hmant hsign) (plain_natDigits _)

theorem plain_positiveToString (q : ℚ) : '<' ∉ positiveToString q := by
  unfold positiveToString
  simp only
  split_ifs
  · exact plain_layoutDigits _ _ _ (by decide)
  · exact plain_layoutDigits _ _ _ (plain_natDigits _)

theorem plain_numberToString (x : JSNumber) : '<' ∉ (numberToString x).data := by
  cases x with
  | fin q =>
    show '<' ∉ (if q = 0 then "0"
      else if q < 0 then String.mk ('-' :: positiveToString (-q))
      else String.mk (positiveToString q)).data
    by_cases h0 : q = 0
    · rw [if_pos h0]
      decide
    · rw [if_neg h0]
      by_cases hneg : q < 0
      · rw [if_pos hneg]
        intro hm
        rcases List.mem_cons.mp hm with h | h
        · exact absurd h (by decide)
        · exact plain_positiveToString _ h
      · rw [if_neg hneg]
        exact plain_positiveToString q
  | posInf => decide
  | negInf => decide
  | nan => decide

theorem plain_padStart (s : String) (n : Nat) (c : Char) (hs : '<' ∉ s.data) (hc : c ≠ '<') :
    '<' ∉ (padStart s n c).data :=
  plain_append _ _ (plain_replicate _ _ hc) hs

theorem plain_toFixed2 (x : JSNumber) : '<' ∉ (toFixed2 x).data := by
  cases x with
  | fin q =>
    have hsign : '<' ∉ (if q < 0 then "-" else "").data := by
      by_cases hq : q < 0
      · rw [if_pos hq]
        decide
      · rw [if_neg hq]
        decide
    have hm : '<' ∉ (padStart (natToString (toFixedUnits |q|)) 3 '0').data :=
      plain_padStart _ _ _ (plain_natDigits _) (by decide)
    show '<' ∉ (if ((10 ^ 21 : Nat) : ℚ) ≤ |q|
      then (if q < 0 then "-" else "") ++ numberToString (JSNumber.fin |q|)
      else (if q < 0 then "-" else "") ++
        String.mk ((padStart (natToString (toFixedUnits |q|)) 3 '0').data.take
          ((padStart (natToString (toFixedUnits |q|)) 3 '0').length - 2)) ++ "." ++
        String.mk ((padStart (natToString (toFixedUnits |q|)) 3 '0').data.drop
          ((padStart (natToString (toFixedUnits |q|)) 3 '0').length - 2))).data
    by_cases hbig : ((10 ^ 21 : Nat) : ℚ) ≤ |q|
    · rw [if_pos hbig, String.data_append]
      exact plain_append _ _ hsign (plain_numberToString _)
    · rw [if_neg hbig]
      simp only [String.data_append]
      exact plain_append _ _ (plain_append _ _ (plain_append _ _ hsign (plain_take _ _ hm))
        (by decide)) (plain_drop _ _ hm)
  | posInf => decide
  | negInf => decide
  | nan => decide

theorem plain_formatCurrency (x : JSNumber) : '<' ∉ (formatCurrency x).data := by
  unfold formatCurrency
  rw [String.data_append]
  exact plain_append _ _ (by decide) (plain_toFixed2 x)

theorem plain_formatDate (utcOffsetMinutes : Int) (date : Nat) :
    '<' ∉ (formatDate utcOffsetMinutes date).data := by
  unfold formatDate
  simp only [String.data_append]
  exact plain_append _ _ (plain_append _ _ (plain_append _ _ (plain_append _ _
    (plain_padStart _ _ _ (plain_natDigits _) (by decide)) (by decide))
    (plain_padStart _ _ _ (plain_natDigits _) (by decide))) (by decide)) (plain_natDigits _)

theorem plain_invoiceNumberFor (count : Nat) : '<' ∉ (invoiceNumberFor count).data := by
  rw [invoiceNumberFor_data]
  exact plain_append _ _ (by decide)
    (plain_append _ _ (plain_replicate _ _ (by decide)) (plain_natDigits _))


/-! ### Self-containedness of the generated HTML -/

theorem harmless_template :
    Harmless tplHead.data ∧ Harmless (tplStyleOpen ++ invoiceStyles ++ tplBody).data ∧
      Harmless tplDate.data ∧ Harmless tplBilledTo.data ∧ Harmless tplEmail.data ∧
      Harmless tplTable.data ∧ Harmless tplTotals.data ∧ Harmless tplGst.data ∧
      Harmless tplTotalAmount.data ∧ Harmless tplFooter.data ∧
      Harmless rowOpen.data ∧ Harmless cellSep.data ∧ Harmless rowClose.data := by
  unfold Harmless
  decide!

theorem harmless_productRow (p : LineItem) (hname : '<' ∉ p.name.data) :
    Harmless (productRow p).data := by
  obtain ⟨_, _, _, _, _, _, _, _, _, _, hopen, hsep, hclose⟩ := harmless_template
  unfold productRow
  simp only [String.data_append]
  exact harmless_append _ _ (harmless_append _ _ (harmless_append _ _ (harmless_append _ _
    (harmless_append _ _ (harmless_append _ _ (harmless_append _ _ (harmless_append _ _
      hopen (harmless_plain _ hname)) hsep)
      (harmless_plain _ (plain_numberToString _))) hsep)
      (harmless_plain _ (plain_formatCurrency _))) hsep)
      (harmless_plain _ (plain_formatCurrency _))) hclose

theorem harmless_rows (ps : List LineItem) (hnames : ∀ p ∈ ps, '<' ∉ p.name.data) :
    Harmless (joinStrings (ps.map productRow)).data := by
  induction ps with
  | nil => exact harmless_plain _ (by simp [joinStrings])
  | cons p ps ih =>
    rw [List.map_cons, joinStrings, String.data_append]
    exact harmless_append _ _ (harmless_productRow p (hnames p (List.mem_cons_self _ _)))
      (ih (fun q hq => hnames q (List.mem_cons_of_mem _ hq)))

theorem harmless_invoiceHTML (utcOffsetMinutes : Int) (invoice : Invoice) (owner : User)
    (hnumber : '<' ∉ (templateString invoice.invoiceNumber).data)
    (hname : '<' ∉ owner.name.data) (hemail : '<' ∉ owner.email.data)
    (hproducts : ∀ p ∈ invoice.products, '<' ∉ p.name.data) :
    Harmless (invoiceHTML utcOffsetMinutes invoice owner).data := by
  obtain ⟨h1, h2, h3, h4, h5, h6, h7, h8, h9, h10, _, _, _⟩ := harmless_template
  have hdata : (invoiceHTML utcOffsetMinutes invoice owner).data =
      tplHead.data ++ ((templateString invoice.invoiceNumber).data ++
      ((tplStyleOpen ++ invoiceStyles ++ tplBody).data ++
      ((templateString invoice.invoiceNumber).data ++ (tplDate.data ++
      ((formatDate utcOffsetMinutes invoice.date).data ++ (tplBilledTo.data ++
      (owner.name.data ++ (tplEmail.data ++ (owner.email.data ++ (tplTable.data ++
      ((joinStrings (invoice.products.map productRow)).data ++ (tplTotals.data ++
      ((formatCurrency invoice.totalCharges).data ++ (tplGst.data ++
      ((formatCurrency invoice.gst).data ++ (tplTotalAmount.data ++
      ((formatCurrency invoice.totalAmount).data ++ tplFooter.data))))))))))))))))) := by
    unfold invoiceHTML
    simp only [String.data_append, List.append_assoc]
  rw [hdata]
  exact harmless_append _ _ h1 (harmless_append _ _ (harmless_plain _ hnumber)
    (harmless_append _ _ h2 (harmless_append _ _ (harmless_plain _ hnumber)
    (harmless_append _ _ h3 (harmless_append _ _ (harmless_plain _ (plain_formatDate _ _))
    (harmless_append _ _ h4 (harmless_append _ _ (harmless_plain _ hname)
    (harmless_append _ _ h5 (harmless_append _ _ (harmless_plain _ hemail)
    (harmless_append _ _ h6 (harmless_append _ _ (harmless_rows _ hproducts)
    (harmless_append _ _ h7 (harmless_append _ _ (harmless_plain _ (plain_formatCurrency _))
    (harmless_append _ _ h8 (harmless_append _ _ (harmless_plain _ (plain_formatCurrency _))
    (harmless_append _ _ h9 (harmless_append _ _ (harmless_plain _ (plain_formatCurrency _))
    h10)))))))))))))))))

/-- C13, as stated, fails: a product whose name is an `img` element with a remote address
passes validation and keeps its name in the invoice document the handler builds; the HTML
of an invoice with that product contains the element, so rendering it fetches the remote
image. -/
theorem generateInvoiceHTML_remote_image :
    validationResult (some remoteImageProducts) = [] ∧
      (buildInvoice exampleEnv 1 (sanitizeProducts remoteImageProducts)).products.map
          (fun li => li.name) = ["<img src=\"http://tracker.example/pixel.png\">"] ∧
      generateInvoiceHTML 0 ⟨savedInvoice exampleEnv [] 1 remoteImageProducts, some exampleUser⟩
        = Except.ok (invoiceHTML 0 (savedInvoice exampleEnv [] 1 remoteImageProducts)
            exampleUser) ∧
      HtmlItem.tag "img src=\"http://tracker.example/pixel.png\"".data ∈
        htmlItems (invoiceHTML 0 (savedInvoice exampleEnv [] 1 remoteImageProducts)
          exampleUser) ∧
      selfContained (invoiceHTML 0 (savedInvoice exampleEnv [] 1 remoteImageProducts)
        exampleUser) = false := by
  refine ⟨by decide!, by decide!, rfl, by decide!, by decide!⟩

theorem scan_append (a b : List Char) (i j : List HtmlItem)
    (ha : scanHtml ScanMode.text a = (ScanMode.text, i))
    (hb : scanHtml ScanMode.text b = (ScanMode.text, j)) :
    scanHtml ScanMode.text (a ++ b) = (ScanMode.text, i ++ j) := by
  rw [scanHtml_append, ha, hb]

theorem scan_of_harmless (s : String) (h : Harmless s.data) :
    scanHtml ScanMode.text s.data = (ScanMode.text, scannedItems s) :=
  Prod.ext h.1 rfl

theorem scan_productRow (p : LineItem) (hname : '<' ∉ p.name.data) :
    scanHtml ScanMode.text (productRow p).data = (ScanMode.text, rowItems) := by
  obtain ⟨_, _, _, _, _, _, _, _, _, _, hopen, hsep, hclose⟩ := harmless_template
  have hdata : (productRow p).data = rowOpen.data ++ (p.name.data ++ (cellSep.data ++
      ((numberToString p.qty).data ++ (cellSep.data ++ ((formatCurrency p.rate).data ++
      (cellSep.data ++ ((formatCurrency p.total).data ++ rowClose.data))))))) := by
    unfold productRow
    simp only [String.data_append, List.append_assoc]
  have hitems : rowItems = scannedItems rowOpen ++ ([] ++ (scannedItems cellSep ++
      ([] ++ (scannedItems cellSep ++ ([] ++ (scannedItems cellSep ++
      ([] ++ scannedItems rowClose))))))) := by
    simp only [rowItems, List.nil_append, List.append_assoc]
  rw [hdata, hitems]
  exact scan_append _ _ _ _ (scan_of_harmless _ hopen)
    (scan_append _ _ _ _ (scanHtml_plain _ hname)
    (scan_append _ _ _ _ (scan_of_harmless _ hsep)
    (scan_append _ _ _ _ (scanHtml_plain _ (plain_numberToString _))
    (scan_append _ _ _ _ (scan_of_harmless _ hsep)
    (scan_append _ _ _ _ (scanHtml_plain _ (plain_formatCurrency _))
    (scan_append _ _ _ _ (scan_of_harmless _ hsep)
    (scan_append _ _ _ _ (scanHtml_plain _ (plain_formatCurrency _))
      (scan_of_harmless _ hclose))))))))

theorem scan_rows (ps : List LineItem) (hnames : ∀ p ∈ ps, '<' ∉ p.name.data) :
    scanHtml ScanMode.text (joinStrings (ps.map productRow)).data
      = (ScanMode.text, (List.replicate ps.length rowItems).flatten) := by
  induction ps with
  | nil => rfl
  | cons p ps ih =>
    rw [List.map_cons, joinStrings, String.data_append, List.length_cons,
      List.replicate_succ, List.flatten_cons]
    exact scan_append _ _ _ _ (scan_productRow p (hnames p (List.mem_cons_self _ _)))
      (ih (fun q hq => hnames q (List.mem_cons_of_mem _ hq)))

theorem scan_invoiceHTML (utcOffsetMinutes : Int) (invoice : Invoice) (owner : User)
    (hnumber : '<' ∉ (templateString invoice.invoiceNumber).data)
    (hname : '<' ∉ owner.name.data) (hemail : '<' ∉ owner.email.data)
    (hproducts : ∀ p ∈ invoice.products, '<' ∉ p.name.data) :
    scanHtml ScanMode.text (invoiceHTML utcOffsetMinutes invoice owner).data
      = (ScanMode.text, templateItems invoice.products.length) := by
  obtain ⟨h1, h2, h3, h4, h5, h6, h7, h8, h9, h10, _, _, _⟩ := harmless_template
  have hdata : (invoiceHTML utcOffsetMinutes invoice owner).data =
      tplHead.data ++ ((templateString invoice.invoiceNumber).data ++
      ((tplStyleOpen ++ invoiceStyles ++ tplBody).data ++
      ((templateString invoice.invoiceNumber).data ++ (tplDate.data ++
      ((formatDate utcOffsetMinutes invoice.date).data ++ (tplBilledTo.data ++
      (owner.name.data ++ (tplEmail.data ++ (owner.email.data ++ (tplTable.data ++
      ((joinStrings (invoice.products.map productRow)).data ++ (tplTotals.data ++
      ((formatCurrency invoice.totalCharges).data ++ (tplGst.data ++
      ((formatCurrency invoice.gst).data ++ (tplTotalAmount.data ++
      ((formatCurrency invoice.totalAmount).data ++ tplFooter.data))))))))))))))))) := by
    unfold invoiceHTML
    simp only [String.data_append, List.append_assoc]
  have hitems : templateItems invoice.products.length =
      scannedItems tplHead ++ ([] ++
      (scannedItems (tplStyleOpen ++ invoiceStyles ++ tplBody) ++
      ([] ++ (scannedItems tplDate ++
      ([] ++ (scannedItems tplBilledTo ++
      ([] ++ (scannedItems tplEmail ++ ([] ++ (scannedItems tplTable ++
      ((List.replicate invoice.products.length rowItems).flatten ++ (scannedItems tplTotals ++
      ([] ++ (scannedItems tplGst ++
      ([] ++ (scannedItems tplTotalAmount ++
      ([] ++ scannedItems tplFooter))))))))))))))))) := by
    simp only [templateItems, List.nil_append, List.append_assoc]
  rw [hdata, hitems]
  exact scan_append _ _ _ _ (scan_of_harmless _ h1)
    (scan_append _ _ _ _ (scanHtml_plain _ hnumber)
    (scan_append _ _ _ _ (scan_of_harmless _ h2)
    (scan_append _ _ _ _ (scanHtml_plain _ hnumber)
    (scan_append _ _ _ _ (scan_of_harmless _ h3)
    (scan_append _ _ _ _ (scanHtml_plain _ (plain_formatDate _ _))
    (scan_append _ _ _ _ (scan_of_harmless _ h4)
    (scan_append _ _ _ _ (scanHtml_plain _ hname)
    (scan_append _ _ _ _ (scan_of_harmless _ h5)
    (scan_append _ _ _ _ (scanHtml_plain _ hemail)
    (scan_append _ _ _ _ (scan_of_harmless _ h6)
    (scan_append _ _ _ _ (scan_rows _ hproducts)
    (scan_append _ _ _ _ (scan_of_harmless _ h7)
    (scan_append _ _ _ _ (scanHtml_plain _ (plain_formatCurrency _))
    (scan_append _ _ _ _ (scan_of_harmless _ h8)
    (scan_append _ _ _ _ (scanHtml_plain _ (plain_formatCurrency _))
    (scan_append _ _ _ _ (scan_of_harmless _ h9)
    (scan_append _ _ _ _ (scanHtml_plain _ (plain_formatCurrency _))
      (scan_of_harmless _ h10))))))))))))))))))

/-- C13, amended: for every invoice whose invoice number, product names, owner name and
owner email contain no `<`, the tags and style sheets of the HTML are exactly those of the
fixed template, with the tags of one table row for each product, and the HTML is
self-contained: none of them references another resource. The numbers the pre-save hook
generates contain no `<`. -/
theorem generateInvoiceHTML_selfContained (utcOffsetMinutes : Int)
    (invoice : PopulatedInvoice) (owner : User) (howner : invoice.user = some owner)
    (hnumber : '<' ∉ (templateString invoice.doc.invoiceNumber).data)
    (hname : '<' ∉ owner.name.data) (hemail : '<' ∉ owner.email.data)
    (hproducts : ∀ p ∈ invoice.doc.products, '<' ∉ p.name.data) :
    (∃ html, generateInvoiceHTML utcOffsetMinutes invoice = Except.ok html ∧
      htmlItems html = templateItems invoice.doc.products.length ∧
      selfContained html = true) ∧
    (templateItems invoice.doc.products.length).all itemSelfContained = true ∧
    (∀ count, '<' ∉ (templateString (some (invoiceNumberFor count))).data) := by
  have hscan := scan_invoiceHTML utcOffsetMinutes invoice.doc owner hnumber hname hemail
    hproducts
  have hitems : htmlItems (invoiceHTML utcOffsetMinutes invoice.doc owner)
      = templateItems invoice.doc.products.length := by
    unfold htmlItems
    rw [hscan]
    exact List.append_nil _
  have hself : selfContained (invoiceHTML utcOffsetMinutes invoice.doc owner) = true :=
    selfContained_of_harmless _
      (harmless_invoiceHTML utcOffsetMinutes invoice.doc owner hnumber hname hemail hproducts)
  refine ⟨⟨invoiceHTML utcOffsetMinutes invoice.doc owner, ?_, hitems, hself⟩, ?_, ?_⟩
  · unfold generateInvoiceHTML
    rw [howner]
  · rw [← hitems]
    exact hself
  · intro count
    exact plain_invoiceNumberFor count

/-- C13, amended, at a concrete input: the HTML of the example invoice has the tags of the
fixed template with two table rows, and is self-contained. -/
theorem generateInvoiceHTML_selfContained_example :
    htmlItems (invoiceHTML 0 (savedInvoice exampleEnv [] 1 exampleProducts) exampleUser)
        = templateItems 2 ∧
      selfContained (invoiceHTML 0 (savedInvoice exampleEnv [] 1 exampleProducts) exampleUser)
        = true := by
  obtain ⟨html, hhtml, hitems, hself⟩ := (generateInvoiceHTML_selfContained 0
    ⟨savedInvoice exampleEnv [] 1 exampleProducts, some exampleUser⟩ exampleUser rfl
    (by decide!) (by decide) (by decide) (by decide!)).1
  have hok : generateInvoiceHTML 0
      ⟨savedInvoice exampleEnv [] 1 exampleProducts, some exampleUser⟩
      = Except.ok (invoiceHTML 0 (savedInvoice exampleEnv [] 1 exampleProducts) exampleUser) :=
    rfl
  rw [hok] at hhtml
  rw [Except.ok.injEq] at hhtml
  rw [hhtml]
  exact ⟨hitems, hself⟩

/-! ## The product form of the client -/

/-- C22: `onSubmit` dispatches `createInvoice` exactly when some form product passes the
test (name not blank, qty above 0, rate at least 0); the payload is then exactly the form
products that pass the test, in their original order; when none passes, the only effect is
the error toast. -/
theorem onSubmit_dispatches_valid_products (products : List Product) :
    ((∃ payload, onSubmit products = ClientEffect.dispatchCreateInvoice payload) ↔
        ∃ p ∈ products, jsTrim p.name ≠ "" ∧ isPositive p.qty = true ∧
          isNonNegative p.rate = true) ∧
      (∀ payload, onSubmit products = ClientEffect.dispatchCreateInvoice payload →
        payload = products.filter (fun p => decide (jsTrim p.name ≠ "") &&
          isPositive p.qty && isNonNegative p.rate)) ∧
      ((¬ ∃ p ∈ products, jsTrim p.name ≠ "" ∧ isPositive p.qty = true ∧
          isNonNegative p.rate = true) →
        onSubmit products = ClientEffect.toastError "Please add at least one valid product") := by
  have hex : (∃ p ∈ products, jsTrim p.name ≠ "" ∧ isPositive p.qty = true ∧
      isNonNegative p.rate = true) ↔ products.filter isValidFormProduct ≠ [] := by
    rw [ne_eq, List.filter_eq_nil_iff]
    simp only [isValidFormProduct, Bool.and_eq_true, decide_eq_true_eq, not_forall,
      Classical.not_not, exists_prop, and_assoc]
  have hrun : onSubmit products =
      if (products.filter isValidFormProduct).length = 0 then
        ClientEffect.toastError "Please add at least one valid product"
      else ClientEffect.dispatchCreateInvoice (products.filter isValidFormProduct) := rfl
  refine ⟨?_, ?_, ?_⟩
  · rw [hex, hrun]
    constructor
    · rintro ⟨payload, h⟩ hnil
      rw [hnil] at h
      simp at h
    · intro hne
      refine ⟨products.filter isValidFormProduct, ?_⟩
      rw [if_neg]
      rwa [List.length_eq_zero]
  · intro payload h
    rw [hrun] at h
    split_ifs at h
    simp only [ClientEffect.dispatchCreateInvoice.injEq] at h
    rw [← h]
    rfl
  · intro hnone
    rw [hex, ne_eq, Classical.not_not] at hnone
    rw [hrun, hnone]
    rfl

/-- C22 at concrete inputs: a form with a blank first row and a filled second row
dispatches the second row alone; a form with only the blank row shows the error. -/
theorem onSubmit_example :
    onSubmit partlyFilledForm
        = ClientEffect.dispatchCreateInvoice [⟨"Widget", JSNumber.fin 2, JSNumber.fin 10⟩] ∧
      onSubmit [⟨"", JSNumber.fin 1, JSNumber.fin 0⟩]
        = ClientEffect.toastError "Please add at least one valid product" := by
  refine ⟨?_, ?_⟩
  · have h := (onSubmit_dispatches_valid_products partlyFilledForm).1.mpr
      ⟨⟨"Widget", JSNumber.fin 2, JSNumber.fin 10⟩, by decide, by decide, by decide!, by decide!⟩
    obtain ⟨payload, hpayload⟩ := h
    rw [hpayload, (onSubmit_dispatches_valid_products partlyFilledForm).2.1 payload hpayload]
    decide!
  · exact (onSubmit_dispatches_valid_products [⟨"", JSNumber.fin 1, JSNumber.fin 0⟩]).2.2
      (by decide!)

theorem orZero_of_ne_nan (x : JSNumber) (h : x ≠ JSNumber.nan) : orZero x = x := by
  cases x with
  | fin q =>
    by_cases hq : q = 0
    · simp [orZero, isTruthy, hq]
    · simp [orZero, isTruthy, hq]
  | posInf => rfl
  | negInf => rfl
  | nan => exact absurd rfl h

theorem clientLineTotal_eq (p : Product) (hqty : isIntMin1 p.qty = true)
    (hrate : isFloatMin0 p.rate = true) :
    orZero (parseFloatOfNumber p.qty) * orZero (parseFloatOfNumber p.rate) = lineTotal p := by
  have h1 : p.qty ≠ JSNumber.nan := by
    intro h
    rw [h] at hqty
    simp [isIntMin1] at hqty
  have h2 : p.rate ≠ JSNumber.nan := by
    intro h
    rw [h] at hrate
    simp [isFloatMin0] at hrate
  unfold parseFloatOfNumber lineTotal
  rw [orZero_of_ne_nan _ h1, orZero_of_ne_nan _ h2]

theorem clientTotalCharges_eq (ps : List Product)
    (hvalid : ∀ p ∈ ps, isIntMin1 p.qty = true ∧ isFloatMin0 p.rate = true) (acc : JSNumber) :
    ps.foldl
      (fun acc product =>
        let qty := orZero (parseFloatOfNumber product.qty)
        let rate := orZero (parseFloatOfNumber product.rate)
        acc + qty * rate) acc
      = (ps.map lineTotal).foldl (fun a x => a + x) acc := by
  induction ps generalizing acc with
  | nil => rfl
  | cons p ps ih =>
    simp only [List.foldl_cons, List.map_cons]
    rw [clientLineTotal_eq p (hvalid p (List.mem_cons_self _ _)).1
      (hvalid p (List.mem_cons_self _ _)).2]
    exact ih (fun q hq => hvalid q (List.mem_cons_of_mem _ hq)) _

/-- C23: for every product list that passes the validation of the server, the client's
`calculateTotals` returns the `totalCharges`, `gst` and `totalAmount` that the Create
Invoice handler computes for the list and sets on its invoice document; both use the same
number for the literal `0.18`. -/
theorem calculateTotals_eq_server (env : Env) (userId : Nat) (ps : List Product)
    (hvalid : validationResult (some ps) = []) :
    clientGstRate = gstRate ∧
      calculateTotals ps =
        ⟨(buildInvoice env userId (sanitizeProducts ps)).totalCharges,
         (buildInvoice env userId (sanitizeProducts ps)).gst,
         (buildInvoice env userId (sanitizeProducts ps)).totalAmount⟩ := by
  have hall : ∀ p ∈ ps, isIntMin1 p.qty = true ∧ isFloatMin0 p.rate = true :=
    fun p hp => (((validationResult_eq_nil ps).mp hvalid).2 p hp).2
  have hcharges : (calculateTotals ps).totalCharges = sumNumbers (ps.map lineTotal) :=
    clientTotalCharges_eq ps hall (JSNumber.fin 0)
  have hserver : (buildInvoice env userId (sanitizeProducts ps)).totalCharges
      = sumNumbers (ps.map lineTotal) := buildInvoice_totalCharges env userId ps
  have hshape : calculateTotals ps = ⟨(calculateTotals ps).totalCharges,
      (calculateTotals ps).totalCharges * clientGstRate,
      (calculateTotals ps).totalCharges
        + (calculateTotals ps).totalCharges * clientGstRate⟩ := rfl
  have hbuild : (buildInvoice env userId (sanitizeProducts ps)).gst
      = (buildInvoice env userId (sanitizeProducts ps)).totalCharges * gstRate ∧
      (buildInvoice env userId (sanitizeProducts ps)).totalAmount
      = (buildInvoice env userId (sanitizeProducts ps)).totalCharges
        + (buildInvoice env userId (sanitizeProducts ps)).totalCharges * gstRate :=
    ⟨rfl, rfl⟩
  refine ⟨rfl, ?_⟩
  rw [hshape, hbuild.1, hbuild.2, hcharges, hserver]
  rfl

/-- C23 at a concrete input: for the example products, which pass the validation of the
server, the client shows 25, 4.50 and 29.50, the totals the server computes for them. -/
theorem calculateTotals_example :
    validationResult (some exampleProducts) = [] ∧
      calculateTotals exampleProducts
        = ⟨JSNumber.fin 25, JSNumber.fin (9 / 2), JSNumber.fin (59 / 2)⟩ ∧
      calculateTotals exampleProducts =
        ⟨(buildInvoice exampleEnv 1 (sanitizeProducts exampleProducts)).totalCharges,
         (buildInvoice exampleEnv 1 (sanitizeProducts exampleProducts)).gst,
         (buildInvoice exampleEnv 1 (sanitizeProducts exampleProducts)).totalAmount⟩ :=
  ⟨by decide!, by decide!,
    (calculateTotals_eq_server exampleEnv 1 exampleProducts (by decide!)).2⟩

/-! ## The products of the invoice document -/

/-- C24, as stated, fails: the valid product named `  Widget ` (with blanks around the
name) is carried by the invoice document under the name `Widget`: the `trim()` of the
validation chain replaces the name in the request before the handler reads it. -/
theorem createInvoice_trims_name :
    validationResult (some paddedNameProducts) = [] ∧
      paddedNameProducts.map (fun p => p.name) = ["  Widget "] ∧
      (buildInvoice exampleEnv 1 (sanitizeProducts paddedNameProducts)).products.map
          (fun li => li.name) = ["Widget"] ∧
      (buildInvoice exampleEnv 1 (sanitizeProducts paddedNameProducts)).products.map
          (fun li => li.name) ≠ paddedNameProducts.map (fun p => p.name) := by
  refine ⟨by decide!, rfl, by decide!, by decide!⟩

/-- C24, amended: for every product list that passes validation, the products of the
invoice document the handler builds are the submitted products, as many and in the same
order, each with its submitted qty and rate, its name trimmed of surrounding whitespace,
and the computed `total = qty * rate` as the only new field; a name without surrounding
whitespace is kept unchanged. -/
theorem createInvoice_products_frame (env : Env) (userId : Nat) (ps : List Product)
    (hvalid : validationResult (some ps) = []) :
    (buildInvoice env userId (sanitizeProducts ps)).products
        = ps.map (fun p => ⟨jsTrim p.name, p.qty, p.rate, p.qty * p.rate⟩) ∧
      (buildInvoice env userId (sanitizeProducts ps)).products.length = ps.length ∧
      (buildInvoice env userId (sanitizeProducts ps)).products.map (fun li => (li.qty, li.rate))
        = ps.map (fun p => (p.qty, p.rate)) ∧
      ((∀ p ∈ ps, jsTrim p.name = p.name) →
        (buildInvoice env userId (sanitizeProducts ps)).products.map
            (fun li => (li.name, li.qty, li.rate))
          = ps.map (fun p => (p.name, p.qty, p.rate))) := by
  have _ := hvalid
  have hprod : (buildInvoice env userId (sanitizeProducts ps)).products
      = ps.map (fun p => ⟨jsTrim p.name, p.qty, p.rate, p.qty * p.rate⟩) := by
    rw [buildInvoice_products]
    simp [sanitizeProducts, lineTotal, Function.comp_def]
  refine ⟨hprod, ?_, ?_, ?_⟩
  · rw [hprod, List.length_map]
  · rw [hprod, List.map_map]
    rfl
  · intro hnames
    rw [hprod, List.map_map]
    apply List.map_congr_left
    intro p hp
    simp only [Function.comp, hnames p hp]

/-- C24, amended, at a concrete input: the invoice document built from the example
products holds Widget and Gadget with their qty and rate and the totals 20 and 5. -/
theorem createInvoice_products_frame_example :
    validationResult (some exampleProducts) = [] ∧
      (buildInvoice exampleEnv 1 (sanitizeProducts exampleProducts)).products
        = [⟨"Widget", JSNumber.fin 2, JSNumber.fin 10, JSNumber.fin 20⟩,
          ⟨"Gadget", JSNumber.fin 1, JSNumber.fin 5, JSNumber.fin 5⟩] := by
  have hvalid : validationResult (some exampleProducts) = [] := by decide!
  refine ⟨hvalid, ?_⟩
  rw [(createInvoice_products_frame exampleEnv 1 exampleProducts hvalid).1]
  decide!

end InvoiceGenerator
